import Mathlib

/-!
Dirty-page tracking of the PDS VFIO driver (drivers/vfio/pci/pds/dirty.c).

A shallow embedding of the enable / disable / sync operations of dirty.c and of
the bitmap merger, with the device, the allocator and the DMA layer as explicit
per-call environments, and the device commands and output-sink calls recorded
as a trace of events.

Conventions.
* Machine integers are natural numbers; every C operation that can wrap is
  followed by an explicit reduction modulo 2^64, 2^32, 2^16 or 2^8.
* A buffer obtained from the allocator is a map from byte offset (relative to
  the pointer) to byte value; a NULL pointer is none. The logical length of
  the two bitmaps is the field bmp_bytes, as in the C structure.
* Every function returns the C return value (0 or a negative errno) together
  with the new device state and the list of events it produced, in order.
-/

namespace PdsDirty

/-! ## Machine arithmetic and kernel macros -/

/-- Reduction of a value to an unsigned 64-bit integer (u64, unsigned long). -/
def u64 (n : Nat) : Nat := n % 2 ^ 64

/-- Reduction of a value to an unsigned 32-bit integer (u32). -/
def u32 (n : Nat) : Nat := n % 2 ^ 32

/-- Reduction of a value to an unsigned 16-bit integer (u16). -/
def u16 (n : Nat) : Nat := n % 2 ^ 16

/-- Reduction of a value to an unsigned 8-bit integer (u8). -/
def u8 (n : Nat) : Nat := n % 2 ^ 8

/-- Subtraction a - b of two u64 values, wrapping modulo 2^64. -/
def sub64 (a b : Nat) : Nat := u64 (a + (2 ^ 64 - b % 2 ^ 64))

/-- Modelled from the spec: the macro DIV_ROUND_UP (linux/math.h) is not under
src/; the spec reads it as ceil(n / d). It is taken as the kernel formula
(((n) + (d) - 1) / (d)) on 64-bit unsigned operands: the sum wraps modulo
2^64 before the division, and without wrap-around it is that ceiling. -/
def DIV_ROUND_UP (n d : Nat) : Nat := u64 (n + d + (2 ^ 64 - 1)) / d

/-- Modelled from the spec: the macro round_up (linux/math.h) is not under
src/; the spec reads it as rounding up to a multiple of y. It is taken as the
kernel formula ((((x) - 1) | ((y) - 1)) + 1) for a power of two y, on 64-bit
unsigned operands. -/
def round_up (x y : Nat) : Nat := u64 ((u64 (x + (2 ^ 64 - 1)) ||| (y - 1)) + 1)

/-- Modelled from the spec: the macro ALIGN (linux/align.h) is not under src/;
the spec reads it as rounding up to a multiple of a. It is taken as the kernel
formula (((x) + ((a) - 1)) & ~((a) - 1)) for a power of two a, on 64-bit
unsigned operands. -/
def ALIGN (x a : Nat) : Nat := u64 (x + (a - 1)) &&& (2 ^ 64 - 1 - (a - 1))

/-- Modelled from the spec: the macro BIT (linux/bits.h) is not under src/; the
spec speaks of the set bit b of a word. It is taken as (1UL << (nr)). -/
def BIT (nr : Nat) : Nat := u64 (1 <<< nr)

/-- The position of the highest set bit of n, found in at most fuel halvings. -/
def ilog2_loop : Nat → Nat → Nat
  | 0, _ => 0
  | fuel + 1, n => if 2 ≤ n then ilog2_loop fuel (n / 2) + 1 else 0

/-- Modelled from the spec: the helper ilog2 (linux/log2.h) is not under src/;
the spec reads it as log2(page_size). It is taken as the position of the
highest set bit of a 64-bit operand. -/
def ilog2 (n : Nat) : Nat := ilog2_loop 64 n

/-- Modelled from the spec: the constant BITS_PER_BYTE (linux/bits.h) is not
under src/; a byte has 8 bits. -/
def BITS_PER_BYTE : Nat := 8

/-- Modelled from the spec: the errno values (errno.h) are not under src/; the
usual Linux numbers are taken. Errno EINVAL. -/
def EINVAL : Int := 22
/-- Errno EEXIST. -/
def EEXIST : Int := 17
/-- Errno EOPNOTSUPP. -/
def EOPNOTSUPP : Int := 95
/-- Errno ENOMEM. -/
def ENOMEM : Int := 12
/-- Errno EFAULT. -/
def EFAULT : Int := 14
/-- Errno for an input/output error. -/
def EIO : Int := 5

/-- Platform parameters that the sources under src/ do not fix, taken as
parameters: the host page size PAGE_SIZE and the bit width of the num_sge
field of struct pds_vfio_region (declared in dirty.h). -/
structure Cfg where
  PAGE_SIZE : Nat
  num_sge_bits : Nat

/-! ## Data model -/

/-- Byte-addressed buffer: the byte stored at each offset from the pointer. -/
abbrev Mem := Nat → Nat

/-- Modelled from the spec: struct pds_lm_sg_elem is declared outside src/; the
spec describes a scatter descriptor as a (device address, length) pair. -/
structure pds_lm_sg_elem where
  addr : Nat
  len : Nat
deriving DecidableEq, Repr

/-- Modelled from the spec: struct pds_lm_dirty_region_info is declared outside
src/; the spec gives the region descriptor as base_address (u64), page_count
(u32) and page_size_log2 (u8), the fields dirty.c assigns. -/
structure pds_lm_dirty_region_info where
  dma_base : Nat
  page_count : Nat
  page_size_log2 : Nat
deriving DecidableEq, Repr

/-- Modelled from the spec: struct pds_vfio_region (dirty.h) is not under src/;
the fields are those dirty.c reads and writes, which the spec lists for the
Region: the two bitmaps with their byte length, start, size, page size, and
the scatter list with its device address and entry count. -/
structure pds_vfio_region where
  host_seq : Option Mem
  host_ack : Option Mem
  bmp_bytes : Nat
  size : Nat
  start : Nat
  page_size : Nat
  sgl : Option (Nat → pds_lm_sg_elem)
  sgl_addr : Nat
  num_sge : Nat

/-- Modelled from the spec: struct pds_vfio_dirty (dirty.h) is not under src/;
it holds the single region and the Tracking Enabled flag. -/
structure pds_vfio_dirty where
  region : pds_vfio_region
  is_enabled : Bool

/-- The part of struct pds_vfio_pci_device that dirty.c reads and writes. -/
structure pds_vfio_pci_device where
  dirty : pds_vfio_dirty

/-- Modelled from the spec: struct interval_tree_node is declared outside src/;
one guest range, used by dirty.c as the inclusive span start .. last. -/
structure interval_tree_node where
  start : Nat
  last : Nat
deriving DecidableEq, Repr

/-- Modelled from the spec: the live-migration status values (none,
in progress) sent on the status channel are declared outside src/. -/
inductive pds_lm_host_vf_status where
  | PDS_LM_STA_NONE
  | PDS_LM_STA_IN_PROGRESS
deriving DecidableEq, Repr

/-- Observable actions of the driver: commands submitted to the device, the
call of the range-coalescing collaborator, and calls of the output sink. -/
inductive Event where
  | dirty_status_cmd
  | dirty_enable_cmd (info : pds_lm_dirty_region_info) (max_regions : Nat)
  | dirty_disable_cmd
  | dirty_seq_ack_cmd (num_sge offset bmp_bytes : Nat) (read_seq : Bool)
  | host_vf_lm_status_cmd (status : pds_lm_host_vf_status)
  | combine_iova_ranges (nnodes max_regions : Nat)
  | iova_bitmap_set (addr len : Nat)
deriving DecidableEq, Repr

/-- Result of a driver entry point: C return value, new state, events. -/
structure Res where
  err : Int
  dev : pds_vfio_pci_device
  trace : List Event

/-! ## Environments: what the allocator, the DMA layer and the device answer -/

/-- Answers met by one call of pds_vfio_dirty_seq_ack. -/
structure SeqAckEnv where
  /-- kmalloc_array of the page array succeeded -/
  kmalloc_ok : Bool
  /-- vmalloc_to_page found a page for the i-th page of the window -/
  page_ok : Nat → Bool
  /-- return value of sg_alloc_table_from_pages -/
  sg_alloc_err : Int
  /-- return value of dma_map_sgtable -/
  dma_map_err : Int
  /-- the DMA segments of the mapped table, in order -/
  sg : List pds_lm_sg_elem
  /-- return value of pds_vfio_dirty_seq_ack_cmd -/
  cmd_err : Int
  /-- for a read: the byte the device leaves at each offset of the sequence bitmap -/
  dev_seq : Nat → Nat

/-- Answers met by one call of pds_vfio_dirty_sync. -/
structure SyncEnv where
  read : SeqAckEnv
  write : SeqAckEnv

/-- Answers met by one call of pds_vfio_dirty_enable. -/
structure EnableEnv where
  /-- return value of the first pds_vfio_dirty_status_cmd -/
  status_err : Int
  /-- max_regions reported by the device (u8) -/
  max_regions : Nat
  /-- num_regions reported by the device (u8) -/
  num_regions : Nat
  /-- result of vfio_combine_iova_ranges on the tree -/
  combine : List interval_tree_node → Nat → Nat → List interval_tree_node
  /-- kzalloc of the region descriptor succeeded -/
  region_info_ok : Bool
  /-- dma_map_single of the region descriptor succeeded -/
  regions_dma_ok : Bool
  /-- return value of pds_vfio_dirty_enable_cmd -/
  enable_err : Int
  /-- page_count found in the descriptor after the command -/
  dev_page_count : Nat
  /-- vzalloc of the sequence bitmap succeeded -/
  seq_alloc_ok : Bool
  /-- vzalloc of the acknowledge bitmap succeeded -/
  ack_alloc_ok : Bool
  /-- kzalloc of the scatter list succeeded -/
  sgl_alloc_ok : Bool
  /-- dma_map_single of the scatter list succeeded -/
  sgl_dma_ok : Bool
  /-- device address of the mapped scatter list -/
  sgl_addr : Nat
  /-- kcalloc in pds_vfio_print_guest_region_info succeeded -/
  print_alloc_ok : Bool
  /-- dma_map_single in pds_vfio_print_guest_region_info succeeded -/
  print_dma_ok : Bool

/-! ## dirty.c -/

/-- Source: pds_vfio_dirty_is_enabled. -/
def pds_vfio_dirty_is_enabled (pds_vfio : pds_vfio_pci_device) : Bool :=
  pds_vfio.dirty.is_enabled

/-- Source: pds_vfio_dirty_set_enabled. -/
def pds_vfio_dirty_set_enabled (pds_vfio : pds_vfio_pci_device) : pds_vfio_pci_device :=
  { pds_vfio with dirty := { pds_vfio.dirty with is_enabled := true } }

/-- Source: pds_vfio_dirty_set_disabled. -/
def pds_vfio_dirty_set_disabled (pds_vfio : pds_vfio_pci_device) : pds_vfio_pci_device :=
  { pds_vfio with dirty := { pds_vfio.dirty with is_enabled := false } }

/-- Source: pds_vfio_print_guest_region_info. It changes no driver state; it
submits one more status command when its buffer could be allocated and mapped. -/
def pds_vfio_print_guest_region_info (env : EnableEnv) : List Event :=
  if !env.print_alloc_ok then []
  else if !env.print_dma_ok then []
  else [Event.dirty_status_cmd]

/-- A zero-filled buffer, as returned by vzalloc and kzalloc. -/
def zeroed : Mem := fun _ => 0

/-- Source: pds_vfio_dirty_alloc_bitmaps. -/
def pds_vfio_dirty_alloc_bitmaps (env : EnableEnv) (dirty : pds_vfio_dirty) (bytes : Nat) :
    Int × pds_vfio_dirty :=
  if !env.seq_alloc_ok then (- ENOMEM, dirty)
  else if !env.ack_alloc_ok then (- ENOMEM, dirty)
  else
    (0, { dirty with region := { dirty.region with
            host_seq := some zeroed, host_ack := some zeroed, bmp_bytes := bytes } })

/-- Source: pds_vfio_dirty_free_bitmaps. -/
def pds_vfio_dirty_free_bitmaps (dirty : pds_vfio_dirty) : pds_vfio_dirty :=
  { dirty with region := { dirty.region with
      host_seq := none, host_ack := none, bmp_bytes := 0 } }

/-- Source: __pds_vfio_dirty_free_sgl. -/
def __pds_vfio_dirty_free_sgl (region : pds_vfio_region) : pds_vfio_region :=
  { region with num_sge := 0, sgl := none, sgl_addr := 0 }

/-- Source: pds_vfio_dirty_free_sgl. -/
def pds_vfio_dirty_free_sgl (pds_vfio : pds_vfio_pci_device) : pds_vfio_pci_device :=
  if pds_vfio.dirty.region.sgl.isSome then
    { pds_vfio with dirty := { pds_vfio.dirty with
        region := __pds_vfio_dirty_free_sgl pds_vfio.dirty.region } }
  else pds_vfio

/-- Source: pds_vfio_dirty_alloc_sgl. -/
def pds_vfio_dirty_alloc_sgl (cfg : Cfg) (env : EnableEnv) (region : pds_vfio_region)
    (page_count : Nat) : Int × pds_vfio_region :=
  let max_sge := u32 (DIV_ROUND_UP page_count (u64 (cfg.PAGE_SIZE * 8)))
  if !env.sgl_alloc_ok then (- ENOMEM, region)
  else if !env.sgl_dma_ok then (- EIO, region)
  else
    (0, { region with
            sgl := some (fun _ => { addr := 0, len := 0 }),
            num_sge := max_sge % 2 ^ cfg.num_sge_bits,
            sgl_addr := env.sgl_addr })

/-- Modelled from the spec: interval_tree_iter_first is defined outside src/;
the spec has Enable take the first range. The call
interval_tree_iter_first(ranges, 0, ULONG_MAX) is taken as the leftmost node
of the tree, whose nodes are listed in tree order. -/
def interval_tree_iter_first (ranges : List interval_tree_node) : Option interval_tree_node :=
  ranges.head?

/-- Source: pds_vfio_dirty_enable. -/
def pds_vfio_dirty_enable (cfg : Cfg) (env : EnableEnv) (pds_vfio : pds_vfio_pci_device)
    (ranges : List interval_tree_node) (nnodes : Nat) (page_size : Nat) : Res :=
  if pds_vfio_dirty_is_enabled pds_vfio then ⟨- EINVAL, pds_vfio, []⟩
  else
  -- pds_vfio_dirty_status_cmd
  let tr : List Event := [Event.dirty_status_cmd]
  if env.status_err < 0 then ⟨env.status_err, pds_vfio, tr⟩
  else if u8 env.num_regions ≠ 0 then ⟨- EEXIST, pds_vfio, tr⟩
  else if u8 env.max_regions = 0 then ⟨- EOPNOTSUPP, pds_vfio, tr⟩
  else
  let max_regions : Nat := 1
  let combined := decide (u32 nnodes > max_regions)
  let ranges := if combined then env.combine ranges nnodes max_regions else ranges
  let tr := if combined then tr ++ [Event.combine_iova_ranges nnodes max_regions] else tr
  match interval_tree_iter_first ranges with
  | none => ⟨- EINVAL, pds_vfio, tr⟩
  | some node =>
    let region_size := u64 (sub64 node.last node.start + 1)
    let region_start := node.start
    let region_page_size := page_size
    if !env.region_info_ok then ⟨- ENOMEM, pds_vfio, tr⟩
    else
    let page_count := u32 (DIV_ROUND_UP region_size region_page_size)
    let region_info : pds_lm_dirty_region_info :=
      { dma_base := region_start, page_count := page_count,
        page_size_log2 := u8 (ilog2 region_page_size) }
    if !env.regions_dma_ok then ⟨- ENOMEM, pds_vfio, tr⟩
    else
    let tr := tr ++ [Event.dirty_enable_cmd region_info max_regions]
    if env.enable_err ≠ 0 then ⟨env.enable_err, pds_vfio, tr⟩
    else
    -- page_count might be adjusted by the device
    let page_count := u32 env.dev_page_count
    match pds_vfio_dirty_alloc_bitmaps env pds_vfio.dirty (page_count / BITS_PER_BYTE) with
    | (err, dirty) =>
      if err ≠ 0 then ⟨err, { pds_vfio with dirty := dirty }, tr⟩
      else
      match pds_vfio_dirty_alloc_sgl cfg env dirty.region page_count with
      | (err, region) =>
        if err ≠ 0 then
          ⟨err, { pds_vfio with
                    dirty := pds_vfio_dirty_free_bitmaps { dirty with region := region } }, tr⟩
        else
          let region := { region with
            start := region_start, size := region_size, page_size := region_page_size }
          let pds_vfio := pds_vfio_dirty_set_enabled
            { pds_vfio with dirty := { dirty with region := region } }
          ⟨0, pds_vfio, tr ++ pds_vfio_print_guest_region_info env⟩

/-- Source: pds_vfio_dirty_disable. The return values of the two commands are
not looked at by the C code. -/
def pds_vfio_dirty_disable (pds_vfio : pds_vfio_pci_device) (send_cmd : Bool) : Res :=
  let r : pds_vfio_pci_device × List Event :=
    if pds_vfio_dirty_is_enabled pds_vfio then
      let p := pds_vfio_dirty_set_disabled pds_vfio
      let tr : List Event := if send_cmd then [Event.dirty_disable_cmd] else []
      let p := pds_vfio_dirty_free_sgl p
      let p := { p with dirty := pds_vfio_dirty_free_bitmaps p.dirty }
      (p, tr)
    else (pds_vfio, [])
  let tr2 : List Event :=
    if send_cmd then
      [Event.host_vf_lm_status_cmd pds_lm_host_vf_status.PDS_LM_STA_NONE]
    else []
  ⟨0, r.1, r.2 ++ tr2⟩

/-- The buffer after a device write of the window offset .. offset + bmp_bytes. -/
def dma_fill (env : SeqAckEnv) (offset bmp_bytes : Nat) (m : Mem) : Mem :=
  fun a => if offset ≤ a ∧ a < offset + bmp_bytes then env.dev_seq a else m a

/-- The scatter list after the segments of one transfer were written to it. -/
def sgl_fill (env : SeqAckEnv) (sgl : Nat → pds_lm_sg_elem) : Nat → pds_lm_sg_elem :=
  fun i => if h : i < env.sg.length then env.sg.get ⟨i, h⟩ else sgl i

/-- Source: pds_vfio_dirty_seq_ack. The argument seq_ack_bmp is the buffer the
pointer of that name points to; the buffer is returned with what the device
left in it. The bitmaps come from vzalloc, so they start on a page boundary
and offset_in_page(bmp) is the offset modulo PAGE_SIZE. -/
def pds_vfio_dirty_seq_ack (cfg : Cfg) (env : SeqAckEnv) (region : pds_vfio_region)
    (seq_ack_bmp : Option Mem) (offset bmp_bytes : Nat) (read_seq : Bool) :
    Int × pds_vfio_region × Option Mem × List Event :=
  let page_offset := u32 (offset % cfg.PAGE_SIZE)
  let npages := DIV_ROUND_UP (u32 (bmp_bytes + page_offset)) cfg.PAGE_SIZE
  if !env.kmalloc_ok then (- ENOMEM, region, seq_ack_bmp, [])
  else if !(List.range npages).all env.page_ok then (- EFAULT, region, seq_ack_bmp, [])
  else if env.sg_alloc_err ≠ 0 then (env.sg_alloc_err, region, seq_ack_bmp, [])
  else if env.dma_map_err ≠ 0 then (env.dma_map_err, region, seq_ack_bmp, [])
  else
    -- for_each_sgtable_dma_sg: region->sgl[i] is filled from the i-th segment
    let region := { region with sgl := region.sgl.map (sgl_fill env) }
    let num_sge := u16 (u32 env.sg.length)
    let ev := Event.dirty_seq_ack_cmd num_sge offset bmp_bytes read_seq
    -- DMA_FROM_DEVICE: the device writes the window of the buffer
    let bmp := if read_seq then seq_ack_bmp.map (dma_fill env offset bmp_bytes)
      else seq_ack_bmp
    (env.cmd_err, region, bmp, [ev])

/-- Source: pds_vfio_dirty_write_ack. -/
def pds_vfio_dirty_write_ack (cfg : Cfg) (env : SeqAckEnv) (region : pds_vfio_region)
    (offset len : Nat) : Int × pds_vfio_region × List Event :=
  match pds_vfio_dirty_seq_ack cfg env region region.host_ack offset len false with
  | (err, region, bmp, tr) => (err, { region with host_ack := bmp }, tr)

/-- Source: pds_vfio_dirty_read_seq. -/
def pds_vfio_dirty_read_seq (cfg : Cfg) (env : SeqAckEnv) (region : pds_vfio_region)
    (offset len : Nat) : Int × pds_vfio_region × List Event :=
  match pds_vfio_dirty_seq_ack cfg env region region.host_seq offset len true with
  | (err, region, bmp, tr) => (err, { region with host_seq := bmp }, tr)

/-- The value le64_to_cpu(p[0]) of the 64-bit little-endian word whose first
byte is at offset off of the buffer: byte k has weight 256^k. -/
def le64_to_cpu_at (m : Mem) (off : Nat) : Nat :=
  m off % 256 + (m (off + 1) % 256) * 256 + (m (off + 2) % 256) * 256 ^ 2 +
  (m (off + 3) % 256) * 256 ^ 3 + (m (off + 4) % 256) * 256 ^ 4 +
  (m (off + 5) % 256) * 256 ^ 5 + (m (off + 6) % 256) * 256 ^ 6 +
  (m (off + 7) % 256) * 256 ^ 7

/-- The assignment ack[i] = seq[i] of one 64-bit word: the eight bytes at
offsets off .. off+7 of dst are replaced by those of src. -/
def copy_le64 (src dst : Mem) (off : Nat) : Mem :=
  fun a => if off ≤ a ∧ a < off + 8 then src a else dst a

/-- The inner loop of pds_vfio_dirty_process_bitmaps over bit_i = 0 .. 63 for
the word of index i whose difference is xor: the calls of iova_bitmap_set. -/
def process_word (page_size region_start bmp_offset_bit xor i : Nat) : List Event :=
  (List.range 64).filterMap (fun bit_i =>
    if xor &&& BIT bit_i ≠ 0 then
      let abs_bit_i := u64 (u64 (bmp_offset_bit + u64 (i * 64)) + bit_i)
      let addr := u64 (u64 (abs_bit_i * page_size) + region_start)
      some (Event.iova_bitmap_set addr page_size)
    else none)

/-- One iteration of the outer loop of pds_vfio_dirty_process_bitmaps on the
state (acknowledge buffer, calls made so far). -/
def process_step (seq : Mem) (page_size region_start bmp_offset bmp_offset_bit : Nat)
    (st : Mem × List Event) (i : Nat) : Mem × List Event :=
  let xor := le64_to_cpu_at seq (bmp_offset + 8 * i) ^^^ le64_to_cpu_at st.1 (bmp_offset + 8 * i)
  (copy_le64 seq st.1 (bmp_offset + 8 * i),
   st.2 ++ process_word page_size region_start bmp_offset_bit xor i)

/-- Source: pds_vfio_dirty_process_bitmaps. The parameters bmp_offset and
len_bytes are u32. With a NULL bitmap the C code has no defined behaviour; the
model then leaves the region as it is. -/
def pds_vfio_dirty_process_bitmaps (region : pds_vfio_region) (bmp_offset len_bytes : Nat) :
    Int × pds_vfio_region × List Event :=
  let page_size := region.page_size
  let region_start := region.start
  let dword_count := len_bytes / 8
  let bmp_offset_bit := u32 (bmp_offset * 8)
  match region.host_seq, region.host_ack with
  | some seq, some ack =>
    let r := (List.range dword_count).foldl
      (process_step seq page_size region_start bmp_offset bmp_offset_bit) (ack, [])
    (0, { region with host_ack := some r.1 }, r.2)
  | _, _ => (0, region, [])

/-- The first window size of pds_vfio_dirty_sync: pages is
DIV_ROUND_UP(length, page_size) and bitmap_size is
round_up(pages, sizeof(u64) * BITS_PER_BYTE) / BITS_PER_BYTE. -/
def sync_bitmap_size (page_size length : Nat) : Nat :=
  let pages := DIV_ROUND_UP length page_size
  round_up pages (8 * BITS_PER_BYTE) / BITS_PER_BYTE

/-- The second window size of pds_vfio_dirty_sync: bmp_bytes is
ALIGN(DIV_ROUND_UP(length / page_size, sizeof(u64)), sizeof(u64)). -/
def sync_bmp_bytes (page_size length : Nat) : Nat :=
  ALIGN (DIV_ROUND_UP (length / page_size) 8) 8

/-- The window computation and the validation of pds_vfio_dirty_sync after
the enabled test (the lines from the computation of pages to that of
bmp_offset): the error returned, or the pair (bmp_offset, bmp_bytes). -/
def pds_vfio_dirty_sync_window (region : pds_vfio_region) (iova length : Nat) :
    Except Int (Nat × Nat) :=
  let bitmap_size := sync_bitmap_size region.page_size length
  if length = 0 ∨ u64 (sub64 iova region.start + length) > region.size then
    Except.error (- EINVAL)
  else
    -- bitmap is modified in 64 bit chunks
    let bmp_bytes := sync_bmp_bytes region.page_size length
    if bmp_bytes ≠ bitmap_size then Except.error (- EINVAL)
    else if bmp_bytes > region.bmp_bytes then Except.error (- EINVAL)
    else
      let bmp_offset := DIV_ROUND_UP (sub64 iova region.start / region.page_size) 8
      Except.ok (bmp_offset, bmp_bytes)

/-- Source: pds_vfio_dirty_sync. The u64 values bmp_offset and bmp_bytes are
passed to u32 parameters. -/
def pds_vfio_dirty_sync (cfg : Cfg) (env : SyncEnv) (pds_vfio : pds_vfio_pci_device)
    (iova length : Nat) : Res :=
  if !pds_vfio_dirty_is_enabled pds_vfio then ⟨- EINVAL, pds_vfio, []⟩
  else
  match pds_vfio_dirty_sync_window pds_vfio.dirty.region iova length with
  | Except.error e => ⟨e, pds_vfio, []⟩
  | Except.ok (bmp_offset, bmp_bytes) =>
    match pds_vfio_dirty_read_seq cfg env.read pds_vfio.dirty.region
        (u32 bmp_offset) (u32 bmp_bytes) with
    | (err, region, tr1) =>
      let pds_vfio := { pds_vfio with dirty := { pds_vfio.dirty with region := region } }
      if err ≠ 0 then ⟨err, pds_vfio, tr1⟩
      else
      match pds_vfio_dirty_process_bitmaps region (u32 bmp_offset) (u32 bmp_bytes) with
      | (err, region, tr2) =>
        let pds_vfio := { pds_vfio with dirty := { pds_vfio.dirty with region := region } }
        if err ≠ 0 then ⟨err, pds_vfio, tr1 ++ tr2⟩
        else
        match pds_vfio_dirty_write_ack cfg env.write region (u32 bmp_offset) (u32 bmp_bytes) with
        | (err, region, tr3) =>
          let pds_vfio := { pds_vfio with dirty := { pds_vfio.dirty with region := region } }
          if err ≠ 0 then ⟨err, pds_vfio, tr1 ++ tr2 ++ tr3⟩
          else ⟨0, pds_vfio, tr1 ++ tr2 ++ tr3⟩

/-- Source: pds_vfio_dma_logging_report (the state lock is held by the caller
of the model). -/
def pds_vfio_dma_logging_report (cfg : Cfg) (env : SyncEnv) (pds_vfio : pds_vfio_pci_device)
    (iova length : Nat) : Res :=
  pds_vfio_dirty_sync cfg env pds_vfio iova length

/-- Source: pds_vfio_dma_logging_start. -/
def pds_vfio_dma_logging_start (cfg : Cfg) (env : EnableEnv) (pds_vfio : pds_vfio_pci_device)
    (ranges : List interval_tree_node) (nnodes : Nat) (page_size : Nat) : Res :=
  let r := pds_vfio_dirty_enable cfg env pds_vfio ranges nnodes page_size
  ⟨r.err, r.dev,
    Event.host_vf_lm_status_cmd pds_lm_host_vf_status.PDS_LM_STA_IN_PROGRESS :: r.trace⟩

/-- Source: pds_vfio_dma_logging_stop. -/
def pds_vfio_dma_logging_stop (pds_vfio : pds_vfio_pci_device) : Res :=
  let r := pds_vfio_dirty_disable pds_vfio true
  ⟨0, r.dev, r.trace⟩

/-! ## Small runs of the model -/

/-- A device with tracking enabled over 64 pages of 4096 bytes from address
0x100000, with zeroed bitmaps of 8 bytes. -/
def dev64 : pds_vfio_pci_device :=
  { dirty := { is_enabled := true,
               region := { host_seq := some zeroed, host_ack := some zeroed, bmp_bytes := 8,
                           size := 64 * 4096, start := 0x100000, page_size := 4096,
                           sgl := some (fun _ => { addr := 0, len := 0 }),
                           sgl_addr := 0, num_sge := 1 } } }

/-- An environment in which every step of a read or write round trip succeeds;
the device reports the pages 0 and 9 of the bitmap as written. -/
def okSeqAck : SeqAckEnv :=
  { kmalloc_ok := true, page_ok := fun _ => true, sg_alloc_err := 0, dma_map_err := 0,
    sg := [{ addr := 0, len := 8 }], cmd_err := 0,
    dev_seq := fun a => if a = 0 then 1 else if a = 1 then 2 else 0 }

/-- Both round trips of a sync succeed. -/
def okSync : SyncEnv := { read := okSeqAck, write := okSeqAck }

/-- Platform with 4096-byte host pages and a 16-bit num_sge field. -/
def cfg4k : Cfg := { PAGE_SIZE := 4096, num_sge_bits := 16 }

/-- The zeroed device state before any call: tracking disabled, no bitmaps,
no scatter list. -/
def devOff : pds_vfio_pci_device :=
  { dirty := { is_enabled := false,
               region := { host_seq := none, host_ack := none, bmp_bytes := 0,
                           size := 0, start := 0, page_size := 0,
                           sgl := none, sgl_addr := 0, num_sge := 0 } } }

/-- Whether pds_vfio_dirty_seq_ack gets as far as submitting its command: the
page array was allocated, every page of the window was found, and the
scatter table was built and mapped. -/
def seq_ack_issued (cfg : Cfg) (env : SeqAckEnv) (offset bmp_bytes : Nat) : Bool :=
  env.kmalloc_ok &&
  (List.range (DIV_ROUND_UP (u32 (bmp_bytes + u32 (offset % cfg.PAGE_SIZE))) cfg.PAGE_SIZE)).all
    env.page_ok &&
  decide (env.sg_alloc_err = 0) && decide (env.dma_map_err = 0)

/-- The region after a read round trip that submitted its command. -/
def region_after_read (env : SeqAckEnv) (region : pds_vfio_region) (offset bmp_bytes : Nat) :
    pds_vfio_region :=
  { region with sgl := region.sgl.map (sgl_fill env),
                host_seq := region.host_seq.map (dma_fill env offset bmp_bytes) }

/-- The region after a write round trip that submitted its command. -/
def region_after_write (env : SeqAckEnv) (region : pds_vfio_region) : pds_vfio_region :=
  { region with sgl := region.sgl.map (sgl_fill env) }

/-- The device state with its region replaced. -/
def with_region (pds_vfio : pds_vfio_pci_device) (region : pds_vfio_region) :
    pds_vfio_pci_device :=
  { pds_vfio with dirty := { pds_vfio.dirty with region := region } }

/-- The bit of page p in a bitmap read as 64-bit little-endian words: bit
p mod 64 of the word of index p / 64. -/
def page_bit (m : Mem) (p : Nat) : Bool :=
  (le64_to_cpu_at m (8 * (p / 64))).testBit (p % 64)

/-- The calls of the output sink that the round-trip property asks for on a
region of N pages: set(region.start + p * page_size, page_size) for each
page p < N whose sequence bit differs from its acknowledge bit, in increasing
order of p. -/
def full_region_calls (region : pds_vfio_region) (seq ack : Mem) (N : Nat) : List Event :=
  (List.range N).filterMap (fun p =>
    if page_bit seq p ≠ page_bit ack p then
      some (Event.iova_bitmap_set (region.start + p * region.page_size) region.page_size)
    else none)

/-- An environment in which every step of pds_vfio_dirty_enable succeeds on an
idle device that supports tracking and confirms the page count n. -/
def enableOk (n : Nat) : EnableEnv :=
  { status_err := 0, max_regions := 1, num_regions := 0, combine := fun r _ _ => r,
    region_info_ok := true, regions_dma_ok := true, enable_err := 0, dev_page_count := n,
    seq_alloc_ok := true, ack_alloc_ok := true, sgl_alloc_ok := true, sgl_dma_ok := true,
    sgl_addr := 0, print_alloc_ok := true, print_dma_ok := true }

/-- The ranges on which pds_vfio_dirty_enable looks up its first node: the
given tree, or the coalesced one when nnodes exceeds one. -/
def tracked_ranges (env : EnableEnv) (ranges : List interval_tree_node) (nnodes : Nat) :
    List interval_tree_node :=
  if u32 nnodes > 1 then env.combine ranges nnodes 1 else ranges

/-- The state reached from devOff by pds_vfio_dirty_enable on the range
0x100000 .. 0x13FFFF with pages of 4096 bytes, the device confirming 64
pages. -/
def devEnabled64 : pds_vfio_pci_device :=
  (pds_vfio_dirty_enable cfg4k (enableOk 64) devOff
    [{ start := 0x100000, last := 0x13FFFF }] 1 4096).dev

/-- The state reached from devOff by pds_vfio_dirty_enable on the range
0 .. 0x7FFFF with pages of 4096 bytes, the device confirming 128 pages. -/
def devEnabled128 : pds_vfio_pci_device :=
  (pds_vfio_dirty_enable cfg4k (enableOk 128) devOff
    [{ start := 0, last := 0x7FFFF }] 1 4096).dev

/-- The state that a successful pds_vfio_dirty_enable leaves for the first
range node: every field of the region is assigned. -/
def enable_success_state (cfg : Cfg) (env : EnableEnv) (node : interval_tree_node)
    (page_size : Nat) : pds_vfio_pci_device :=
  { dirty := { is_enabled := true,
               region := { host_seq := some zeroed, host_ack := some zeroed,
                           bmp_bytes := u32 env.dev_page_count / BITS_PER_BYTE,
                           size := u64 (sub64 node.last node.start + 1),
                           start := node.start, page_size := page_size,
                           sgl := some (fun _ => { addr := 0, len := 0 }),
                           sgl_addr := env.sgl_addr,
                           num_sge := u32 (DIV_ROUND_UP (u32 env.dev_page_count)
                             (u64 (cfg.PAGE_SIZE * 8))) % 2 ^ cfg.num_sge_bits } } }

/-- The return value and the state of pds_vfio_dirty_enable once the device
accepted the enable command: the outcome of the four allocations. -/
def enable_tail (cfg : Cfg) (env : EnableEnv) (s : pds_vfio_pci_device)
    (node : interval_tree_node) (page_size : Nat) : Int × pds_vfio_pci_device :=
  if !env.seq_alloc_ok then (- ENOMEM, s)
  else if !env.ack_alloc_ok then (- ENOMEM, s)
  else if !env.sgl_alloc_ok then (- ENOMEM, { dirty := pds_vfio_dirty_free_bitmaps s.dirty })
  else if !env.sgl_dma_ok then (- EIO, { dirty := pds_vfio_dirty_free_bitmaps s.dirty })
  else (0, enable_success_state cfg env node page_size)

/-- The return value of pds_vfio_dirty_seq_ack, which depends on the answers of
the allocator, the DMA layer and the device only: the error of the first step
that fails, or 0 when the round trip succeeds. -/
def seq_ack_err (cfg : Cfg) (env : SeqAckEnv) (offset bmp_bytes : Nat) : Int :=
  if !env.kmalloc_ok then - ENOMEM
  else if !(List.range (DIV_ROUND_UP (u32 (bmp_bytes + u32 (offset % cfg.PAGE_SIZE)))
      cfg.PAGE_SIZE)).all env.page_ok then - EFAULT
  else if env.sg_alloc_err ≠ 0 then env.sg_alloc_err
  else if env.dma_map_err ≠ 0 then env.dma_map_err
  else env.cmd_err

/-- The states of the driver: those reached from the zeroed, disabled state
devOff by calls of Enable, Sync and Disable with any arguments and any answers
of the device, the allocator and the DMA layer. -/
inductive Reachable (cfg : Cfg) : pds_vfio_pci_device → Prop
  | init : Reachable cfg devOff
  | enable (s : pds_vfio_pci_device) (env : EnableEnv) (ranges : List interval_tree_node)
      (nnodes page_size : Nat) :
      Reachable cfg s →
      Reachable cfg (pds_vfio_dirty_enable cfg env s ranges nnodes page_size).dev
  | sync (s : pds_vfio_pci_device) (env : SyncEnv) (iova length : Nat) :
      Reachable cfg s → Reachable cfg (pds_vfio_dirty_sync cfg env s iova length).dev
  | disable (s : pds_vfio_pci_device) (send_cmd : Bool) :
      Reachable cfg s → Reachable cfg (pds_vfio_dirty_disable s send_cmd).dev

/-- The resource invariant of the tracking state: when enabled, both bitmaps
and the scatter list are allocated; when disabled, none of them is and the
lengths are zero. -/
def TrackInv (s : pds_vfio_pci_device) : Prop :=
  (s.dirty.is_enabled = true →
    s.dirty.region.host_seq.isSome = true ∧ s.dirty.region.host_ack.isSome = true ∧
    s.dirty.region.sgl.isSome = true) ∧
  (s.dirty.is_enabled = false →
    s.dirty.region.host_seq = none ∧ s.dirty.region.host_ack = none ∧
    s.dirty.region.bmp_bytes = 0 ∧ s.dirty.region.sgl = none ∧ s.dirty.region.num_sge = 0)

/-- The byte offset of the window as the specification words it:
((iova - region.start) / page_size) / 8 rounded up to a multiple of 8. -/
def spec_bmp_offset (region : pds_vfio_region) (iova : Nat) : Nat :=
  (((iova - region.start) / region.page_size) / 8 + 7) / 8 * 8

/-- An environment in which the device accepts the enable command and confirms
n pages but the allocation of the sequence bitmap fails. -/
def enableSeqAllocFails (n : Nat) : EnableEnv :=
  { enableOk n with seq_alloc_ok := false }

/-- An environment in which the device reports n regions already tracked. -/
def enableDeviceBusy (n : Nat) : EnableEnv :=
  { enableOk 64 with num_regions := n }

/-- An environment in which the device supports no tracked region. -/
def enableUnsupported : EnableEnv :=
  { enableOk 64 with max_regions := 0 }

/-- Modelled from the spec: vfio_combine_iova_ranges is defined outside src/;
the spec describes it as coalescing the ranges into at most target_count
regions, for target count 1 the single region bounding all ranges. -/
def bounding_merge (ranges : List interval_tree_node) (_nnodes _target : Nat) :
    List interval_tree_node :=
  match ranges with
  | [] => []
  | r :: rs =>
    [{ start := rs.foldl (fun m x => min m x.start) r.start,
       last := rs.foldl (fun m x => max m x.last) r.last }]

/-- An environment in which every step of pds_vfio_dirty_enable succeeds, the
device confirms n pages and the coalescing collaborator is the bounding
merge. -/
def enableOkMerge (n : Nat) : EnableEnv :=
  { enableOk n with combine := bounding_merge }

/-- An environment in which the device refuses the enable command with
status e. -/
def enableCmdFails (e : Int) : EnableEnv :=
  { enableOk 64 with enable_err := e }

/-- An environment in which the status command fails with status e. -/
def enableStatusFails (e : Int) : EnableEnv :=
  { enableOk 64 with status_err := e }

/-- A sync in which the device refuses the read command with status -5 after
the transfer was set up; the write round trip would succeed. -/
def syncReadFails : SyncEnv :=
  { read := { okSeqAck with cmd_err := -5 }, write := okSeqAck }

/-- A sync in which the read round trip succeeds and the device refuses the
write command with status -5. -/
def syncWriteFails : SyncEnv :=
  { read := okSeqAck, write := { okSeqAck with cmd_err := -5 } }

/-- The local npages of pds_vfio_dirty_seq_ack: the number of host pages that
the window of bmp_bytes bytes at byte offset offset of a bitmap spans,
DIV_ROUND_UP_ULL(bmp_bytes + page_offset, PAGE_SIZE) with
page_offset = offset_in_page(bmp). -/
def seq_ack_npages (cfg : Cfg) (offset bmp_bytes : Nat) : Nat :=
  DIV_ROUND_UP (u32 (bmp_bytes + u32 (offset % cfg.PAGE_SIZE))) cfg.PAGE_SIZE

/-- A round trip that succeeds, the device reporting page 1 only as written
(bit 1 of byte 0). -/
def seqAckPage1 : SeqAckEnv :=
  { okSeqAck with dev_seq := fun a => if a = 0 then 2 else 0 }

/-- Both round trips of a sync succeed, the device reporting page 1. -/
def syncPage1 : SyncEnv := { read := seqAckPage1, write := seqAckPage1 }

/-- A sync in which the device transfers its bitmap with page 1 set and then
refuses the read command with status -5. -/
def syncPage1ReadFails : SyncEnv :=
  { read := { seqAckPage1 with cmd_err := -5 }, write := seqAckPage1 }

/-- A block handed out by vzalloc: its size in bytes and its contents. -/
structure vm_block where
  size : Nat
  bytes : Mem

/-- The kernel allocator vzalloc as the driver sees it: vzalloc(size) is NULL
when the allocator fails (the answer ok of the environment) and otherwise a
zero-filled block of size bytes. -/
def vzalloc (ok : Bool) (size : Nat) : Option vm_block :=
  if ok then some { size := size, bytes := zeroed } else none

/-- The allocator's view of the two bitmap pointers of the region: the size in
bytes of the block that host_seq, respectively host_ack, points to, and none
for a pointer that owns no block. -/
structure bitmap_blocks where
  seq_size : Option Nat
  ack_size : Option Nat

/-- Source: pds_vfio_dirty_alloc_bitmaps, together with the sizes of the
blocks that the two pointers own afterwards. -/
def pds_vfio_dirty_alloc_bitmaps_sized (env : EnableEnv) (dirty : pds_vfio_dirty)
    (blocks : bitmap_blocks) (bytes : Nat) : Int × pds_vfio_dirty × bitmap_blocks :=
  match vzalloc env.seq_alloc_ok bytes with
  | none => (- ENOMEM, dirty, blocks)
  | some host_seq_bmp =>
    match vzalloc env.ack_alloc_ok bytes with
    | none =>
      -- bitmap_free(host_seq_bmp): the region does not get the block
      (- ENOMEM, dirty, blocks)
    | some host_ack_bmp =>
      (0, { dirty with region := { dirty.region with
              host_seq := some host_seq_bmp.bytes, host_ack := some host_ack_bmp.bytes,
              bmp_bytes := bytes } },
       { seq_size := some host_seq_bmp.size, ack_size := some host_ack_bmp.size })

/-- Source: pds_vfio_dirty_free_bitmaps, together with the sizes of the blocks
that the two pointers own afterwards: both blocks are given back by vfree. -/
def pds_vfio_dirty_free_bitmaps_sized (dirty : pds_vfio_dirty) (_blocks : bitmap_blocks) :
    pds_vfio_dirty × bitmap_blocks :=
  ({ dirty with region := { dirty.region with
      host_seq := none, host_ack := none, bmp_bytes := 0 } },
   { seq_size := none, ack_size := none })

/-- Source: pds_vfio_dirty_enable, together with the sizes of the blocks that
the two bitmap pointers own afterwards. -/
def pds_vfio_dirty_enable_sized (cfg : Cfg) (env : EnableEnv) (pds_vfio : pds_vfio_pci_device)
    (blocks : bitmap_blocks) (ranges : List interval_tree_node) (nnodes : Nat)
    (page_size : Nat) : Res × bitmap_blocks :=
  if pds_vfio_dirty_is_enabled pds_vfio then (⟨- EINVAL, pds_vfio, []⟩, blocks)
  else
  -- pds_vfio_dirty_status_cmd
  let tr : List Event := [Event.dirty_status_cmd]
  if env.status_err < 0 then (⟨env.status_err, pds_vfio, tr⟩, blocks)
  else if u8 env.num_regions ≠ 0 then (⟨- EEXIST, pds_vfio, tr⟩, blocks)
  else if u8 env.max_regions = 0 then (⟨- EOPNOTSUPP, pds_vfio, tr⟩, blocks)
  else
  let max_regions : Nat := 1
  let combined := decide (u32 nnodes > max_regions)
  let ranges := if combined then env.combine ranges nnodes max_regions else ranges
  let tr := if combined then tr ++ [Event.combine_iova_ranges nnodes max_regions] else tr
  match interval_tree_iter_first ranges with
  | none => (⟨- EINVAL, pds_vfio, tr⟩, blocks)
  | some node =>
    let region_size := u64 (sub64 node.last node.start + 1)
    let region_start := node.start
    let region_page_size := page_size
    if !env.region_info_ok then (⟨- ENOMEM, pds_vfio, tr⟩, blocks)
    else
    let page_count := u32 (DIV_ROUND_UP region_size region_page_size)
    let region_info : pds_lm_dirty_region_info :=
      { dma_base := region_start, page_count := page_count,
        page_size_log2 := u8 (ilog2 region_page_size) }
    if !env.regions_dma_ok then (⟨- ENOMEM, pds_vfio, tr⟩, blocks)
    else
    let tr := tr ++ [Event.dirty_enable_cmd region_info max_regions]
    if env.enable_err ≠ 0 then (⟨env.enable_err, pds_vfio, tr⟩, blocks)
    else
    -- page_count might be adjusted by the device
    let page_count := u32 env.dev_page_count
    match pds_vfio_dirty_alloc_bitmaps_sized env pds_vfio.dirty blocks
        (page_count / BITS_PER_BYTE) with
    | (err, dirty, blocks) =>
      if err ≠ 0 then (⟨err, { pds_vfio with dirty := dirty }, tr⟩, blocks)
      else
      match pds_vfio_dirty_alloc_sgl cfg env dirty.region page_count with
      | (err, region) =>
        if err ≠ 0 then
          match pds_vfio_dirty_free_bitmaps_sized { dirty with region := region } blocks with
          | (dirty, blocks) => (⟨err, { pds_vfio with dirty := dirty }, tr⟩, blocks)
        else
          let region := { region with
            start := region_start, size := region_size, page_size := region_page_size }
          let pds_vfio := pds_vfio_dirty_set_enabled
            { pds_vfio with dirty := { dirty with region := region } }
          (⟨0, pds_vfio, tr ++ pds_vfio_print_guest_region_info env⟩, blocks)

/-- Source: pds_vfio_dirty_disable, together with the sizes of the blocks that
the two bitmap pointers own afterwards. -/
def pds_vfio_dirty_disable_sized (pds_vfio : pds_vfio_pci_device) (blocks : bitmap_blocks)
    (send_cmd : Bool) : Res × bitmap_blocks :=
  let r : pds_vfio_pci_device × List Event × bitmap_blocks :=
    if pds_vfio_dirty_is_enabled pds_vfio then
      let p := pds_vfio_dirty_set_disabled pds_vfio
      let tr : List Event := if send_cmd then [Event.dirty_disable_cmd] else []
      let p := pds_vfio_dirty_free_sgl p
      match pds_vfio_dirty_free_bitmaps_sized p.dirty blocks with
      | (dirty, blocks) => ({ p with dirty := dirty }, tr, blocks)
    else (pds_vfio, [], blocks)
  let tr2 : List Event :=
    if send_cmd then
      [Event.host_vf_lm_status_cmd pds_lm_host_vf_status.PDS_LM_STA_NONE]
    else []
  (⟨0, r.1, r.2.1 ++ tr2⟩, r.2.2)

/-- The states of the driver together with the allocator's view of the bitmap
pointers: those reached from the zeroed, disabled state devOff, in which no
block is owned, by calls of Enable, Sync and Disable with any arguments and
any answers of the device, the allocator and the DMA layer.
pds_vfio_dirty_sync calls neither vzalloc nor vfree. -/
inductive ReachableSized (cfg : Cfg) : pds_vfio_pci_device → bitmap_blocks → Prop
  | init : ReachableSized cfg devOff { seq_size := none, ack_size := none }
  | enable (s : pds_vfio_pci_device) (blocks : bitmap_blocks) (env : EnableEnv)
      (ranges : List interval_tree_node) (nnodes page_size : Nat) :
      ReachableSized cfg s blocks →
      ReachableSized cfg
        (pds_vfio_dirty_enable_sized cfg env s blocks ranges nnodes page_size).1.dev
        (pds_vfio_dirty_enable_sized cfg env s blocks ranges nnodes page_size).2
  | sync (s : pds_vfio_pci_device) (blocks : bitmap_blocks) (env : SyncEnv)
      (iova length : Nat) :
      ReachableSized cfg s blocks →
      ReachableSized cfg (pds_vfio_dirty_sync cfg env s iova length).dev blocks
  | disable (s : pds_vfio_pci_device) (blocks : bitmap_blocks) (send_cmd : Bool) :
      ReachableSized cfg s blocks →
      ReachableSized cfg (pds_vfio_dirty_disable_sized s blocks send_cmd).1.dev
        (pds_vfio_dirty_disable_sized s blocks send_cmd).2

/-- The pairing of the bitmap pointers with their blocks: either both
pointers are set and each owns a block of region.bmp_bytes bytes, or both are
NULL, own no block, and bmp_bytes is 0. -/
def BlocksInv (s : pds_vfio_pci_device) (blocks : bitmap_blocks) : Prop :=
  (s.dirty.region.host_seq.isSome = true ∧ s.dirty.region.host_ack.isSome = true ∧
    blocks.seq_size = some s.dirty.region.bmp_bytes ∧
    blocks.ack_size = some s.dirty.region.bmp_bytes) ∨
  (s.dirty.region.host_seq = none ∧ s.dirty.region.host_ack = none ∧
    s.dirty.region.bmp_bytes = 0 ∧ blocks.seq_size = none ∧ blocks.ack_size = none)

/-- A region of 64 pages of 4096 bytes from address 0x100000 whose sequence
bitmap has the bits of the pages 0 and 9 set and whose acknowledge bitmap is
zero. -/
def regionNear : pds_vfio_region :=
  { host_seq := some (fun a => if a = 0 then 1 else if a = 1 then 2 else 0),
    host_ack := some zeroed, bmp_bytes := 8, size := 64 * 4096, start := 0x100000,
    page_size := 4096, sgl := none, sgl_addr := 0, num_sge := 0 }

/-! ## The merger as the specification words it -/

/-- The calls the merger is specified to make for the word of index i: one
call set(addr i b, page_size) for each bit b < 64, in increasing order, that
is set in the exclusive or of the sequence word and the acknowledge word. -/
def merger_word_calls (addr : Nat → Nat → Nat) (page_size : Nat) (seq ack : Mem)
    (bmp_offset i : Nat) : List Event :=
  (List.range 64).filterMap (fun b =>
    if (le64_to_cpu_at seq (bmp_offset + 8 * i) ^^^
        le64_to_cpu_at ack (bmp_offset + 8 * i)).testBit b
    then some (Event.iova_bitmap_set (addr i b) page_size) else none)

/-- The calls the merger is specified to make for the words of index below n,
in increasing order of the index. -/
def merger_calls (addr : Nat → Nat → Nat) (page_size : Nat) (seq ack : Mem)
    (bmp_offset : Nat) : Nat → List Event
  | 0 => []
  | n + 1 => merger_calls addr page_size seq ack bmp_offset n ++
      merger_word_calls addr page_size seq ack bmp_offset n

/-- The page address as the specification gives it:
region.start + (bmp_offset * 8 + i * 64 + b) * page_size. -/
def spec_addr (region : pds_vfio_region) (bmp_offset i b : Nat) : Nat :=
  region.start + (bmp_offset * 8 + i * 64 + b) * region.page_size

/-- The page address as the C code computes it: the bit offset of the window
is a u32 and the address a u64. -/
def code_addr (region : pds_vfio_region) (bmp_offset i b : Nat) : Nat :=
  (region.start + ((bmp_offset * 8) % 2 ^ 32 + i * 64 + b) * region.page_size) % 2 ^ 64

/-- A region whose sequence bitmap has the bit of the first page of the byte
offset 2^29 set and whose acknowledge bitmap is zero. -/
def regionFar : pds_vfio_region :=
  { host_seq := some (fun a => if a = 2 ^ 29 then 1 else 0), host_ack := some zeroed,
    bmp_bytes := 2 ^ 29 + 8, size := 0, start := 0, page_size := 4096,
    sgl := none, sgl_addr := 0, num_sge := 0 }

/-! ## Arithmetic of the kernel macros -/

theorem u64_of_lt {n : Nat} (h : n < 2 ^ 64) : u64 n = n := Nat.mod_eq_of_lt h

theorem u32_of_lt {n : Nat} (h : n < 2 ^ 32) : u32 n = n := Nat.mod_eq_of_lt h

theorem DIV_ROUND_UP_eq {n d : Nat} (hpos : 0 < n + d) (h : n + d - 1 < 2 ^ 64) :
    DIV_ROUND_UP n d = (n + d - 1) / d := by
  unfold DIV_ROUND_UP u64
  have e : n + d + (2 ^ 64 - 1) = (n + d - 1) + 2 ^ 64 := by omega
  rw [e, Nat.add_mod_right, Nat.mod_eq_of_lt h]

theorem or_63 (x : Nat) : x ||| 63 = x / 64 * 64 + 63 := by
  have hx : x = 2 ^ 6 * (x / 64) + x % 64 := by
    have := Nat.div_add_mod x 64
    omega
  have hr : x % 64 < 2 ^ 6 := by omega
  have h63 : (63 : Nat) < 2 ^ 6 := by decide
  have hor : x % 64 ||| 63 = 63 := by
    have key : ∀ r, r < 64 → r ||| 63 = 63 := by decide
    exact key _ (by omega)
  calc x ||| 63 = (2 ^ 6 * (x / 64) + x % 64) ||| 63 := by rw [← hx]
    _ = (2 ^ 6 * (x / 64) ||| x % 64) ||| 63 := by rw [Nat.mul_add_lt_is_or hr]
    _ = 2 ^ 6 * (x / 64) ||| 63 := by rw [Nat.or_assoc, hor]
    _ = 2 ^ 6 * (x / 64) + 63 := by rw [← Nat.mul_add_lt_is_or h63]
    _ = x / 64 * 64 + 63 := by omega

theorem and_not_7 {n : Nat} (h : n < 2 ^ 64) : n &&& (2 ^ 64 - 1 - 7) = n / 8 * 8 := by
  apply Nat.eq_of_testBit_eq
  intro i
  have e1 : (2 : Nat) ^ 64 - 1 - 7 = 2 ^ 64 - (7 + 1) := by norm_num
  have e2 : n / 8 * 8 = 2 ^ 3 * (n / 2 ^ 3) := by
    have : (2 : Nat) ^ 3 = 8 := by norm_num
    omega
  have h7 : (7 : Nat) < 2 ^ 64 := by norm_num
  have t7 : Nat.testBit 7 i = decide (i < 3) := by
    have := Nat.testBit_two_pow_sub_one 3 i
    simpa using this
  rw [Nat.testBit_and, e1, Nat.testBit_two_pow_sub_succ h7, t7, e2, Nat.testBit_mul_pow_two,
    ← Nat.shiftRight_eq_div_pow, Nat.testBit_shiftRight]
  by_cases h3 : i < 3
  · simp [h3]
  · by_cases h64 : i < 64
    · have : 3 + (i - 3) = i := by omega
      simp [h3, h64, this]
      omega
    · have hlt : n < 2 ^ i :=
        lt_of_lt_of_le h (Nat.pow_le_pow_right (by norm_num) (by omega))
      have : 3 + (i - 3) = i := by omega
      simp [Nat.testBit_lt_two_pow hlt, this]

theorem ALIGN_8_eq {x : Nat} (h : x + 7 < 2 ^ 64) : ALIGN x 8 = (x + 7) / 8 * 8 := by
  unfold ALIGN
  have e : (8 : Nat) - 1 = 7 := rfl
  rw [e, u64_of_lt h, and_not_7 h]

theorem round_up_64_eq {x : Nat} (h0 : 0 < x) (h : x + 64 ≤ 2 ^ 64) :
    round_up x 64 = ((x - 1) / 64 + 1) * 64 := by
  unfold round_up
  have e1 : x + (2 ^ 64 - 1) = (x - 1) + 2 ^ 64 := by omega
  have e2 : u64 (x + (2 ^ 64 - 1)) = x - 1 := by
    unfold u64
    rw [e1, Nat.add_mod_right, Nat.mod_eq_of_lt (by omega)]
  have e3 : (64 : Nat) - 1 = 63 := rfl
  rw [e2, e3, or_63, u64_of_lt (by omega)]
  omega

/-! ## Window sizes of pds_vfio_dirty_sync -/

theorem ceil_div_cases (length ps : Nat) (hps : 0 < ps) :
    (length % ps = 0 → (length + ps - 1) / ps = length / ps) ∧
    (length % ps ≠ 0 → (length + ps - 1) / ps = length / ps + 1) := by
  have hdm := Nat.div_add_mod length ps
  have hr := Nat.mod_lt length hps
  constructor
  · intro h0
    have e : length + ps - 1 = (ps - 1) + ps * (length / ps) := by omega
    rw [e, Nat.add_mul_div_left _ _ hps, Nat.div_eq_of_lt (by omega)]
    omega
  · intro h0
    have e : length + ps - 1 = (length % ps - 1) + ps * (length / ps + 1) := by
      rw [Nat.mul_add]
      omega
    rw [e, Nat.add_mul_div_left _ _ hps, Nat.div_eq_of_lt (by omega)]
    omega

theorem sync_bitmap_size_eq {ps length : Nat} (hps : 0 < ps) (hlen : 0 < length)
    (hov : length + ps + 64 ≤ 2 ^ 64) :
    sync_bitmap_size ps length = (((length + ps - 1) / ps - 1) / 64 + 1) * 8 := by
  have hle : (length + ps - 1) / ps ≤ length + ps - 1 := Nat.div_le_self _ _
  have hpos : 0 < (length + ps - 1) / ps := Nat.div_pos (by omega) hps
  have hq : (length + ps - 1) / ps ≤ length := by
    rcases Nat.eq_zero_or_pos (length % ps) with h0 | h0
    · rw [(ceil_div_cases _ _ hps).1 h0]
      exact Nat.div_le_self _ _
    · rw [(ceil_div_cases _ _ hps).2 (by omega)]
      have hdm := Nat.div_add_mod length ps
      have : ps * (length / ps) ≥ length / ps := Nat.le_mul_of_pos_left _ hps
      omega
  unfold sync_bitmap_size
  simp only [BITS_PER_BYTE]
  rw [DIV_ROUND_UP_eq (by omega) (by omega)]
  have e : (8 : Nat) * 8 = 64 := rfl
  rw [e, round_up_64_eq hpos (by omega)]
  omega

theorem sync_bmp_bytes_eq {ps length : Nat} (hov : length + 64 ≤ 2 ^ 64) :
    sync_bmp_bytes ps length = ((length / ps + 7) / 8 + 7) / 8 * 8 := by
  have hle : length / ps ≤ length := Nat.div_le_self _ _
  unfold sync_bmp_bytes
  generalize length / ps = q at hle ⊢
  rw [DIV_ROUND_UP_eq (by omega) (by omega), ALIGN_8_eq (by omega)]
  have e : q + 8 - 1 = q + 7 := by omega
  rw [e]

/-! ## Window validation, enable and disable -/

theorem sync_sizes_agree_of_case (page_size length : Nat) (hps : 0 < page_size)
    (hlen : 0 < length) (hov : length + page_size + 64 ≤ 2 ^ 64)
    (hcase : length % page_size = 0 ∨ (length / page_size) % 64 ≠ 0) :
    sync_bitmap_size page_size length = sync_bmp_bytes page_size length := by
  rw [sync_bitmap_size_eq hps hlen hov, sync_bmp_bytes_eq (by omega)]
  have hq : 0 < length / page_size ∨ length % page_size ≠ 0 := by
    rcases Nat.eq_zero_or_pos (length / page_size) with h0 | h0
    · right
      intro hm
      have := Nat.div_add_mod length page_size
      rw [h0, hm] at this
      omega
    · exact Or.inl h0
  rcases Nat.eq_zero_or_pos (length % page_size) with h0 | h0
  · rw [(ceil_div_cases _ _ hps).1 h0]
    generalize length / page_size = q at hq hcase ⊢
    generalize length % page_size = r at hq hcase h0 ⊢
    omega
  · rw [(ceil_div_cases _ _ hps).2 (by omega)]
    generalize length / page_size = q at hq hcase ⊢
    generalize length % page_size = r at hq hcase h0 ⊢
    omega

/-- C3 (as amended): for every page size > 0 and every length > 0 with
length + page_size + 64 <= 2^64 (no 64-bit wrap-around), the two window-size
formulas of pds_vfio_dirty_sync are equal whenever length is a multiple of
page_size or floor(length / page_size) is not a multiple of 64. -/
theorem C3_sync_sizes_agree (page_size length : Nat) (hps : 0 < page_size) (hlen : 0 < length)
    (hov : length + page_size + 64 ≤ 2 ^ 64)
    (hcase : length % page_size = 0 ∨ (length / page_size) % 64 ≠ 0) :
    sync_bitmap_size page_size length = sync_bmp_bytes page_size length :=
  sync_sizes_agree_of_case page_size length hps hlen hov hcase

/-- Witness for C3 (as amended): a window of 120 pages of 4096 bytes. -/
theorem C3_sync_sizes_agree_witness :
    sync_bitmap_size 4096 (120 * 4096) = sync_bmp_bytes 4096 (120 * 4096) :=
  C3_sync_sizes_agree 4096 (120 * 4096) (by decide) (by decide) (by decide) (by decide)

/-- Counterexample to C3 as stated: with page size 4096 (a power of two) and
the one-byte window at the start of the 64-page region of dev64, which lies
inside the region, the first formula gives 8 and the second 0, and
pds_vfio_dirty_sync returns -EINVAL from the mismatch branch without any
device command. -/
theorem C3_sync_sizes_counterexample :
    (0x100000 ≤ 0x100000 ∧ 0x100000 + 1 ≤ 0x100000 + dev64.dirty.region.size) ∧
    sync_bitmap_size 4096 1 = 8 ∧ sync_bmp_bytes 4096 1 = 0 ∧
    (pds_vfio_dirty_sync cfg4k okSync dev64 0x100000 1).err = - EINVAL ∧
    (pds_vfio_dirty_sync cfg4k okSync dev64 0x100000 1).trace = [] := by
  decide

/-- C2 (code defect): the window check does not test iova against the region
start. In the state devEnabled64 (region 0x100000 .. 0x140000, reached by a
successful enable) the window iova = 0xFF000, length = 0x2000 starts one page
below the region; iova - start + length wraps to 0x1000, the check passes,
both device round trips are issued, pages of the region are reported to the
sink and 0 is returned. -/
theorem C2_sync_accepts_iova_below_start :
    devEnabled64.dirty.is_enabled = true ∧
    devEnabled64.dirty.region.start = 0x100000 ∧
    devEnabled64.dirty.region.size = 0x40000 ∧
    0xFF000 < devEnabled64.dirty.region.start ∧
    (pds_vfio_dirty_sync cfg4k okSync devEnabled64 0xFF000 0x2000).err = 0 ∧
    (pds_vfio_dirty_sync cfg4k okSync devEnabled64 0xFF000 0x2000).trace =
      [Event.dirty_seq_ack_cmd 1 0 8 true,
       Event.iova_bitmap_set 0x100000 4096, Event.iova_bitmap_set 0x109000 4096,
       Event.dirty_seq_ack_cmd 1 0 8 false] := by
  decide

/-- C4 (code defect): the size check of pds_vfio_dirty_sync leaves bmp_offset
out. In the state devEnabled128 (bitmaps of 16 bytes, reached by a successful
enable) the window iova = 8 pages, length = 120 pages lies inside the region
and passes every check with bmp_offset = 1 and bmp_bytes = 16, so the byte
window ends at 17, past the 16 allocated bytes, and both round trips and the
merge run on it. -/
theorem C4_sync_window_past_bitmap :
    devEnabled128.dirty.is_enabled = true ∧
    devEnabled128.dirty.region.bmp_bytes = 16 ∧
    8 * 4096 + 120 * 4096 ≤ devEnabled128.dirty.region.start + devEnabled128.dirty.region.size ∧
    pds_vfio_dirty_sync_window devEnabled128.dirty.region (8 * 4096) (120 * 4096) =
      Except.ok (1, 16) ∧
    ¬ (1 + 16 ≤ devEnabled128.dirty.region.bmp_bytes) ∧
    (pds_vfio_dirty_sync cfg4k okSync devEnabled128 (8 * 4096) (120 * 4096)).err = 0 ∧
    (pds_vfio_dirty_sync cfg4k okSync devEnabled128 (8 * 4096) (120 * 4096)).trace =
      [Event.dirty_seq_ack_cmd 1 1 16 true,
       Event.iova_bitmap_set (9 * 4096) 4096,
       Event.dirty_seq_ack_cmd 1 1 16 false] := by
  refine ⟨by decide, by decide, by decide, rfl, by decide, by decide, by decide⟩

/-- C5: when tracking is enabled, pds_vfio_dirty_enable returns the error of
its first test (-EINVAL in the C code), issues no device command and calls no
collaborator, and leaves the whole device state as it was. -/
theorem C5_enable_rejects_double_start (cfg : Cfg) (env : EnableEnv)
    (pds_vfio : pds_vfio_pci_device) (ranges : List interval_tree_node) (nnodes page_size : Nat)
    (h : pds_vfio.dirty.is_enabled = true) :
    (pds_vfio_dirty_enable cfg env pds_vfio ranges nnodes page_size).err = - EINVAL ∧
    (pds_vfio_dirty_enable cfg env pds_vfio ranges nnodes page_size).trace = [] ∧
    (pds_vfio_dirty_enable cfg env pds_vfio ranges nnodes page_size).dev = pds_vfio := by
  simp [pds_vfio_dirty_enable, pds_vfio_dirty_is_enabled, h]

/-- C6: on a disabled state pds_vfio_dirty_disable returns with the state
unchanged and without the dirty-disable command, for either value of
send_cmd; and from every state a second disable leaves the state reached by
the first. -/
theorem C6_disable_idempotent (pds_vfio : pds_vfio_pci_device) (send_cmd send_again : Bool) :
    (pds_vfio.dirty.is_enabled = false →
      (pds_vfio_dirty_disable pds_vfio send_cmd).dev = pds_vfio ∧
      Event.dirty_disable_cmd ∉ (pds_vfio_dirty_disable pds_vfio send_cmd).trace) ∧
    (pds_vfio_dirty_disable (pds_vfio_dirty_disable pds_vfio send_cmd).dev send_again).dev =
      (pds_vfio_dirty_disable pds_vfio send_cmd).dev := by
  constructor
  · intro h
    cases send_cmd <;> simp [pds_vfio_dirty_disable, pds_vfio_dirty_is_enabled, h]
  · cases hen : pds_vfio.dirty.is_enabled
    · simp [pds_vfio_dirty_disable, pds_vfio_dirty_is_enabled, hen]
    · cases hs : pds_vfio.dirty.region.sgl <;>
        simp [pds_vfio_dirty_disable, pds_vfio_dirty_is_enabled, hen, hs,
          pds_vfio_dirty_set_disabled, pds_vfio_dirty_free_sgl, pds_vfio_dirty_free_bitmaps,
          __pds_vfio_dirty_free_sgl]

/-! ## The merger -/

theorem le64_to_cpu_at_congr {m m2 : Mem} {off : Nat}
    (h : ∀ a, off ≤ a → a < off + 8 → m a = m2 a) :
    le64_to_cpu_at m off = le64_to_cpu_at m2 off := by
  unfold le64_to_cpu_at
  rw [h off (by omega) (by omega), h (off + 1) (by omega) (by omega),
    h (off + 2) (by omega) (by omega), h (off + 3) (by omega) (by omega),
    h (off + 4) (by omega) (by omega), h (off + 5) (by omega) (by omega),
    h (off + 6) (by omega) (by omega), h (off + 7) (by omega) (by omega)]

theorem filterMap_congr_mem {α β : Type} {f g : α → Option β} :
    ∀ {l : List α}, (∀ x ∈ l, f x = g x) → l.filterMap f = l.filterMap g
  | [], _ => rfl
  | x :: l, h => by
    have hx : f x = g x := h x (List.mem_cons_self x l)
    have hl : l.filterMap f = l.filterMap g :=
      filterMap_congr_mem (fun y hy => h y (List.mem_cons_of_mem x hy))
    simp only [List.filterMap_cons, hx, hl]

theorem and_BIT_ne_zero {x b : Nat} (hb : b < 64) : x &&& BIT b ≠ 0 ↔ x.testBit b = true := by
  have hB : BIT b = 2 ^ b := by
    unfold BIT
    rw [Nat.one_shiftLeft]
    exact u64_of_lt (Nat.pow_lt_pow_right (by norm_num) hb)
  rw [hB]
  constructor
  · intro h
    by_contra hx
    apply h
    apply Nat.eq_of_testBit_eq
    intro j
    rw [Nat.testBit_and, Nat.testBit_two_pow, Nat.zero_testBit]
    by_cases hj : b = j
    · subst hj
      simp [hx]
    · simp [hj]
  · intro h h0
    have : (x &&& 2 ^ b).testBit b = true := by
      rw [Nat.testBit_and, Nat.testBit_two_pow_self, h]
      rfl
    rw [h0, Nat.zero_testBit] at this
    exact Bool.noConfusion this

theorem process_word_eq (region : pds_vfio_region) (seq ack : Mem) (bmp_offset i : Nat)
    (hi : i < 2 ^ 29) :
    process_word region.page_size region.start (u32 (bmp_offset * 8))
      (le64_to_cpu_at seq (bmp_offset + 8 * i) ^^^ le64_to_cpu_at ack (bmp_offset + 8 * i)) i =
    merger_word_calls (code_addr region bmp_offset) region.page_size seq ack bmp_offset i := by
  unfold process_word merger_word_calls
  apply filterMap_congr_mem
  intro b hb
  have hb64 : b < 64 := List.mem_range.mp hb
  have h32 : u32 (bmp_offset * 8) < 2 ^ 32 := Nat.mod_lt _ (by norm_num)
  have e1 : u64 (i * 64) = i * 64 := u64_of_lt (by omega)
  have e2 : u64 (u32 (bmp_offset * 8) + i * 64) = u32 (bmp_offset * 8) + i * 64 :=
    u64_of_lt (by omega)
  have e3 : u64 (u32 (bmp_offset * 8) + i * 64 + b) = u32 (bmp_offset * 8) + i * 64 + b :=
    u64_of_lt (by omega)
  have e4 : ∀ A : Nat, u64 (u64 (A * region.page_size) + region.start) =
      (region.start + A * region.page_size) % 2 ^ 64 := by
    intro A
    unfold u64
    rw [Nat.mod_add_mod, Nat.add_comm]
  by_cases hx : (le64_to_cpu_at seq (bmp_offset + 8 * i) ^^^
      le64_to_cpu_at ack (bmp_offset + 8 * i)).testBit b = true
  · have h1 := (and_BIT_ne_zero hb64).mpr hx
    rw [if_pos h1, if_pos hx]
    simp only [e1, e2, e3, e4]
    rfl
  · have h1 : ¬ ((le64_to_cpu_at seq (bmp_offset + 8 * i) ^^^
        le64_to_cpu_at ack (bmp_offset + 8 * i)) &&& BIT b ≠ 0) :=
      fun h => hx ((and_BIT_ne_zero hb64).mp h)
    simp only [h1, hx, if_false]
    rfl

theorem process_fold_fst (seq ack : Mem) (ps start off obit : Nat) (n : Nat) :
    ((List.range n).foldl (process_step seq ps start off obit) (ack, [])).1 =
      fun a => if off ≤ a ∧ a < off + 8 * n then seq a else ack a := by
  induction n with
  | zero =>
    funext a
    have : ¬ (off ≤ a ∧ a < off) := by omega
    simp [this]
  | succ n ih =>
    rw [List.range_succ, List.foldl_append]
    simp only [List.foldl_cons, List.foldl_nil, process_step]
    rw [ih]
    funext a
    unfold copy_le64
    by_cases h1 : off + 8 * n ≤ a ∧ a < off + 8 * n + 8
    · have h2 : off ≤ a ∧ a < off + 8 * (n + 1) := by omega
      simp only [h1, h2, and_self, if_true]
    · by_cases h3 : off ≤ a ∧ a < off + 8 * n
      · have h2 : off ≤ a ∧ a < off + 8 * (n + 1) := by omega
        simp only [h1, h2, h3, and_self, if_true, if_false]
      · have h2 : ¬ (off ≤ a ∧ a < off + 8 * (n + 1)) := by omega
        simp only [h1, h2, h3, if_false]

theorem process_fold_snd (region : pds_vfio_region) (seq ack : Mem) (off : Nat) (n : Nat)
    (hn : n ≤ 2 ^ 29) :
    ((List.range n).foldl
      (process_step seq region.page_size region.start off (u32 (off * 8))) (ack, [])).2 =
      merger_calls (code_addr region off) region.page_size seq ack off n := by
  induction n with
  | zero => rfl
  | succ n ih =>
    rw [List.range_succ, List.foldl_append]
    simp only [List.foldl_cons, List.foldl_nil, process_step]
    rw [ih (by omega), process_fold_fst]
    have hack : le64_to_cpu_at
        (fun a => if off ≤ a ∧ a < off + 8 * n then seq a else ack a) (off + 8 * n) =
        le64_to_cpu_at ack (off + 8 * n) := by
      apply le64_to_cpu_at_congr
      intro a h1 h2
      have : ¬ (off ≤ a ∧ a < off + 8 * n) := by omega
      simp only [this, if_false]
    rw [hack, process_word_eq region seq ack off n (by omega)]
    rfl

theorem merger_calls_congr {f g : Nat → Nat → Nat} (ps : Nat) (seq ack : Mem) (off : Nat) :
    ∀ n, (∀ i, i < n → ∀ b, b < 64 → f i b = g i b) →
      merger_calls f ps seq ack off n = merger_calls g ps seq ack off n
  | 0, _ => rfl
  | n + 1, h => by
    have ih := merger_calls_congr ps seq ack off n (fun i hi b hb => h i (by omega) b hb)
    have hw : merger_word_calls f ps seq ack off n = merger_word_calls g ps seq ack off n := by
      unfold merger_word_calls
      apply filterMap_congr_mem
      intro b hb
      rw [h n (by omega) b (List.mem_range.mp hb)]
    simp only [merger_calls, ih, hw]

theorem process_bitmaps_eq (region : pds_vfio_region) (seq ack : Mem) (bmp_offset len_bytes : Nat)
    (hseq : region.host_seq = some seq) (hack : region.host_ack = some ack)
    (hlen : len_bytes < 2 ^ 32) :
    pds_vfio_dirty_process_bitmaps region bmp_offset len_bytes =
      (0, { region with host_ack := some (fun a =>
              if bmp_offset ≤ a ∧ a < bmp_offset + 8 * (len_bytes / 8) then seq a else ack a) },
       merger_calls (code_addr region bmp_offset) region.page_size seq ack bmp_offset
         (len_bytes / 8)) := by
  unfold pds_vfio_dirty_process_bitmaps
  simp only [hseq, hack]
  rw [process_fold_fst, process_fold_snd region seq ack bmp_offset (len_bytes / 8) (by omega)]

/-- C8 (as amended): on allocated bitmaps and u32 arguments,
pds_vfio_dirty_process_bitmaps calls set(addr, page_size) exactly once for each
word index i < len_bytes / 8 and bit b < 64 such that bit b of
seq[i] XOR ack[i] is set, in increasing (i, b) order, and makes no other call,
with addr = (region.start + ((bmp_offset * 8 mod 2^32) + i * 64 + b) *
page_size) mod 2^64; this is the address
region.start + (bmp_offset * 8 + i * 64 + b) * page_size whenever
bmp_offset * 8 < 2^32, page_size > 0 and the addresses of the window stay
below 2^64. -/
theorem C8_process_bitmaps_calls (region : pds_vfio_region) (seq ack : Mem)
    (bmp_offset len_bytes : Nat)
    (hseq : region.host_seq = some seq) (hack : region.host_ack = some ack)
    (hlen : len_bytes < 2 ^ 32) :
    (pds_vfio_dirty_process_bitmaps region bmp_offset len_bytes).2.2 =
      merger_calls (code_addr region bmp_offset) region.page_size seq ack bmp_offset
        (len_bytes / 8) ∧
    (bmp_offset * 8 < 2 ^ 32 → 0 < region.page_size →
     region.start + (bmp_offset * 8 + len_bytes * 8) * region.page_size ≤ 2 ^ 64 →
     (pds_vfio_dirty_process_bitmaps region bmp_offset len_bytes).2.2 =
      merger_calls (spec_addr region bmp_offset) region.page_size seq ack bmp_offset
        (len_bytes / 8)) := by
  rw [process_bitmaps_eq region seq ack bmp_offset len_bytes hseq hack hlen]
  refine ⟨rfl, fun h32 h0 hfit => ?_⟩
  apply merger_calls_congr
  intro i hi b hb
  unfold code_addr spec_addr
  rw [Nat.mod_eq_of_lt h32]
  apply Nat.mod_eq_of_lt
  have hbit : bmp_offset * 8 + i * 64 + b < bmp_offset * 8 + len_bytes * 8 := by omega
  have := Nat.mul_lt_mul_of_pos_right hbit h0
  omega

/-- Counterexample to C8 as stated: for the window at byte offset 2^29 the C
code computes the bit offset 2^29 * 8 in a u32, which is 0, and reports the
address 0, where the claim gives 2^32 * 4096. -/
theorem C8_process_bitmaps_counterexample :
    (pds_vfio_dirty_process_bitmaps regionFar (2 ^ 29) 8).2.2 = [Event.iova_bitmap_set 0 4096] ∧
    merger_calls (spec_addr regionFar (2 ^ 29)) regionFar.page_size
      (fun a => if a = 2 ^ 29 then 1 else 0) zeroed (2 ^ 29) (8 / 8) =
      [Event.iova_bitmap_set (2 ^ 32 * 4096) 4096] := by
  decide

/-- Witness for C8 (as amended) on the region regionNear, for the window of the
first word, which holds the bits of the pages 0 and 9: both address formulas
apply and give the two calls. -/
theorem C8_process_bitmaps_calls_witness :
    (pds_vfio_dirty_process_bitmaps regionNear 0 8).2.2 =
      merger_calls (code_addr regionNear 0) regionNear.page_size
        (fun a => if a = 0 then 1 else if a = 1 then 2 else 0) zeroed 0 (8 / 8) ∧
    (pds_vfio_dirty_process_bitmaps regionNear 0 8).2.2 =
      merger_calls (spec_addr regionNear 0) regionNear.page_size
        (fun a => if a = 0 then 1 else if a = 1 then 2 else 0) zeroed 0 (8 / 8) ∧
    merger_calls (spec_addr regionNear 0) regionNear.page_size
        (fun a => if a = 0 then 1 else if a = 1 then 2 else 0) zeroed 0 (8 / 8) =
      [Event.iova_bitmap_set 0x100000 4096, Event.iova_bitmap_set 0x109000 4096] :=
  ⟨(C8_process_bitmaps_calls regionNear (fun a => if a = 0 then 1 else if a = 1 then 2 else 0)
      zeroed 0 8 rfl rfl (by decide)).1,
   (C8_process_bitmaps_calls regionNear (fun a => if a = 0 then 1 else if a = 1 then 2 else 0)
      zeroed 0 8 rfl rfl (by decide)).2 (by decide) (by decide) (by decide),
   by decide⟩

theorem process_bitmaps_region (region : pds_vfio_region) (seq ack : Mem)
    (bmp_offset len_bytes : Nat)
    (hseq : region.host_seq = some seq) (hack : region.host_ack = some ack) :
    (pds_vfio_dirty_process_bitmaps region bmp_offset len_bytes).1 = 0 ∧
    (pds_vfio_dirty_process_bitmaps region bmp_offset len_bytes).2.1 =
      { region with host_ack := some (fun a =>
          if bmp_offset ≤ a ∧ a < bmp_offset + 8 * (len_bytes / 8) then seq a else ack a) } := by
  unfold pds_vfio_dirty_process_bitmaps
  simp only [hseq, hack]
  rw [process_fold_fst]
  exact ⟨trivial, rfl⟩

/-- C9: on allocated bitmaps, after pds_vfio_dirty_process_bitmaps the
acknowledge words of the window equal the sequence words of the window, the
sequence bitmap is unchanged, every acknowledge byte outside
[bmp_offset, bmp_offset + len_bytes) is unchanged, the other fields of the
region are unchanged, and the function returns 0. -/
theorem C9_process_bitmaps_effect (region : pds_vfio_region) (seq ack : Mem)
    (bmp_offset len_bytes : Nat)
    (hseq : region.host_seq = some seq) (hack : region.host_ack = some ack) :
    (pds_vfio_dirty_process_bitmaps region bmp_offset len_bytes).1 = 0 ∧
    (pds_vfio_dirty_process_bitmaps region bmp_offset len_bytes).2.1.host_seq = some seq ∧
    (∃ ack2, (pds_vfio_dirty_process_bitmaps region bmp_offset len_bytes).2.1.host_ack = some ack2 ∧
      (∀ i, i < len_bytes / 8 →
        le64_to_cpu_at ack2 (bmp_offset + 8 * i) = le64_to_cpu_at seq (bmp_offset + 8 * i)) ∧
      (∀ a, bmp_offset ≤ a → a < bmp_offset + 8 * (len_bytes / 8) → ack2 a = seq a) ∧
      (∀ a, ¬ (bmp_offset ≤ a ∧ a < bmp_offset + len_bytes) → ack2 a = ack a)) ∧
    (pds_vfio_dirty_process_bitmaps region bmp_offset len_bytes).2.1.bmp_bytes = region.bmp_bytes ∧
    (pds_vfio_dirty_process_bitmaps region bmp_offset len_bytes).2.1.start = region.start ∧
    (pds_vfio_dirty_process_bitmaps region bmp_offset len_bytes).2.1.size = region.size ∧
    (pds_vfio_dirty_process_bitmaps region bmp_offset len_bytes).2.1.page_size =
      region.page_size ∧
    (pds_vfio_dirty_process_bitmaps region bmp_offset len_bytes).2.1.sgl = region.sgl ∧
    (pds_vfio_dirty_process_bitmaps region bmp_offset len_bytes).2.1.num_sge = region.num_sge := by
  obtain ⟨h0, hr⟩ := process_bitmaps_region region seq ack bmp_offset len_bytes hseq hack
  rw [hr]
  refine ⟨h0, hseq, ⟨_, rfl, ?_, ?_, ?_⟩, rfl, rfl, rfl, rfl, rfl, rfl⟩
  · intro i hi
    apply le64_to_cpu_at_congr
    intro a h1 h2
    have : bmp_offset ≤ a ∧ a < bmp_offset + 8 * (len_bytes / 8) := by omega
    simp only [this, and_self, if_true]
  · intro a h1 h2
    simp only [h1, h2, and_self, if_true]
  · intro a h
    have : ¬ (bmp_offset ≤ a ∧ a < bmp_offset + 8 * (len_bytes / 8)) := by omega
    simp only [this, if_false]

/-- Witness for C9 on the region regionFar. -/
theorem C9_process_bitmaps_effect_witness :
    (pds_vfio_dirty_process_bitmaps regionFar (2 ^ 29) 8).1 = 0 ∧
    (pds_vfio_dirty_process_bitmaps regionFar (2 ^ 29) 8).2.1.bmp_bytes = regionFar.bmp_bytes :=
  ⟨(C9_process_bitmaps_effect regionFar (fun a => if a = 2 ^ 29 then 1 else 0) zeroed (2 ^ 29) 8
      rfl rfl).1,
   (C9_process_bitmaps_effect regionFar (fun a => if a = 2 ^ 29 then 1 else 0) zeroed (2 ^ 29) 8
      rfl rfl).2.2.2.1⟩

/-! ## The device round trip -/

theorem seq_ack_of_issued (cfg : Cfg) (env : SeqAckEnv) (region : pds_vfio_region)
    (bmp : Option Mem) (offset bmp_bytes : Nat) (read_seq : Bool)
    (h : seq_ack_issued cfg env offset bmp_bytes = true) :
    pds_vfio_dirty_seq_ack cfg env region bmp offset bmp_bytes read_seq =
      (env.cmd_err, { region with sgl := region.sgl.map (sgl_fill env) },
       (if read_seq then bmp.map (dma_fill env offset bmp_bytes) else bmp),
       [Event.dirty_seq_ack_cmd (u16 (u32 env.sg.length)) offset bmp_bytes read_seq]) := by
  unfold seq_ack_issued at h
  simp only [Bool.and_eq_true, decide_eq_true_eq] at h
  obtain ⟨⟨⟨h1, h2⟩, h3⟩, h4⟩ := h
  unfold pds_vfio_dirty_seq_ack
  simp only [h1, h2, h3, h4]
  simp

theorem seq_ack_of_not_issued (cfg : Cfg) (env : SeqAckEnv) (region : pds_vfio_region)
    (bmp : Option Mem) (offset bmp_bytes : Nat) (read_seq : Bool)
    (h : seq_ack_issued cfg env offset bmp_bytes = false) :
    ∃ e : Int, e ≠ 0 ∧
      pds_vfio_dirty_seq_ack cfg env region bmp offset bmp_bytes read_seq =
        (e, region, bmp, []) := by
  unfold pds_vfio_dirty_seq_ack
  by_cases h1 : env.kmalloc_ok = true
  · by_cases h2 : (List.range (DIV_ROUND_UP (u32 (bmp_bytes + u32 (offset % cfg.PAGE_SIZE)))
        cfg.PAGE_SIZE)).all env.page_ok = true
    · by_cases h3 : env.sg_alloc_err = 0
      · by_cases h4 : env.dma_map_err = 0
        · exfalso
          unfold seq_ack_issued at h
          simp [h1, h2, h3, h4] at h
        · exact ⟨env.dma_map_err, h4, by simp [h1, h2, h3, h4]⟩
      · exact ⟨env.sg_alloc_err, h3, by simp [h1, h2, h3]⟩
    · exact ⟨- EFAULT, by decide, by simp [h1, h2]⟩
  · exact ⟨- ENOMEM, by decide, by simp [h1]⟩

theorem read_seq_of_issued (cfg : Cfg) (env : SeqAckEnv) (region : pds_vfio_region)
    (offset len : Nat) (h : seq_ack_issued cfg env offset len = true) :
    pds_vfio_dirty_read_seq cfg env region offset len =
      (env.cmd_err, region_after_read env region offset len,
       [Event.dirty_seq_ack_cmd (u16 (u32 env.sg.length)) offset len true]) := by
  unfold pds_vfio_dirty_read_seq
  rw [seq_ack_of_issued cfg env region _ offset len true h]
  rfl

theorem read_seq_of_not_issued (cfg : Cfg) (env : SeqAckEnv) (region : pds_vfio_region)
    (offset len : Nat) (h : seq_ack_issued cfg env offset len = false) :
    ∃ e : Int, e ≠ 0 ∧ pds_vfio_dirty_read_seq cfg env region offset len = (e, region, []) := by
  obtain ⟨e, he, heq⟩ := seq_ack_of_not_issued cfg env region region.host_seq offset len true h
  refine ⟨e, he, ?_⟩
  unfold pds_vfio_dirty_read_seq
  rw [heq]

theorem write_ack_of_issued (cfg : Cfg) (env : SeqAckEnv) (region : pds_vfio_region)
    (offset len : Nat) (h : seq_ack_issued cfg env offset len = true) :
    pds_vfio_dirty_write_ack cfg env region offset len =
      (env.cmd_err, region_after_write env region,
       [Event.dirty_seq_ack_cmd (u16 (u32 env.sg.length)) offset len false]) := by
  unfold pds_vfio_dirty_write_ack
  rw [seq_ack_of_issued cfg env region _ offset len false h]
  rfl

theorem write_ack_of_not_issued (cfg : Cfg) (env : SeqAckEnv) (region : pds_vfio_region)
    (offset len : Nat) (h : seq_ack_issued cfg env offset len = false) :
    ∃ e : Int, e ≠ 0 ∧ pds_vfio_dirty_write_ack cfg env region offset len = (e, region, []) := by
  obtain ⟨e, he, heq⟩ := seq_ack_of_not_issued cfg env region region.host_ack offset len false h
  refine ⟨e, he, ?_⟩
  unfold pds_vfio_dirty_write_ack
  rw [heq]

theorem process_bitmaps_fst (region : pds_vfio_region) (bmp_offset len_bytes : Nat) :
    (pds_vfio_dirty_process_bitmaps region bmp_offset len_bytes).1 = 0 := by
  unfold pds_vfio_dirty_process_bitmaps
  split <;> rfl

/-! ## The paths of pds_vfio_dirty_sync -/

theorem sync_read_not_issued (cfg : Cfg) (env : SyncEnv) (s : pds_vfio_pci_device)
    (iova length off len : Nat) (hen : s.dirty.is_enabled = true)
    (hw : pds_vfio_dirty_sync_window s.dirty.region iova length = Except.ok (off, len))
    (hr : seq_ack_issued cfg env.read (u32 off) (u32 len) = false) :
    ∃ e : Int, e ≠ 0 ∧ pds_vfio_dirty_sync cfg env s iova length = ⟨e, s, []⟩ := by
  rcases s with ⟨⟨region, en⟩⟩
  simp only at hen hw
  subst hen
  obtain ⟨e, he, heq⟩ := read_seq_of_not_issued cfg env.read region (u32 off) (u32 len) hr
  refine ⟨e, he, ?_⟩
  unfold pds_vfio_dirty_sync
  simp only [pds_vfio_dirty_is_enabled, hw, heq]
  simp [he]

theorem sync_read_failed (cfg : Cfg) (env : SyncEnv) (s : pds_vfio_pci_device)
    (iova length off len : Nat) (hen : s.dirty.is_enabled = true)
    (hw : pds_vfio_dirty_sync_window s.dirty.region iova length = Except.ok (off, len))
    (hr : seq_ack_issued cfg env.read (u32 off) (u32 len) = true)
    (hc : env.read.cmd_err ≠ 0) :
    pds_vfio_dirty_sync cfg env s iova length =
      ⟨env.read.cmd_err,
       with_region s (region_after_read env.read s.dirty.region (u32 off) (u32 len)),
       [Event.dirty_seq_ack_cmd (u16 (u32 env.read.sg.length)) (u32 off) (u32 len) true]⟩ := by
  rcases s with ⟨⟨region, en⟩⟩
  simp only at hen hw
  subst hen
  unfold pds_vfio_dirty_sync
  simp only [pds_vfio_dirty_is_enabled, hw,
    read_seq_of_issued cfg env.read region (u32 off) (u32 len) hr]
  simp [hc, with_region]

theorem sync_write_not_issued (cfg : Cfg) (env : SyncEnv) (s : pds_vfio_pci_device)
    (iova length off len : Nat) (hen : s.dirty.is_enabled = true)
    (hw : pds_vfio_dirty_sync_window s.dirty.region iova length = Except.ok (off, len))
    (hr : seq_ack_issued cfg env.read (u32 off) (u32 len) = true)
    (hc : env.read.cmd_err = 0)
    (hwr : seq_ack_issued cfg env.write (u32 off) (u32 len) = false) :
    ∃ e : Int, e ≠ 0 ∧ pds_vfio_dirty_sync cfg env s iova length =
      ⟨e,
       with_region s (pds_vfio_dirty_process_bitmaps
          (region_after_read env.read s.dirty.region (u32 off) (u32 len))
          (u32 off) (u32 len)).2.1,
       [Event.dirty_seq_ack_cmd (u16 (u32 env.read.sg.length)) (u32 off) (u32 len) true] ++
       (pds_vfio_dirty_process_bitmaps
          (region_after_read env.read s.dirty.region (u32 off) (u32 len))
          (u32 off) (u32 len)).2.2⟩ := by
  rcases s with ⟨⟨region, en⟩⟩
  simp only at hen hw
  subst hen
  obtain ⟨e, he, heq⟩ := write_ack_of_not_issued cfg env.write
    (pds_vfio_dirty_process_bitmaps
      (region_after_read env.read region (u32 off) (u32 len)) (u32 off) (u32 len)).2.1
    (u32 off) (u32 len) hwr
  refine ⟨e, he, ?_⟩
  have h0 := process_bitmaps_fst
    (region_after_read env.read region (u32 off) (u32 len)) (u32 off) (u32 len)
  unfold pds_vfio_dirty_sync
  simp only [pds_vfio_dirty_is_enabled, hw,
    read_seq_of_issued cfg env.read region (u32 off) (u32 len) hr]
  simp [hc, h0, heq, he, with_region]

theorem sync_write_issued (cfg : Cfg) (env : SyncEnv) (s : pds_vfio_pci_device)
    (iova length off len : Nat) (hen : s.dirty.is_enabled = true)
    (hw : pds_vfio_dirty_sync_window s.dirty.region iova length = Except.ok (off, len))
    (hr : seq_ack_issued cfg env.read (u32 off) (u32 len) = true)
    (hc : env.read.cmd_err = 0)
    (hwr : seq_ack_issued cfg env.write (u32 off) (u32 len) = true) :
    pds_vfio_dirty_sync cfg env s iova length =
      ⟨env.write.cmd_err,
       with_region s (region_after_write env.write (pds_vfio_dirty_process_bitmaps
          (region_after_read env.read s.dirty.region (u32 off) (u32 len))
          (u32 off) (u32 len)).2.1),
       [Event.dirty_seq_ack_cmd (u16 (u32 env.read.sg.length)) (u32 off) (u32 len) true] ++
       (pds_vfio_dirty_process_bitmaps
          (region_after_read env.read s.dirty.region (u32 off) (u32 len))
          (u32 off) (u32 len)).2.2 ++
       [Event.dirty_seq_ack_cmd (u16 (u32 env.write.sg.length)) (u32 off) (u32 len) false]⟩ := by
  rcases s with ⟨⟨region, en⟩⟩
  simp only at hen hw
  subst hen
  have h0 := process_bitmaps_fst
    (region_after_read env.read region (u32 off) (u32 len)) (u32 off) (u32 len)
  have hwa := write_ack_of_issued cfg env.write
    (pds_vfio_dirty_process_bitmaps
      (region_after_read env.read region (u32 off) (u32 len)) (u32 off) (u32 len)).2.1
    (u32 off) (u32 len) hwr
  unfold pds_vfio_dirty_sync
  simp only [pds_vfio_dirty_is_enabled, hw,
    read_seq_of_issued cfg env.read region (u32 off) (u32 len) hr]
  simp only [hc, h0, hwa, with_region]
  by_cases hz : env.write.cmd_err = 0
  · simp [hz]
  · simp [hz]

theorem sync_disabled (cfg : Cfg) (env : SyncEnv) (s : pds_vfio_pci_device)
    (iova length : Nat) (hen : s.dirty.is_enabled = false) :
    pds_vfio_dirty_sync cfg env s iova length = ⟨- EINVAL, s, []⟩ := by
  unfold pds_vfio_dirty_sync
  simp [pds_vfio_dirty_is_enabled, hen]

theorem sync_window_congr (r1 r2 : pds_vfio_region) (iova length : Nat)
    (h1 : r2.page_size = r1.page_size) (h2 : r2.start = r1.start) (h3 : r2.size = r1.size)
    (h4 : r2.bmp_bytes = r1.bmp_bytes) :
    pds_vfio_dirty_sync_window r2 iova length = pds_vfio_dirty_sync_window r1 iova length := by
  unfold pds_vfio_dirty_sync_window
  rw [h1, h2, h3, h4]

theorem process_bitmaps_frame (region : pds_vfio_region) (bmp_offset len_bytes : Nat) :
    (pds_vfio_dirty_process_bitmaps region bmp_offset len_bytes).2.1.host_seq = region.host_seq ∧
    (pds_vfio_dirty_process_bitmaps region bmp_offset len_bytes).2.1.page_size =
      region.page_size ∧
    (pds_vfio_dirty_process_bitmaps region bmp_offset len_bytes).2.1.start = region.start ∧
    (pds_vfio_dirty_process_bitmaps region bmp_offset len_bytes).2.1.size = region.size ∧
    (pds_vfio_dirty_process_bitmaps region bmp_offset len_bytes).2.1.bmp_bytes =
      region.bmp_bytes ∧
    (pds_vfio_dirty_process_bitmaps region bmp_offset len_bytes).2.1.num_sge = region.num_sge := by
  unfold pds_vfio_dirty_process_bitmaps
  split <;> exact ⟨rfl, rfl, rfl, rfl, rfl, rfl⟩

theorem process_bitmaps_of_null (region : pds_vfio_region) (bmp_offset len_bytes : Nat)
    (h : region.host_seq = none ∨ region.host_ack = none) :
    pds_vfio_dirty_process_bitmaps region bmp_offset len_bytes = (0, region, []) := by
  unfold pds_vfio_dirty_process_bitmaps
  rcases h with h | h
  · simp [h]
  · cases hs : region.host_seq <;> simp [h]

theorem merger_calls_nil (f : Nat → Nat → Nat) (ps : Nat) (seq ack : Mem) (off : Nat) :
    ∀ n, (∀ i, i < n → le64_to_cpu_at seq (off + 8 * i) = le64_to_cpu_at ack (off + 8 * i)) →
      merger_calls f ps seq ack off n = []
  | 0, _ => rfl
  | n + 1, h => by
    have ih := merger_calls_nil f ps seq ack off n (fun i hi => h i (by omega))
    have hw : merger_word_calls f ps seq ack off n = [] := by
      unfold merger_word_calls
      rw [h n (by omega), Nat.xor_self]
      simp
    simp only [merger_calls, ih, hw, List.append_nil]

theorem resync_process (env1r env1w env2r : SeqAckEnv) (region : pds_vfio_region) (o l : Nat)
    (hl : l < 2 ^ 32)
    (hdev : ∀ a, o ≤ a → a < o + l → env2r.dev_seq a = env1r.dev_seq a) :
    (pds_vfio_dirty_process_bitmaps
      (region_after_read env2r
        (region_after_write env1w
          (pds_vfio_dirty_process_bitmaps (region_after_read env1r region o l) o l).2.1) o l)
      o l).2.2 = [] ∧
    (pds_vfio_dirty_process_bitmaps
      (region_after_read env2r
        (region_after_write env1w
          (pds_vfio_dirty_process_bitmaps (region_after_read env1r region o l) o l).2.1) o l)
      o l).2.1.host_ack =
    (region_after_write env1w
      (pds_vfio_dirty_process_bitmaps (region_after_read env1r region o l) o l).2.1).host_ack := by
  cases hs : region.host_seq with
  | none =>
    have e1 : pds_vfio_dirty_process_bitmaps (region_after_read env1r region o l) o l =
        (0, region_after_read env1r region o l, []) :=
      process_bitmaps_of_null _ _ _ (Or.inl (by simp [region_after_read, hs]))
    rw [e1]
    have e2 := process_bitmaps_of_null
      (region_after_read env2r (region_after_write env1w (region_after_read env1r region o l)) o l)
      o l (Or.inl (by simp [region_after_read, region_after_write, hs]))
    rw [e2]
    exact ⟨rfl, rfl⟩
  | some seq0 =>
    cases ha : region.host_ack with
    | none =>
      have e1 : pds_vfio_dirty_process_bitmaps (region_after_read env1r region o l) o l =
          (0, region_after_read env1r region o l, []) :=
        process_bitmaps_of_null _ _ _ (Or.inr (by simp [region_after_read, ha]))
      rw [e1]
      have e2 := process_bitmaps_of_null
        (region_after_read env2r (region_after_write env1w (region_after_read env1r region o l))
          o l)
        o l (Or.inr (by simp [region_after_read, region_after_write, ha]))
      rw [e2]
      exact ⟨rfl, rfl⟩
    | some ack0 =>
      have hs1 : (region_after_read env1r region o l).host_seq =
          some (dma_fill env1r o l seq0) := by simp [region_after_read, hs]
      have ha1 : (region_after_read env1r region o l).host_ack = some ack0 := by
        simp [region_after_read, ha]
      rw [process_bitmaps_eq _ _ _ o l hs1 ha1 hl]
      have hfill : dma_fill env2r o l (dma_fill env1r o l seq0) = dma_fill env1r o l seq0 := by
        funext a
        unfold dma_fill
        by_cases hin : o ≤ a ∧ a < o + l
        · simp only [hin, and_self, if_true]
          exact hdev a hin.1 hin.2
        · simp only [hin, if_false]
      have hs2 : (region_after_read env2r (region_after_write env1w
          { region_after_read env1r region o l with host_ack := some (fun a =>
              if o ≤ a ∧ a < o + 8 * (l / 8) then dma_fill env1r o l seq0 a else ack0 a) })
          o l).host_seq = some (dma_fill env1r o l seq0) := by
        simp [region_after_read, region_after_write, hs, hfill]
      have ha2 : (region_after_read env2r (region_after_write env1w
          { region_after_read env1r region o l with host_ack := some (fun a =>
              if o ≤ a ∧ a < o + 8 * (l / 8) then dma_fill env1r o l seq0 a else ack0 a) })
          o l).host_ack = some (fun a =>
              if o ≤ a ∧ a < o + 8 * (l / 8) then dma_fill env1r o l seq0 a else ack0 a) := by
        simp [region_after_read, region_after_write]
      rw [process_bitmaps_eq _ _ _ o l hs2 ha2 hl]
      refine ⟨?_, ?_⟩
      · apply merger_calls_nil
        intro i hi
        apply le64_to_cpu_at_congr
        intro a h1 h2
        have : o ≤ a ∧ a < o + 8 * (l / 8) := by omega
        simp only [this, and_self, if_true]
      · show some _ = some _
        congr 1
        funext a
        by_cases hin : o ≤ a ∧ a < o + 8 * (l / 8)
        · simp only [hin, and_self, if_true]
        · simp only [hin, if_false]

/-- C7: when a first pds_vfio_dirty_sync over a window returned 0 and the
device reports the same sequence bytes on the window at the second read, a
second pds_vfio_dirty_sync over the same window makes no call of the output
sink and leaves the acknowledge bitmap as the first sync left it. -/
theorem C7_resync_reports_nothing (cfg : Cfg) (env1 env2 : SyncEnv) (s : pds_vfio_pci_device)
    (iova length off len : Nat)
    (hw : pds_vfio_dirty_sync_window s.dirty.region iova length = Except.ok (off, len))
    (h1 : (pds_vfio_dirty_sync cfg env1 s iova length).err = 0)
    (hdev : ∀ a, u32 off ≤ a → a < u32 off + u32 len →
      env2.read.dev_seq a = env1.read.dev_seq a) :
    (∀ addr l, Event.iova_bitmap_set addr l ∉
      (pds_vfio_dirty_sync cfg env2 (pds_vfio_dirty_sync cfg env1 s iova length).dev
        iova length).trace) ∧
    (pds_vfio_dirty_sync cfg env2 (pds_vfio_dirty_sync cfg env1 s iova length).dev
        iova length).dev.dirty.region.host_ack =
      (pds_vfio_dirty_sync cfg env1 s iova length).dev.dirty.region.host_ack := by
  have hl : u32 len < 2 ^ 32 := Nat.mod_lt _ (by norm_num)
  cases hen : s.dirty.is_enabled with
  | false =>
    rw [sync_disabled cfg env1 s iova length hen] at h1
    have hne : (- EINVAL : Int) ≠ 0 := by decide
    exact absurd h1 hne
  | true =>
    cases hr1 : seq_ack_issued cfg env1.read (u32 off) (u32 len) with
    | false =>
      obtain ⟨e, he, heq⟩ := sync_read_not_issued cfg env1 s iova length off len hen hw hr1
      rw [heq] at h1
      exact absurd h1 he
    | true =>
      by_cases hc1 : env1.read.cmd_err = 0
      · cases hw1 : seq_ack_issued cfg env1.write (u32 off) (u32 len) with
        | false =>
          obtain ⟨e, he, heq⟩ :=
            sync_write_not_issued cfg env1 s iova length off len hen hw hr1 hc1 hw1
          rw [heq] at h1
          exact absurd h1 he
        | true =>
          have heq := sync_write_issued cfg env1 s iova length off len hen hw hr1 hc1 hw1
          rw [heq]
          simp only
          obtain ⟨hp1, hp2⟩ := resync_process env1.read env1.write env2.read s.dirty.region
            (u32 off) (u32 len) hl hdev
          have hfr := process_bitmaps_frame
            (region_after_read env1.read s.dirty.region (u32 off) (u32 len)) (u32 off) (u32 len)
          generalize hS1 : region_after_write env1.write (pds_vfio_dirty_process_bitmaps
            (region_after_read env1.read s.dirty.region (u32 off) (u32 len))
            (u32 off) (u32 len)).2.1 = S1 at hp1 hp2 ⊢
          have hen2 : (with_region s S1).dirty.is_enabled = true := hen
          have hw2 : pds_vfio_dirty_sync_window (with_region s S1).dirty.region iova length =
              Except.ok (off, len) := by
            rw [← hw]
            apply sync_window_congr
            · rw [← hS1]; exact hfr.2.1
            · rw [← hS1]; exact hfr.2.2.1
            · rw [← hS1]; exact hfr.2.2.2.1
            · rw [← hS1]; exact hfr.2.2.2.2.1
          cases hr2 : seq_ack_issued cfg env2.read (u32 off) (u32 len) with
          | false =>
            obtain ⟨e, he, heq2⟩ :=
              sync_read_not_issued cfg env2 (with_region s S1) iova length off len hen2 hw2 hr2
            rw [heq2]
            exact ⟨fun addr l h => by simp at h, rfl⟩
          | true =>
            by_cases hc2 : env2.read.cmd_err = 0
            · have hS : (with_region s S1).dirty.region = S1 := rfl
              cases hw3 : seq_ack_issued cfg env2.write (u32 off) (u32 len) with
              | false =>
                obtain ⟨e, he, heq2⟩ := sync_write_not_issued cfg env2 (with_region s S1)
                  iova length off len hen2 hw2 hr2 hc2 hw3
                rw [heq2, hS, hp1]
                exact ⟨fun addr l h => by simp at h, hp2⟩
              | true =>
                have heq2 := sync_write_issued cfg env2 (with_region s S1)
                  iova length off len hen2 hw2 hr2 hc2 hw3
                rw [heq2, hS, hp1]
                exact ⟨fun addr l h => by simp at h, hp2⟩
            · have heq2 := sync_read_failed cfg env2 (with_region s S1)
                iova length off len hen2 hw2 hr2 hc2
              rw [heq2]
              exact ⟨fun addr l h => by simp at h, rfl⟩
      · have heq := sync_read_failed cfg env1 s iova length off len hen hw hr1 hc1
        rw [heq] at h1
        exact absurd h1 hc1

/-! ## Sync over the full region -/

theorem bool_xor_iff_ne (a b : Bool) : (a ^^ b) = true ↔ a ≠ b := by
  cases a <;> cases b <;> simp

theorem merger_calls_eq_pages (f : Nat → Nat → Nat) (ps : Nat) (seq ack : Mem) :
    ∀ n, merger_calls f ps seq ack 0 n =
      (List.range (64 * n)).filterMap (fun p =>
        if page_bit seq p ≠ page_bit ack p then
          some (Event.iova_bitmap_set (f (p / 64) (p % 64)) ps)
        else none)
  | 0 => rfl
  | n + 1 => by
    have ih := merger_calls_eq_pages f ps seq ack n
    have e : 64 * (n + 1) = 64 * n + 64 := by omega
    rw [e, List.range_add, List.filterMap_append, List.filterMap_map]
    simp only [merger_calls, ih]
    congr 1
    unfold merger_word_calls
    apply filterMap_congr_mem
    intro b hb
    have hb64 : b < 64 := List.mem_range.mp hb
    have e1 : (64 * n + b) / 64 = n := by omega
    have e2 : (64 * n + b) % 64 = b := by omega
    simp only [Function.comp, page_bit, e1, e2, Nat.zero_add, Nat.testBit_xor]
    by_cases hx : ((le64_to_cpu_at seq (8 * n)).testBit b ^^
        (le64_to_cpu_at ack (8 * n)).testBit b) = true
    · have hne := (bool_xor_iff_ne _ _).mp hx
      rw [if_pos hx, if_pos hne]
    · have hne : ¬ ((le64_to_cpu_at seq (8 * n)).testBit b ≠
          (le64_to_cpu_at ack (8 * n)).testBit b) :=
        fun h => hx ((bool_xor_iff_ne _ _).mpr h)
      rw [if_neg hx, if_neg hne]

theorem sub64_self {a : Nat} (h : a < 2 ^ 64) : sub64 a a = 0 := by
  unfold sub64 u64
  rw [Nat.mod_eq_of_lt h]
  have : a + (2 ^ 64 - a) = 2 ^ 64 := by omega
  rw [this, Nat.mod_self]

theorem full_region_window (region : pds_vfio_region) (N : Nat)
    (hps : 0 < region.page_size) (hsz : 0 < region.size)
    (hN : N = (region.size + region.page_size - 1) / region.page_size)
    (hov : region.size + region.page_size + 64 ≤ 2 ^ 64)
    (hfit : region.start + region.size ≤ 2 ^ 64)
    (hbmp : region.bmp_bytes = N / 8) (h64 : N % 64 = 0) :
    pds_vfio_dirty_sync_window region region.start region.size = Except.ok (0, N / 8) := by
  have hNpos : 0 < N := by
    rw [hN]
    exact Nat.div_pos (by omega) hps
  have hcase : region.size % region.page_size = 0 ∨
      (region.size / region.page_size) % 64 ≠ 0 := by
    rcases Nat.eq_zero_or_pos (region.size % region.page_size) with h0 | h0
    · exact Or.inl h0
    · right
      have := (ceil_div_cases region.size region.page_size hps).2 (by omega)
      rw [← hN] at this
      omega
  have hagree := sync_sizes_agree_of_case region.page_size region.size hps hsz hov hcase
  have hsize : sync_bitmap_size region.page_size region.size = N / 8 := by
    rw [sync_bitmap_size_eq hps hsz hov, ← hN]
    omega
  have hsub : sub64 region.start region.start = 0 := sub64_self (by omega)
  have hoff : DIV_ROUND_UP (0 / region.page_size) 8 = 0 := by
    rw [Nat.zero_div]
    decide
  unfold pds_vfio_dirty_sync_window
  simp only [hsub, Nat.zero_add, ← hagree, hsize, hbmp, hoff]
  have h1 : ¬ (region.size = 0 ∨ u64 region.size > region.size) := by
    rw [u64_of_lt (by omega)]
    omega
  simp [h1]

theorem full_region_sync (cfg : Cfg) (env : SyncEnv) (s : pds_vfio_pci_device) (N : Nat)
    (seq ack : Mem)
    (hen : s.dirty.is_enabled = true)
    (hseq : s.dirty.region.host_seq = some seq) (hack : s.dirty.region.host_ack = some ack)
    (hps : 0 < s.dirty.region.page_size) (hsz : 0 < s.dirty.region.size)
    (hN : N = (s.dirty.region.size + s.dirty.region.page_size - 1) / s.dirty.region.page_size)
    (hov : s.dirty.region.size + s.dirty.region.page_size + 64 ≤ 2 ^ 64)
    (hfit : s.dirty.region.start + s.dirty.region.size ≤ 2 ^ 64)
    (hbmp : s.dirty.region.bmp_bytes = N / 8) (h64 : N % 64 = 0) (h32 : N < 2 ^ 32)
    (hr : seq_ack_issued cfg env.read 0 (N / 8) = true) (hrc : env.read.cmd_err = 0)
    (hwi : seq_ack_issued cfg env.write 0 (N / 8) = true) (hwc : env.write.cmd_err = 0) :
    (pds_vfio_dirty_sync cfg env s s.dirty.region.start s.dirty.region.size).err = 0 ∧
    (pds_vfio_dirty_sync cfg env s s.dirty.region.start s.dirty.region.size).trace =
      [Event.dirty_seq_ack_cmd (u16 (u32 env.read.sg.length)) 0 (N / 8) true] ++
      full_region_calls s.dirty.region (dma_fill env.read 0 (N / 8) seq) ack N ++
      [Event.dirty_seq_ack_cmd (u16 (u32 env.write.sg.length)) 0 (N / 8) false] ∧
    (pds_vfio_dirty_sync cfg env s s.dirty.region.start
        s.dirty.region.size).dev.dirty.region.host_seq =
      some (dma_fill env.read 0 (N / 8) seq) ∧
    (∃ ack2, (pds_vfio_dirty_sync cfg env s s.dirty.region.start
        s.dirty.region.size).dev.dirty.region.host_ack = some ack2 ∧
      (∀ a, a < N / 8 → ack2 a = dma_fill env.read 0 (N / 8) seq a) ∧
      (∀ a, N / 8 ≤ a → ack2 a = ack a)) := by
  have hw := full_region_window s.dirty.region N hps hsz hN hov hfit hbmp h64
  have e0 : u32 0 = 0 := rfl
  have e8 : u32 (N / 8) = N / 8 := u32_of_lt (by omega)
  have hr2 : seq_ack_issued cfg env.read (u32 0) (u32 (N / 8)) = true := by rw [e0, e8]; exact hr
  have hw2 : seq_ack_issued cfg env.write (u32 0) (u32 (N / 8)) = true := by
    rw [e0, e8]; exact hwi
  rw [sync_write_issued cfg env s _ _ 0 (N / 8) hen hw hr2 hrc hw2, e0, e8]
  have hs1 : (region_after_read env.read s.dirty.region 0 (N / 8)).host_seq =
      some (dma_fill env.read 0 (N / 8) seq) := by simp [region_after_read, hseq]
  have ha1 : (region_after_read env.read s.dirty.region 0 (N / 8)).host_ack = some ack := by
    simp [region_after_read, hack]
  rw [process_bitmaps_eq _ _ _ 0 (N / 8) hs1 ha1 (by omega)]
  have hN64 : N / 8 / 8 = N / 64 := by omega
  have hN64b : 64 * (N / 64) = N := by omega
  refine ⟨hwc, ?_, hs1, ⟨_, rfl, ?_, ?_⟩⟩
  · simp only
    congr 2
    rw [hN64, merger_calls_eq_pages, hN64b]
    unfold full_region_calls
    apply filterMap_congr_mem
    intro p hp
    have hpN : p < N := List.mem_range.mp hp
    have haddr : code_addr (region_after_read env.read s.dirty.region 0 (N / 8)) 0
        (p / 64) (p % 64) = s.dirty.region.start + p * s.dirty.region.page_size := by
      unfold code_addr
      have e1 : 0 * 8 % 2 ^ 32 + p / 64 * 64 + p % 64 = p := by omega
      rw [e1]
      show (s.dirty.region.start + p * s.dirty.region.page_size) % 2 ^ 64 = _
      apply Nat.mod_eq_of_lt
      have h1 : N * s.dirty.region.page_size ≤
          s.dirty.region.size + s.dirty.region.page_size - 1 := by
        rw [hN]
        exact Nat.div_mul_le_self _ _
      have h2 : (p + 1) * s.dirty.region.page_size ≤ N * s.dirty.region.page_size :=
        Nat.mul_le_mul_right _ (by omega)
      rw [Nat.add_mul, Nat.one_mul] at h2
      omega
    rw [haddr]
    rfl
  · intro a ha
    have : 0 ≤ a ∧ a < 0 + 8 * (N / 8 / 8) := by omega
    simp only [this, and_self, if_true]
  · intro a ha
    have : ¬ (0 ≤ a ∧ a < 0 + 8 * (N / 8 / 8)) := by omega
    simp only [this, if_false]

/-- C1 (as amended): on a region of N pages, N = ceil(size / page_size), whose
bitmaps were sized from the device-confirmed page count N (bmp_bytes = N / 8),
with N a multiple of 64, N < 2^32, the region inside the 64-bit address space
and no wrap-around in the size computation, pds_vfio_dirty_sync over the full
region with both round trips succeeding returns 0, calls
set(region.start + p * page_size, page_size) exactly once, in increasing order,
for each page p < N whose bit in the device-filled sequence bitmap differs
from its acknowledge bit and makes no other sink call, and leaves the
acknowledge bitmap equal to the sequence bitmap on all N / 8 bytes. -/
theorem C1_sync_full_region_accounting (cfg : Cfg) (env : SyncEnv) (s : pds_vfio_pci_device)
    (N : Nat) (seq ack : Mem)
    (hen : s.dirty.is_enabled = true)
    (hseq : s.dirty.region.host_seq = some seq) (hack : s.dirty.region.host_ack = some ack)
    (hps : 0 < s.dirty.region.page_size) (hsz : 0 < s.dirty.region.size)
    (hN : N = (s.dirty.region.size + s.dirty.region.page_size - 1) / s.dirty.region.page_size)
    (hov : s.dirty.region.size + s.dirty.region.page_size + 64 ≤ 2 ^ 64)
    (hfit : s.dirty.region.start + s.dirty.region.size ≤ 2 ^ 64)
    (hbmp : s.dirty.region.bmp_bytes = N / 8) (h64 : N % 64 = 0) (h32 : N < 2 ^ 32)
    (hr : seq_ack_issued cfg env.read 0 (N / 8) = true) (hrc : env.read.cmd_err = 0)
    (hwi : seq_ack_issued cfg env.write 0 (N / 8) = true) (hwc : env.write.cmd_err = 0) :
    (pds_vfio_dirty_sync cfg env s s.dirty.region.start s.dirty.region.size).err = 0 ∧
    (pds_vfio_dirty_sync cfg env s s.dirty.region.start s.dirty.region.size).trace =
      [Event.dirty_seq_ack_cmd (u16 (u32 env.read.sg.length)) 0 (N / 8) true] ++
      full_region_calls s.dirty.region (dma_fill env.read 0 (N / 8) seq) ack N ++
      [Event.dirty_seq_ack_cmd (u16 (u32 env.write.sg.length)) 0 (N / 8) false] ∧
    (pds_vfio_dirty_sync cfg env s s.dirty.region.start
        s.dirty.region.size).dev.dirty.region.host_seq =
      some (dma_fill env.read 0 (N / 8) seq) ∧
    (∃ ack2, (pds_vfio_dirty_sync cfg env s s.dirty.region.start
        s.dirty.region.size).dev.dirty.region.host_ack = some ack2 ∧
      (∀ a, a < N / 8 → ack2 a = dma_fill env.read 0 (N / 8) seq a) ∧
      (∀ a, N / 8 ≤ a → ack2 a = ack a)) :=
  full_region_sync cfg env s N seq ack hen hseq hack hps hsz hN hov hfit hbmp h64 h32
    hr hrc hwi hwc

/-- Witness for C1 (as amended): the 64-page region of devEnabled64, the state
reached by a successful enable with the device confirming 64 pages. -/
theorem C1_sync_full_region_accounting_witness :
    (pds_vfio_dirty_sync cfg4k okSync devEnabled64 0x100000 (64 * 4096)).err = 0 ∧
    (pds_vfio_dirty_sync cfg4k okSync devEnabled64 0x100000 (64 * 4096)).trace =
      [Event.dirty_seq_ack_cmd (u16 (u32 okSync.read.sg.length)) 0 (64 / 8) true] ++
      full_region_calls devEnabled64.dirty.region
        (dma_fill okSync.read 0 (64 / 8) zeroed) zeroed 64 ++
      [Event.dirty_seq_ack_cmd (u16 (u32 okSync.write.sg.length)) 0 (64 / 8) false] :=
  ⟨(C1_sync_full_region_accounting cfg4k okSync devEnabled64 64 zeroed zeroed rfl rfl rfl
      (by decide) (by decide) (by decide) (by decide) (by decide) (by decide) (by decide)
      (by decide) (by decide) rfl (by decide) rfl).1,
   (C1_sync_full_region_accounting cfg4k okSync devEnabled64 64 zeroed zeroed rfl rfl rfl
      (by decide) (by decide) (by decide) (by decide) (by decide) (by decide) (by decide)
      (by decide) (by decide) rfl (by decide) rfl).2.1⟩

/-- Counterexample to C1 as stated: a region of 10 * 4096 + 1 bytes (11 pages of
4096 bytes) is enabled with the device confirming page_count = 11; the bitmaps
get 11 / 8 = 1 byte, and pds_vfio_dirty_sync over the full region, with
round trips that would succeed, returns -EINVAL without any device command
because the 8-byte window exceeds bmp_bytes. -/
theorem C1_sync_full_region_counterexample :
    (pds_vfio_dirty_enable cfg4k (enableOk 11) devOff
      [{ start := 0x100000, last := 0x100000 + 10 * 4096 }] 1 4096).err = 0 ∧
    (pds_vfio_dirty_enable cfg4k (enableOk 11) devOff
      [{ start := 0x100000, last := 0x100000 + 10 * 4096 }] 1 4096).dev.dirty.region.size =
      10 * 4096 + 1 ∧
    (10 * 4096 + 1 + 4096 - 1) / 4096 = 11 ∧
    (pds_vfio_dirty_enable cfg4k (enableOk 11) devOff
      [{ start := 0x100000, last := 0x100000 + 10 * 4096 }] 1 4096).dev.dirty.region.bmp_bytes =
      1 ∧
    (pds_vfio_dirty_sync cfg4k okSync
      (pds_vfio_dirty_enable cfg4k (enableOk 11) devOff
        [{ start := 0x100000, last := 0x100000 + 10 * 4096 }] 1 4096).dev
      0x100000 (10 * 4096 + 1)).err = - EINVAL ∧
    (pds_vfio_dirty_sync cfg4k okSync
      (pds_vfio_dirty_enable cfg4k (enableOk 11) devOff
        [{ start := 0x100000, last := 0x100000 + 10 * 4096 }] 1 4096).dev
      0x100000 (10 * 4096 + 1)).trace = [] := by
  decide

/-- Witness for C5 on the enabled device dev64. -/
theorem C5_enable_rejects_double_start_witness :
    dev64.dirty.is_enabled = true ∧
    (pds_vfio_dirty_enable cfg4k (enableOk 64) dev64
      [{ start := 0, last := 4095 }] 1 4096).err = - EINVAL ∧
    (pds_vfio_dirty_enable cfg4k (enableOk 64) dev64
      [{ start := 0, last := 4095 }] 1 4096).trace = [] ∧
    (pds_vfio_dirty_enable cfg4k (enableOk 64) dev64
      [{ start := 0, last := 4095 }] 1 4096).dev = dev64 :=
  ⟨rfl, C5_enable_rejects_double_start cfg4k (enableOk 64) dev64
    [{ start := 0, last := 4095 }] 1 4096 rfl⟩

/-- Witness for C6 on the disabled device devOff. -/
theorem C6_disable_idempotent_witness :
    devOff.dirty.is_enabled = false ∧
    (pds_vfio_dirty_disable devOff true).dev = devOff ∧
    Event.dirty_disable_cmd ∉ (pds_vfio_dirty_disable devOff true).trace :=
  ⟨rfl, (C6_disable_idempotent devOff true true).1 rfl⟩

/-- Witness for C7: two syncs of the full region of dev64
with the same device answers. -/
theorem C7_resync_reports_nothing_witness :
    (∀ addr l, Event.iova_bitmap_set addr l ∉
      (pds_vfio_dirty_sync cfg4k okSync
        (pds_vfio_dirty_sync cfg4k okSync dev64 0x100000 (64 * 4096)).dev
        0x100000 (64 * 4096)).trace) ∧
    (pds_vfio_dirty_sync cfg4k okSync
        (pds_vfio_dirty_sync cfg4k okSync dev64 0x100000 (64 * 4096)).dev
        0x100000 (64 * 4096)).dev.dirty.region.host_ack =
      (pds_vfio_dirty_sync cfg4k okSync dev64 0x100000 (64 * 4096)).dev.dirty.region.host_ack :=
  C7_resync_reports_nothing cfg4k okSync okSync dev64 0x100000 (64 * 4096) 0 8 rfl (by decide)
    (fun _ _ _ => rfl)

/-! ## The region descriptor of pds_vfio_dirty_enable -/

theorem sub64_of_le {a b : Nat} (hab : b ≤ a) (ha : a < 2 ^ 64) : sub64 a b = a - b := by
  unfold sub64 u64
  rw [Nat.mod_eq_of_lt (by omega : b < 2 ^ 64)]
  have e : a + (2 ^ 64 - b) = (a - b) + 2 ^ 64 := by omega
  rw [e, Nat.add_mod_right, Nat.mod_eq_of_lt (by omega)]

theorem tracked_ranges_eq (env : EnableEnv) (ranges : List interval_tree_node) (nnodes : Nat) :
    (if decide (u32 nnodes > 1) = true then env.combine ranges nnodes 1 else ranges) =
      tracked_ranges env ranges nnodes := by
  unfold tracked_ranges
  by_cases hc : u32 nnodes > 1 <;> simp [hc]

theorem enable_after_cmd (cfg : Cfg) (env : EnableEnv) (s : pds_vfio_pci_device)
    (ranges : List interval_tree_node) (nnodes page_size : Nat) (node : interval_tree_node)
    (hdis : s.dirty.is_enabled = false)
    (hst : 0 ≤ env.status_err) (hnum : u8 env.num_regions = 0) (hmax : u8 env.max_regions ≠ 0)
    (hnode : interval_tree_iter_first (tracked_ranges env ranges nnodes) = some node)
    (halloc : env.region_info_ok = true) (hdma : env.regions_dma_ok = true)
    (hcmd : env.enable_err = 0) :
    (pds_vfio_dirty_enable cfg env s ranges nnodes page_size).err =
      (enable_tail cfg env s node page_size).1 ∧
    (pds_vfio_dirty_enable cfg env s ranges nnodes page_size).dev =
      (enable_tail cfg env s node page_size).2 := by
  rcases s with ⟨⟨region, en⟩⟩
  simp only at hdis
  subst hdis
  have hst2 : ¬ env.status_err < 0 := by omega
  unfold pds_vfio_dirty_enable enable_tail
  simp only [pds_vfio_dirty_is_enabled, hst2, hnum, hmax, halloc, hdma, hcmd,
    tracked_ranges_eq, hnode]
  unfold pds_vfio_dirty_alloc_bitmaps pds_vfio_dirty_alloc_sgl
  have hE1 : ENOMEM ≠ 0 := by decide
  have hE2 : EIO ≠ 0 := by decide
  cases h1 : env.seq_alloc_ok
  · simp [hE1]
  · cases h2 : env.ack_alloc_ok
    · simp [hE1]
    · cases h3 : env.sgl_alloc_ok
      · simp [hE1, pds_vfio_dirty_free_bitmaps]
      · cases h4 : env.sgl_dma_ok
        · simp [hE2, pds_vfio_dirty_free_bitmaps]
        · simp [enable_success_state, pds_vfio_dirty_set_enabled]

theorem enable_stops_early (cfg : Cfg) (env : EnableEnv) (s : pds_vfio_pci_device)
    (ranges : List interval_tree_node) (nnodes page_size : Nat)
    (h : s.dirty.is_enabled = true ∨ env.status_err < 0 ∨ u8 env.num_regions ≠ 0 ∨
      u8 env.max_regions = 0 ∨
      interval_tree_iter_first (tracked_ranges env ranges nnodes) = none ∨
      env.region_info_ok = false ∨ env.regions_dma_ok = false ∨ env.enable_err ≠ 0) :
    (pds_vfio_dirty_enable cfg env s ranges nnodes page_size).err ≠ 0 ∧
    (pds_vfio_dirty_enable cfg env s ranges nnodes page_size).dev = s := by
  have hE1 : ENOMEM ≠ 0 := by decide
  have hE2 : EINVAL ≠ 0 := by decide
  have hE3 : EEXIST ≠ 0 := by decide
  have hE4 : EOPNOTSUPP ≠ 0 := by decide
  unfold pds_vfio_dirty_enable
  simp only [pds_vfio_dirty_is_enabled, tracked_ranges_eq]
  by_cases h0 : s.dirty.is_enabled = true
  · simp [h0, hE2]
  · by_cases h1 : env.status_err < 0
    · have : env.status_err ≠ 0 := by omega
      simp [h0, h1, this]
    · by_cases h2 : u8 env.num_regions = 0
      · by_cases h3 : u8 env.max_regions = 0
        · simp [h0, h1, h2, h3, hE4]
        · cases h4 : interval_tree_iter_first (tracked_ranges env ranges nnodes) with
          | none => simp [h0, h1, h2, h3, hE2]
          | some node =>
            cases h5 : env.region_info_ok
            · simp [h0, h1, h2, h3, hE1]
            · cases h6 : env.regions_dma_ok
              · simp [h0, h1, h2, h3, hE1]
              · by_cases h7 : env.enable_err = 0
                · exfalso
                  rcases h with h | h | h | h | h | h | h | h
                  · exact h0 h
                  · exact h1 h
                  · exact h h2
                  · exact h3 h
                  · rw [h4] at h
                    exact Option.noConfusion h
                  · rw [h5] at h
                    exact Bool.noConfusion h
                  · rw [h6] at h
                    exact Bool.noConfusion h
                  · exact h h7
                · simp [h0, h1, h2, h3, h7]
      · simp [h0, h1, h2, hE3]

theorem enable_tail_cases (cfg : Cfg) (env : EnableEnv) (s : pds_vfio_pci_device)
    (node : interval_tree_node) (page_size : Nat) :
    ((enable_tail cfg env s node page_size).1 ≠ 0 ∧
      (enable_tail cfg env s node page_size).2 = s) ∨
    ((enable_tail cfg env s node page_size).1 ≠ 0 ∧
      (enable_tail cfg env s node page_size).2 =
        { dirty := pds_vfio_dirty_free_bitmaps s.dirty }) ∨
    ((enable_tail cfg env s node page_size).1 = 0 ∧
      (enable_tail cfg env s node page_size).2 = enable_success_state cfg env node page_size ∧
      env.seq_alloc_ok = true ∧ env.ack_alloc_ok = true ∧
      env.sgl_alloc_ok = true ∧ env.sgl_dma_ok = true) := by
  have hE1 : ENOMEM ≠ 0 := by decide
  have hE2 : EIO ≠ 0 := by decide
  unfold enable_tail
  cases h1 : env.seq_alloc_ok
  · simp [hE1]
  · cases h2 : env.ack_alloc_ok
    · simp [hE1]
    · cases h3 : env.sgl_alloc_ok
      · simp [hE1]
      · cases h4 : env.sgl_dma_ok
        · simp [hE2]
        · simp

theorem enable_cases (cfg : Cfg) (env : EnableEnv) (s : pds_vfio_pci_device)
    (ranges : List interval_tree_node) (nnodes page_size : Nat) :
    ((pds_vfio_dirty_enable cfg env s ranges nnodes page_size).err ≠ 0 ∧
      (pds_vfio_dirty_enable cfg env s ranges nnodes page_size).dev = s) ∨
    (s.dirty.is_enabled = false ∧
      (pds_vfio_dirty_enable cfg env s ranges nnodes page_size).err ≠ 0 ∧
      (pds_vfio_dirty_enable cfg env s ranges nnodes page_size).dev =
        { dirty := pds_vfio_dirty_free_bitmaps s.dirty }) ∨
    (s.dirty.is_enabled = false ∧
      (pds_vfio_dirty_enable cfg env s ranges nnodes page_size).err = 0 ∧
      ∃ node, interval_tree_iter_first (tracked_ranges env ranges nnodes) = some node ∧
        (pds_vfio_dirty_enable cfg env s ranges nnodes page_size).dev =
          enable_success_state cfg env node page_size ∧
        0 ≤ env.status_err ∧ u8 env.num_regions = 0 ∧ u8 env.max_regions ≠ 0 ∧
        env.region_info_ok = true ∧ env.regions_dma_ok = true ∧ env.enable_err = 0 ∧
        env.seq_alloc_ok = true ∧ env.ack_alloc_ok = true ∧
        env.sgl_alloc_ok = true ∧ env.sgl_dma_ok = true) := by
  by_cases h : s.dirty.is_enabled = true ∨ env.status_err < 0 ∨ u8 env.num_regions ≠ 0 ∨
      u8 env.max_regions = 0 ∨
      interval_tree_iter_first (tracked_ranges env ranges nnodes) = none ∨
      env.region_info_ok = false ∨ env.regions_dma_ok = false ∨ env.enable_err ≠ 0
  · exact Or.inl (enable_stops_early cfg env s ranges nnodes page_size h)
  · simp only [not_or, not_not, not_lt, Bool.not_eq_true, Bool.not_eq_false] at h
    obtain ⟨h0, h1, h2, h3, h4, h5, h6, h7⟩ := h
    cases hn : interval_tree_iter_first (tracked_ranges env ranges nnodes) with
    | none => exact absurd hn h4
    | some node =>
      obtain ⟨e1, e2⟩ := enable_after_cmd cfg env s ranges nnodes page_size node h0 h1 h2 h3 hn
        h5 h6 h7
      rw [e1, e2]
      rcases enable_tail_cases cfg env s node page_size with c | c | c
      · exact Or.inl c
      · exact Or.inr (Or.inl ⟨h0, c⟩)
      · exact Or.inr (Or.inr ⟨h0, c.1, node, rfl, c.2.1, h1, h2, h3, h5, h6, h7, c.2.2⟩)

/-! ## Frame of pds_vfio_dirty_sync -/

theorem sync_window_error (cfg : Cfg) (env : SyncEnv) (s : pds_vfio_pci_device)
    (iova length : Nat) (e : Int) (hen : s.dirty.is_enabled = true)
    (hw : pds_vfio_dirty_sync_window s.dirty.region iova length = Except.error e) :
    pds_vfio_dirty_sync cfg env s iova length = ⟨e, s, []⟩ := by
  unfold pds_vfio_dirty_sync
  simp [pds_vfio_dirty_is_enabled, hen, hw]

theorem sync_dev_cases (cfg : Cfg) (env : SyncEnv) (s : pds_vfio_pci_device)
    (iova length : Nat) :
    (pds_vfio_dirty_sync cfg env s iova length).dev = s ∨
    ∃ off len, s.dirty.is_enabled = true ∧
      pds_vfio_dirty_sync_window s.dirty.region iova length = Except.ok (off, len) ∧
      ((pds_vfio_dirty_sync cfg env s iova length).dev =
          with_region s (region_after_read env.read s.dirty.region (u32 off) (u32 len)) ∨
       (pds_vfio_dirty_sync cfg env s iova length).dev =
          with_region s (pds_vfio_dirty_process_bitmaps
            (region_after_read env.read s.dirty.region (u32 off) (u32 len))
            (u32 off) (u32 len)).2.1 ∨
       (pds_vfio_dirty_sync cfg env s iova length).dev =
          with_region s (region_after_write env.write (pds_vfio_dirty_process_bitmaps
            (region_after_read env.read s.dirty.region (u32 off) (u32 len))
            (u32 off) (u32 len)).2.1)) := by
  cases hen : s.dirty.is_enabled with
  | false =>
    rw [sync_disabled cfg env s iova length hen]
    exact Or.inl rfl
  | true =>
    cases hw : pds_vfio_dirty_sync_window s.dirty.region iova length with
    | error e =>
      rw [sync_window_error cfg env s iova length e hen hw]
      exact Or.inl rfl
    | ok w =>
      obtain ⟨off, len⟩ := w
      cases hr : seq_ack_issued cfg env.read (u32 off) (u32 len) with
      | false =>
        obtain ⟨e, _, heq⟩ := sync_read_not_issued cfg env s iova length off len hen hw hr
        rw [heq]
        exact Or.inl rfl
      | true =>
        refine Or.inr ⟨off, len, rfl, rfl, ?_⟩
        by_cases hc : env.read.cmd_err = 0
        · cases hwi : seq_ack_issued cfg env.write (u32 off) (u32 len) with
          | false =>
            obtain ⟨e, _, heq⟩ :=
              sync_write_not_issued cfg env s iova length off len hen hw hr hc hwi
            rw [heq]
            exact Or.inr (Or.inl rfl)
          | true =>
            rw [sync_write_issued cfg env s iova length off len hen hw hr hc hwi]
            exact Or.inr (Or.inr rfl)
        · rw [sync_read_failed cfg env s iova length off len hen hw hr hc]
          exact Or.inl rfl

theorem process_bitmaps_keeps (region : pds_vfio_region) (bmp_offset len_bytes : Nat) :
    (pds_vfio_dirty_process_bitmaps region bmp_offset len_bytes).2.1.host_ack.isSome =
      region.host_ack.isSome ∧
    (pds_vfio_dirty_process_bitmaps region bmp_offset len_bytes).2.1.sgl = region.sgl := by
  unfold pds_vfio_dirty_process_bitmaps
  split
  · rename_i seq ack hs ha
    simp [ha]
  · exact ⟨rfl, rfl⟩

theorem sync_frame (cfg : Cfg) (env : SyncEnv) (s : pds_vfio_pci_device) (iova length : Nat) :
    (pds_vfio_dirty_sync cfg env s iova length).dev.dirty.is_enabled = s.dirty.is_enabled ∧
    (pds_vfio_dirty_sync cfg env s iova length).dev.dirty.region.start = s.dirty.region.start ∧
    (pds_vfio_dirty_sync cfg env s iova length).dev.dirty.region.size = s.dirty.region.size ∧
    (pds_vfio_dirty_sync cfg env s iova length).dev.dirty.region.page_size =
      s.dirty.region.page_size ∧
    (pds_vfio_dirty_sync cfg env s iova length).dev.dirty.region.bmp_bytes =
      s.dirty.region.bmp_bytes ∧
    (pds_vfio_dirty_sync cfg env s iova length).dev.dirty.region.num_sge =
      s.dirty.region.num_sge := by
  rcases sync_dev_cases cfg env s iova length with h | ⟨off, len, _, _, h | h | h⟩
  · rw [h]
    exact ⟨rfl, rfl, rfl, rfl, rfl, rfl⟩
  · rw [h]
    exact ⟨rfl, rfl, rfl, rfl, rfl, rfl⟩
  · rw [h]
    have hf := process_bitmaps_frame
      (region_after_read env.read s.dirty.region (u32 off) (u32 len)) (u32 off) (u32 len)
    exact ⟨rfl, hf.2.2.1, hf.2.2.2.1, hf.2.1, hf.2.2.2.2.1, hf.2.2.2.2.2⟩
  · rw [h]
    have hf := process_bitmaps_frame
      (region_after_read env.read s.dirty.region (u32 off) (u32 len)) (u32 off) (u32 len)
    exact ⟨rfl, hf.2.2.1, hf.2.2.2.1, hf.2.1, hf.2.2.2.2.1, hf.2.2.2.2.2⟩

theorem sync_keeps_alloc (cfg : Cfg) (env : SyncEnv) (s : pds_vfio_pci_device)
    (iova length : Nat) :
    (pds_vfio_dirty_sync cfg env s iova length).dev.dirty.region.host_seq.isSome =
      s.dirty.region.host_seq.isSome ∧
    (pds_vfio_dirty_sync cfg env s iova length).dev.dirty.region.host_ack.isSome =
      s.dirty.region.host_ack.isSome ∧
    (pds_vfio_dirty_sync cfg env s iova length).dev.dirty.region.sgl.isSome =
      s.dirty.region.sgl.isSome := by
  rcases sync_dev_cases cfg env s iova length with h | ⟨off, len, _, _, h | h | h⟩
  · rw [h]
    exact ⟨rfl, rfl, rfl⟩
  · rw [h]
    simp [with_region, region_after_read]
  · rw [h]
    have hf := process_bitmaps_frame
      (region_after_read env.read s.dirty.region (u32 off) (u32 len)) (u32 off) (u32 len)
    have hk := process_bitmaps_keeps
      (region_after_read env.read s.dirty.region (u32 off) (u32 len)) (u32 off) (u32 len)
    simp only [with_region]
    rw [hf.1, hk.1, hk.2]
    simp [region_after_read]
  · rw [h]
    have hf := process_bitmaps_frame
      (region_after_read env.read s.dirty.region (u32 off) (u32 len)) (u32 off) (u32 len)
    have hk := process_bitmaps_keeps
      (region_after_read env.read s.dirty.region (u32 off) (u32 len)) (u32 off) (u32 len)
    simp only [with_region, region_after_write]
    rw [hf.1, hk.1, hk.2]
    simp [region_after_read]

/-! ## Return value of pds_vfio_dirty_sync -/

theorem seq_ack_fst (cfg : Cfg) (env : SeqAckEnv) (region : pds_vfio_region)
    (bmp : Option Mem) (offset bmp_bytes : Nat) (read_seq : Bool) :
    (pds_vfio_dirty_seq_ack cfg env region bmp offset bmp_bytes read_seq).1 =
      seq_ack_err cfg env offset bmp_bytes := by
  unfold pds_vfio_dirty_seq_ack seq_ack_err
  by_cases h1 : env.kmalloc_ok = true
  · by_cases h2 : (List.range (DIV_ROUND_UP (u32 (bmp_bytes + u32 (offset % cfg.PAGE_SIZE)))
        cfg.PAGE_SIZE)).all env.page_ok = true
    · by_cases h3 : env.sg_alloc_err = 0
      · by_cases h4 : env.dma_map_err = 0
        · simp [h1, h2, h3, h4]
        · simp [h1, h2, h3, h4]
      · simp [h1, h2, h3]
    · simp [h1, h2]
  · simp [h1]

theorem read_seq_fst (cfg : Cfg) (env : SeqAckEnv) (region : pds_vfio_region)
    (offset len : Nat) :
    (pds_vfio_dirty_read_seq cfg env region offset len).1 = seq_ack_err cfg env offset len := by
  unfold pds_vfio_dirty_read_seq
  exact seq_ack_fst cfg env region region.host_seq offset len true

theorem write_ack_fst (cfg : Cfg) (env : SeqAckEnv) (region : pds_vfio_region)
    (offset len : Nat) :
    (pds_vfio_dirty_write_ack cfg env region offset len).1 = seq_ack_err cfg env offset len := by
  unfold pds_vfio_dirty_write_ack
  exact seq_ack_fst cfg env region region.host_ack offset len false

theorem sync_err_eq (cfg : Cfg) (env : SyncEnv) (s : pds_vfio_pci_device)
    (iova length off len : Nat) (hen : s.dirty.is_enabled = true)
    (hw : pds_vfio_dirty_sync_window s.dirty.region iova length = Except.ok (off, len)) :
    (pds_vfio_dirty_sync cfg env s iova length).err =
      if seq_ack_err cfg env.read (u32 off) (u32 len) ≠ 0
      then seq_ack_err cfg env.read (u32 off) (u32 len)
      else seq_ack_err cfg env.write (u32 off) (u32 len) := by
  rcases s with ⟨⟨region, en⟩⟩
  simp only at hen hw
  subst hen
  unfold pds_vfio_dirty_sync
  simp only [pds_vfio_dirty_is_enabled, hw, read_seq_fst, write_ack_fst, process_bitmaps_fst]
  by_cases h1 : seq_ack_err cfg env.read (u32 off) (u32 len) = 0
  · by_cases h2 : seq_ack_err cfg env.write (u32 off) (u32 len) = 0
    · simp [h1, h2]
    · simp [h1, h2]
  · simp [h1]

theorem sync_window_ok (region : pds_vfio_region) (iova length off len : Nat)
    (hw : pds_vfio_dirty_sync_window region iova length = Except.ok (off, len)) :
    length ≠ 0 ∧ u64 (sub64 iova region.start + length) ≤ region.size ∧
    sync_bmp_bytes region.page_size length = sync_bitmap_size region.page_size length ∧
    len = sync_bmp_bytes region.page_size length ∧ len ≤ region.bmp_bytes ∧
    off = DIV_ROUND_UP (sub64 iova region.start / region.page_size) 8 := by
  unfold pds_vfio_dirty_sync_window at hw
  simp only at hw
  by_cases h1 : length = 0 ∨ u64 (sub64 iova region.start + length) > region.size
  · rw [if_pos h1] at hw
    exact Except.noConfusion hw
  · rw [if_neg h1] at hw
    by_cases h2 : sync_bmp_bytes region.page_size length ≠
        sync_bitmap_size region.page_size length
    · rw [if_pos h2] at hw
      exact Except.noConfusion hw
    · rw [if_neg h2] at hw
      by_cases h3 : sync_bmp_bytes region.page_size length > region.bmp_bytes
      · rw [if_pos h3] at hw
        exact Except.noConfusion hw
      · rw [if_neg h3] at hw
        have hp : (DIV_ROUND_UP (sub64 iova region.start / region.page_size) 8,
            sync_bmp_bytes region.page_size length) = (off, len) := Except.ok.inj hw
        have ho := congrArg Prod.fst hp
        have hl := congrArg Prod.snd hp
        simp only at ho hl
        refine ⟨fun h => h1 (Or.inl h), ?_, ?_, hl.symm, ?_, ho.symm⟩
        · have : ¬ u64 (sub64 iova region.start + length) > region.size :=
            fun h => h1 (Or.inr h)
          omega
        · exact not_not.mp h2
        · rw [← hl]
          omega

/-! ## Enable: bitmap length, success and failure -/

theorem enable_ok_bmp_bytes (cfg : Cfg) (env : EnableEnv) (s : pds_vfio_pci_device)
    (ranges : List interval_tree_node) (nnodes page_size : Nat)
    (herr : (pds_vfio_dirty_enable cfg env s ranges nnodes page_size).err = 0) :
    (pds_vfio_dirty_enable cfg env s ranges nnodes page_size).dev.dirty.region.bmp_bytes =
      u32 env.dev_page_count / 8 := by
  rcases enable_cases cfg env s ranges nnodes page_size with c | c | c
  · exact absurd herr c.1
  · exact absurd herr c.2.1
  · obtain ⟨_, _, node, _, hdev, _⟩ := c
    rw [hdev]
    rfl

/-- C11 (as amended): after every successful pds_vfio_dirty_enable the byte
length region.bmp_bytes of the two bitmaps is floor(page_count / 8) for the
device-confirmed 32-bit page_count; it is a multiple of 8 exactly when
page_count mod 64 is below 8, in particular when page_count is a multiple of
64. -/
theorem C11_bmp_bytes_after_enable (cfg : Cfg) (env : EnableEnv) (s : pds_vfio_pci_device)
    (ranges : List interval_tree_node) (nnodes page_size : Nat)
    (herr : (pds_vfio_dirty_enable cfg env s ranges nnodes page_size).err = 0) :
    (pds_vfio_dirty_enable cfg env s ranges nnodes page_size).dev.dirty.region.bmp_bytes =
      u32 env.dev_page_count / 8 ∧
    ((pds_vfio_dirty_enable cfg env s ranges nnodes page_size).dev.dirty.region.bmp_bytes % 8 = 0
      ↔ u32 env.dev_page_count % 64 < 8) := by
  have h := enable_ok_bmp_bytes cfg env s ranges nnodes page_size herr
  rw [h]
  refine ⟨rfl, ?_⟩
  omega

/-- Witness for C11 (as amended): enable with the device confirming 64 pages. -/
theorem C11_bmp_bytes_after_enable_witness :
    (pds_vfio_dirty_enable cfg4k (enableOk 64) devOff
      [{ start := 0x100000, last := 0x13FFFF }] 1 4096).dev.dirty.region.bmp_bytes =
      u32 (enableOk 64).dev_page_count / 8 ∧
    ((pds_vfio_dirty_enable cfg4k (enableOk 64) devOff
      [{ start := 0x100000, last := 0x13FFFF }] 1 4096).dev.dirty.region.bmp_bytes % 8 = 0
      ↔ u32 (enableOk 64).dev_page_count % 64 < 8) :=
  C11_bmp_bytes_after_enable cfg4k (enableOk 64) devOff
    [{ start := 0x100000, last := 0x13FFFF }] 1 4096 (by decide)

/-- Counterexample to C11 as stated: a region of 10 * 4096 + 1 bytes enabled
with the device confirming page_count = 11 succeeds and leaves bmp_bytes = 1,
which is not a multiple of 8. -/
theorem C11_bmp_bytes_counterexample :
    (pds_vfio_dirty_enable cfg4k (enableOk 11) devOff
      [{ start := 0x100000, last := 0x100000 + 10 * 4096 }] 1 4096).err = 0 ∧
    (pds_vfio_dirty_enable cfg4k (enableOk 11) devOff
      [{ start := 0x100000, last := 0x100000 + 10 * 4096 }] 1 4096).dev.dirty.region.bmp_bytes =
      1 ∧
    ¬ ((pds_vfio_dirty_enable cfg4k (enableOk 11) devOff
      [{ start := 0x100000, last := 0x100000 + 10 * 4096 }] 1
        4096).dev.dirty.region.bmp_bytes % 8 = 0) := by
  decide

/-- C12 (as amended): for every accepted (iova, length) the bitmap byte offset
computed by pds_vfio_dirty_sync is DIV_ROUND_UP(page_index, 8) for
page_index = (iova - region.start) / page_size, that is ceil(page_index / 8)
when iova is not below the region start and nothing wraps: a byte offset, not
rounded to a multiple of 8. It is a multiple of 8 exactly when
page_index mod 64 is 0 or at least 57. -/
theorem C12_sync_bmp_offset (region : pds_vfio_region) (iova length off len : Nat)
    (hw : pds_vfio_dirty_sync_window region iova length = Except.ok (off, len)) :
    off = DIV_ROUND_UP (sub64 iova region.start / region.page_size) 8 ∧
    (region.start ≤ iova → iova < 2 ^ 64 →
      (iova - region.start) / region.page_size + 7 < 2 ^ 64 →
      off = ((iova - region.start) / region.page_size + 7) / 8 ∧
      (off % 8 = 0 ↔ ((iova - region.start) / region.page_size) % 64 = 0 ∨
        57 ≤ ((iova - region.start) / region.page_size) % 64)) := by
  have h := (sync_window_ok region iova length off len hw).2.2.2.2.2
  refine ⟨h, fun h1 h2 h3 => ?_⟩
  rw [sub64_of_le h1 h2] at h
  generalize (iova - region.start) / region.page_size = x at h h3 ⊢
  rw [DIV_ROUND_UP_eq (by omega) (by omega)] at h
  have e : x + 8 - 1 = x + 7 := by omega
  rw [e] at h
  refine ⟨h, ?_⟩
  rw [h]
  omega

/-- Witness for C12 (as amended): the window of 64 pages at page 64 of the
region of devEnabled128 has byte offset 8. -/
theorem C12_sync_bmp_offset_witness :
    8 = DIV_ROUND_UP (sub64 (64 * 4096) devEnabled128.dirty.region.start /
      devEnabled128.dirty.region.page_size) 8 :=
  (C12_sync_bmp_offset devEnabled128.dirty.region (64 * 4096) (64 * 4096) 8 8 rfl).1

/-- Counterexample to C12 as stated: in the state devEnabled128 the accepted
window iova = 8 pages, length = 120 pages gets the byte offset 1, where the
claimed value, (8 / 8) rounded up to a multiple of 8, is 8; the window does
not start on a 64-bit word boundary. -/
theorem C12_sync_bmp_offset_counterexample :
    pds_vfio_dirty_sync_window devEnabled128.dirty.region (8 * 4096) (120 * 4096) =
      Except.ok (1, 16) ∧
    spec_bmp_offset devEnabled128.dirty.region (8 * 4096) = 8 ∧
    ¬ (1 % 8 = 0) := by
  refine ⟨rfl, by decide, by decide⟩

theorem ceil_div_le_self (n d : Nat) (hd : 0 < d) : (n + d - 1) / d ≤ n := by
  rcases Nat.eq_zero_or_pos n with h0 | h0
  · rw [h0, Nat.zero_add, Nat.div_eq_of_lt (by omega)]
  · apply Nat.div_le_of_le_mul
    have h3 : n - 1 ≤ d * (n - 1) := Nat.le_mul_of_pos_left _ hd
    have h2 : d * n = d * (n - 1) + d := by
      have e : n = (n - 1) + 1 := by omega
      rw [e, Nat.mul_add, Nat.mul_one]
      simp
    omega

theorem enable_succeeds (cfg : Cfg) (env : EnableEnv) (s : pds_vfio_pci_device)
    (ranges : List interval_tree_node) (nnodes page_size : Nat) (node : interval_tree_node)
    (hdis : s.dirty.is_enabled = false)
    (hst : 0 ≤ env.status_err) (hnum : u8 env.num_regions = 0) (hmax : u8 env.max_regions ≠ 0)
    (hnode : interval_tree_iter_first (tracked_ranges env ranges nnodes) = some node)
    (halloc : env.region_info_ok = true) (hdma : env.regions_dma_ok = true)
    (hcmd : env.enable_err = 0)
    (hseq : env.seq_alloc_ok = true) (hack : env.ack_alloc_ok = true)
    (hsgl : env.sgl_alloc_ok = true) (hsgldma : env.sgl_dma_ok = true) :
    (pds_vfio_dirty_enable cfg env s ranges nnodes page_size).err = 0 ∧
    (pds_vfio_dirty_enable cfg env s ranges nnodes page_size).dev =
      enable_success_state cfg env node page_size := by
  obtain ⟨e1, e2⟩ := enable_after_cmd cfg env s ranges nnodes page_size node hdis hst hnum hmax
    hnode halloc hdma hcmd
  rw [e1, e2]
  unfold enable_tail
  simp [hseq, hack, hsgl, hsgldma]

/-- C13 (as amended): from a disabled state, when the device reports no active
region and max_regions > 0, the enable command is submitted and accepted with
the descriptor then holding page_count = P < 2^32, and the allocations and the
mapping of the bitmaps and of the scatter list succeed, pds_vfio_dirty_enable
returns 0 with is_enabled = true, region.start, size and page_size equal to
the start of the first range, its inclusive length and the requested page
size, bmp_bytes = P / 8 from the device-returned P, both bitmaps zero, and
num_sge = ceil(P / (PAGE_SIZE * 8)) when that count fits the num_sge field. -/
theorem C13_enable_success_postcondition (cfg : Cfg) (env : EnableEnv)
    (s : pds_vfio_pci_device) (ranges : List interval_tree_node) (nnodes page_size : Nat)
    (node : interval_tree_node)
    (hdis : s.dirty.is_enabled = false)
    (hst : 0 ≤ env.status_err) (hnum : u8 env.num_regions = 0) (hmax : u8 env.max_regions ≠ 0)
    (hnode : interval_tree_iter_first (tracked_ranges env ranges nnodes) = some node)
    (halloc : env.region_info_ok = true) (hdma : env.regions_dma_ok = true)
    (hcmd : env.enable_err = 0)
    (hseq : env.seq_alloc_ok = true) (hack : env.ack_alloc_ok = true)
    (hsgl : env.sgl_alloc_ok = true) (hsgldma : env.sgl_dma_ok = true)
    (hP : env.dev_page_count < 2 ^ 32)
    (hrange : node.start ≤ node.last) (hlast : node.last < 2 ^ 64)
    (hsize : node.last - node.start + 1 < 2 ^ 64)
    (hpg : 0 < cfg.PAGE_SIZE) (hpg2 : cfg.PAGE_SIZE * 8 + 2 ^ 32 ≤ 2 ^ 64)
    (hfit : (env.dev_page_count + cfg.PAGE_SIZE * 8 - 1) / (cfg.PAGE_SIZE * 8) <
      2 ^ cfg.num_sge_bits) :
    (pds_vfio_dirty_enable cfg env s ranges nnodes page_size).err = 0 ∧
    (pds_vfio_dirty_enable cfg env s ranges nnodes page_size).dev.dirty.is_enabled = true ∧
    (pds_vfio_dirty_enable cfg env s ranges nnodes page_size).dev.dirty.region.start =
      node.start ∧
    (pds_vfio_dirty_enable cfg env s ranges nnodes page_size).dev.dirty.region.size =
      node.last - node.start + 1 ∧
    (pds_vfio_dirty_enable cfg env s ranges nnodes page_size).dev.dirty.region.page_size =
      page_size ∧
    (pds_vfio_dirty_enable cfg env s ranges nnodes page_size).dev.dirty.region.bmp_bytes =
      env.dev_page_count / 8 ∧
    (pds_vfio_dirty_enable cfg env s ranges nnodes page_size).dev.dirty.region.host_seq =
      some zeroed ∧
    (pds_vfio_dirty_enable cfg env s ranges nnodes page_size).dev.dirty.region.host_ack =
      some zeroed ∧
    (pds_vfio_dirty_enable cfg env s ranges nnodes page_size).dev.dirty.region.num_sge =
      (env.dev_page_count + cfg.PAGE_SIZE * 8 - 1) / (cfg.PAGE_SIZE * 8) := by
  obtain ⟨e1, e2⟩ := enable_succeeds cfg env s ranges nnodes page_size node hdis hst hnum hmax
    hnode halloc hdma hcmd hseq hack hsgl hsgldma
  rw [e1, e2]
  have hu : u32 env.dev_page_count = env.dev_page_count := u32_of_lt hP
  have hsz : u64 (sub64 node.last node.start + 1) = node.last - node.start + 1 := by
    rw [sub64_of_le hrange hlast, u64_of_lt hsize]
  have hd : u64 (cfg.PAGE_SIZE * 8) = cfg.PAGE_SIZE * 8 := u64_of_lt (by omega)
  have hle : (env.dev_page_count + cfg.PAGE_SIZE * 8 - 1) / (cfg.PAGE_SIZE * 8) ≤
      env.dev_page_count :=
    ceil_div_le_self env.dev_page_count (cfg.PAGE_SIZE * 8) (by omega)
  have hn : u32 (DIV_ROUND_UP (u32 env.dev_page_count) (u64 (cfg.PAGE_SIZE * 8))) %
      2 ^ cfg.num_sge_bits =
      (env.dev_page_count + cfg.PAGE_SIZE * 8 - 1) / (cfg.PAGE_SIZE * 8) := by
    rw [hu, hd, DIV_ROUND_UP_eq (by omega) (by omega), u32_of_lt (by omega),
      Nat.mod_eq_of_lt hfit]
  refine ⟨rfl, rfl, rfl, hsz, rfl, ?_, rfl, rfl, hn⟩
  show u32 env.dev_page_count / BITS_PER_BYTE = env.dev_page_count / 8
  rw [hu]
  rfl

/-- Witness for C13 (as amended): enable of 64 pages from the zeroed state. -/
theorem C13_enable_success_postcondition_witness :
    (pds_vfio_dirty_enable cfg4k (enableOk 64) devOff
      [{ start := 0x100000, last := 0x13FFFF }] 1 4096).err = 0 ∧
    (pds_vfio_dirty_enable cfg4k (enableOk 64) devOff
      [{ start := 0x100000, last := 0x13FFFF }] 1 4096).dev.dirty.is_enabled = true :=
  ⟨(C13_enable_success_postcondition cfg4k (enableOk 64) devOff
      [{ start := 0x100000, last := 0x13FFFF }] 1 4096 { start := 0x100000, last := 0x13FFFF }
      rfl (by decide) (by decide) (by decide) rfl rfl rfl rfl rfl rfl rfl rfl
      (by decide) (by decide) (by decide) (by decide) (by decide) (by decide) (by decide)).1,
   (C13_enable_success_postcondition cfg4k (enableOk 64) devOff
      [{ start := 0x100000, last := 0x13FFFF }] 1 4096 { start := 0x100000, last := 0x13FFFF }
      rfl (by decide) (by decide) (by decide) rfl rfl rfl rfl rfl rfl rfl rfl
      (by decide) (by decide) (by decide) (by decide) (by decide) (by decide) (by decide)).2.1⟩

/-- Counterexample to C13 as stated: from the zeroed disabled state, with the
device reporting no active region and max_regions = 1 and accepting the enable
command with page_count = 7, the allocation of the sequence bitmap fails and
pds_vfio_dirty_enable returns -ENOMEM with tracking still disabled. -/
theorem C13_enable_success_counterexample :
    devOff.dirty.is_enabled = false ∧
    u8 (enableSeqAllocFails 7).num_regions = 0 ∧ u8 (enableSeqAllocFails 7).max_regions ≠ 0 ∧
    (enableSeqAllocFails 7).enable_err = 0 ∧
    Event.dirty_enable_cmd { dma_base := 0x100000, page_count := 7, page_size_log2 := 12 } 1 ∈
      (pds_vfio_dirty_enable cfg4k (enableSeqAllocFails 7) devOff
        [{ start := 0x100000, last := 0x106FFF }] 1 4096).trace ∧
    (pds_vfio_dirty_enable cfg4k (enableSeqAllocFails 7) devOff
      [{ start := 0x100000, last := 0x106FFF }] 1 4096).err = - ENOMEM ∧
    (pds_vfio_dirty_enable cfg4k (enableSeqAllocFails 7) devOff
      [{ start := 0x100000, last := 0x106FFF }] 1 4096).dev.dirty.is_enabled = false := by
  decide

theorem free_bitmaps_of_none (s : pds_vfio_pci_device)
    (hseq : s.dirty.region.host_seq = none) (hack : s.dirty.region.host_ack = none)
    (hb : s.dirty.region.bmp_bytes = 0) :
    ({ dirty := pds_vfio_dirty_free_bitmaps s.dirty } : pds_vfio_pci_device) = s := by
  rcases s with ⟨⟨⟨a, b, c, d, e, f, g, h, i⟩, en⟩⟩
  simp only at hseq hack hb
  subst hseq hack hb
  rfl

theorem enable_failure_keeps_state (cfg : Cfg) (env : EnableEnv) (s : pds_vfio_pci_device)
    (ranges : List interval_tree_node) (nnodes page_size : Nat)
    (hseq : s.dirty.region.host_seq = none) (hack : s.dirty.region.host_ack = none)
    (hb : s.dirty.region.bmp_bytes = 0)
    (herr : (pds_vfio_dirty_enable cfg env s ranges nnodes page_size).err ≠ 0) :
    (pds_vfio_dirty_enable cfg env s ranges nnodes page_size).dev = s := by
  rcases enable_cases cfg env s ranges nnodes page_size with c | c | c
  · exact c.2
  · rw [c.2.2]
    exact free_bitmaps_of_none s hseq hack hb
  · exact absurd c.2.1 herr

/-- C14: from a disabled state without bitmaps and without scatter list, every
failing pds_vfio_dirty_enable, at whatever step it fails, leaves the host
state equal to the state before the call: is_enabled = false,
host_seq = host_ack = NULL, bmp_bytes = 0, sgl = NULL, num_sge = 0. -/
theorem C14_failed_enable_keeps_state (cfg : Cfg) (env : EnableEnv) (s : pds_vfio_pci_device)
    (ranges : List interval_tree_node) (nnodes page_size : Nat)
    (hdis : s.dirty.is_enabled = false)
    (hseq : s.dirty.region.host_seq = none) (hack : s.dirty.region.host_ack = none)
    (hb : s.dirty.region.bmp_bytes = 0)
    (hsgl : s.dirty.region.sgl = none) (hn : s.dirty.region.num_sge = 0)
    (herr : (pds_vfio_dirty_enable cfg env s ranges nnodes page_size).err ≠ 0) :
    (pds_vfio_dirty_enable cfg env s ranges nnodes page_size).dev = s ∧
    (pds_vfio_dirty_enable cfg env s ranges nnodes page_size).dev.dirty.is_enabled = false ∧
    (pds_vfio_dirty_enable cfg env s ranges nnodes page_size).dev.dirty.region.host_seq = none ∧
    (pds_vfio_dirty_enable cfg env s ranges nnodes page_size).dev.dirty.region.host_ack = none ∧
    (pds_vfio_dirty_enable cfg env s ranges nnodes page_size).dev.dirty.region.bmp_bytes = 0 ∧
    (pds_vfio_dirty_enable cfg env s ranges nnodes page_size).dev.dirty.region.sgl = none ∧
    (pds_vfio_dirty_enable cfg env s ranges nnodes page_size).dev.dirty.region.num_sge = 0 := by
  have h := enable_failure_keeps_state cfg env s ranges nnodes page_size hseq hack hb herr
  rw [h]
  exact ⟨rfl, hdis, hseq, hack, hb, hsgl, hn⟩

/-- Witness for C14: the allocation of the sequence bitmap fails after the
device accepted the enable command. -/
theorem C14_failed_enable_keeps_state_witness :
    (pds_vfio_dirty_enable cfg4k (enableSeqAllocFails 64) devOff
      [{ start := 0x100000, last := 0x13FFFF }] 1 4096).err ≠ 0 ∧
    (pds_vfio_dirty_enable cfg4k (enableSeqAllocFails 64) devOff
      [{ start := 0x100000, last := 0x13FFFF }] 1 4096).dev = devOff :=
  ⟨by decide, (C14_failed_enable_keeps_state cfg4k (enableSeqAllocFails 64) devOff
      [{ start := 0x100000, last := 0x13FFFF }] 1 4096 rfl rfl rfl rfl rfl rfl (by decide)).1⟩

/-- C15: with tracking disabled, pds_vfio_dirty_sync returns the error of its
first test (-EINVAL in the C code) for every (iova, length), issues no device
command, makes no call of the output sink and leaves the state unchanged. -/
theorem C15_sync_when_disabled (cfg : Cfg) (env : SyncEnv) (s : pds_vfio_pci_device)
    (iova length : Nat) (hdis : s.dirty.is_enabled = false) :
    (pds_vfio_dirty_sync cfg env s iova length).err = - EINVAL ∧
    (pds_vfio_dirty_sync cfg env s iova length).trace = [] ∧
    (pds_vfio_dirty_sync cfg env s iova length).dev = s := by
  rw [sync_disabled cfg env s iova length hdis]
  exact ⟨rfl, rfl, rfl⟩

/-- Witness for C15 on the disabled state devOff. -/
theorem C15_sync_when_disabled_witness :
    (pds_vfio_dirty_sync cfg4k okSync devOff 0x100000 4096).err = - EINVAL ∧
    (pds_vfio_dirty_sync cfg4k okSync devOff 0x100000 4096).trace = [] ∧
    (pds_vfio_dirty_sync cfg4k okSync devOff 0x100000 4096).dev = devOff :=
  C15_sync_when_disabled cfg4k okSync devOff 0x100000 4096 rfl

/-- C16: on an enabled region and a window that passes validation,
pds_vfio_dirty_sync returns the error of the read-sequence round trip when
that one fails, otherwise the return value of the write-acknowledge round
trip; hence it returns 0 if and only if both round trips succeed. The return
value of a round trip, seq_ack_err, is that of pds_vfio_dirty_read_seq and of
pds_vfio_dirty_write_ack on any region. -/
theorem C16_sync_result (cfg : Cfg) (env : SyncEnv) (s : pds_vfio_pci_device)
    (iova length off len : Nat) (hen : s.dirty.is_enabled = true)
    (hw : pds_vfio_dirty_sync_window s.dirty.region iova length = Except.ok (off, len)) :
    (pds_vfio_dirty_sync cfg env s iova length).err =
      (if seq_ack_err cfg env.read (u32 off) (u32 len) ≠ 0
       then seq_ack_err cfg env.read (u32 off) (u32 len)
       else seq_ack_err cfg env.write (u32 off) (u32 len)) ∧
    ((pds_vfio_dirty_sync cfg env s iova length).err = 0 ↔
      seq_ack_err cfg env.read (u32 off) (u32 len) = 0 ∧
      seq_ack_err cfg env.write (u32 off) (u32 len) = 0) ∧
    (∀ region, (pds_vfio_dirty_read_seq cfg env.read region (u32 off) (u32 len)).1 =
      seq_ack_err cfg env.read (u32 off) (u32 len)) ∧
    (∀ region, (pds_vfio_dirty_write_ack cfg env.write region (u32 off) (u32 len)).1 =
      seq_ack_err cfg env.write (u32 off) (u32 len)) := by
  have h := sync_err_eq cfg env s iova length off len hen hw
  refine ⟨h, ?_, fun region => read_seq_fst cfg env.read region (u32 off) (u32 len),
    fun region => write_ack_fst cfg env.write region (u32 off) (u32 len)⟩
  rw [h]
  by_cases h1 : seq_ack_err cfg env.read (u32 off) (u32 len) = 0
  · simp [h1]
  · simp [h1]

/-- Witness for C16: the full window of the region of devEnabled64. -/
theorem C16_sync_result_witness :
    ((pds_vfio_dirty_sync cfg4k okSync devEnabled64 0x100000 (64 * 4096)).err = 0 ↔
      seq_ack_err cfg4k okSync.read (u32 0) (u32 8) = 0 ∧
      seq_ack_err cfg4k okSync.write (u32 0) (u32 8) = 0) :=
  (C16_sync_result cfg4k okSync devEnabled64 0x100000 (64 * 4096) 0 8 rfl rfl).2.1

/-- C17: for every state, arguments and answers of the device,
pds_vfio_dirty_sync leaves is_enabled, region.start, region.size,
region.page_size, region.bmp_bytes and num_sge as they were, whether it
succeeds or fails. -/
theorem C17_sync_keeps_controller_state (cfg : Cfg) (env : SyncEnv) (s : pds_vfio_pci_device)
    (iova length : Nat) :
    (pds_vfio_dirty_sync cfg env s iova length).dev.dirty.is_enabled = s.dirty.is_enabled ∧
    (pds_vfio_dirty_sync cfg env s iova length).dev.dirty.region.start = s.dirty.region.start ∧
    (pds_vfio_dirty_sync cfg env s iova length).dev.dirty.region.size = s.dirty.region.size ∧
    (pds_vfio_dirty_sync cfg env s iova length).dev.dirty.region.page_size =
      s.dirty.region.page_size ∧
    (pds_vfio_dirty_sync cfg env s iova length).dev.dirty.region.bmp_bytes =
      s.dirty.region.bmp_bytes ∧
    (pds_vfio_dirty_sync cfg env s iova length).dev.dirty.region.num_sge =
      s.dirty.region.num_sge :=
  sync_frame cfg env s iova length

/-- C19: from a disabled host state, when the dirty-status command does not
fail and reports a nonzero number of active regions, whatever max_regions is,
pds_vfio_dirty_enable returns -EEXIST, submits only the status command (no
enable command) and leaves the host state unchanged. -/
theorem C19_enable_device_already_tracking (cfg : Cfg) (env : EnableEnv)
    (s : pds_vfio_pci_device) (ranges : List interval_tree_node) (nnodes page_size : Nat)
    (hdis : s.dirty.is_enabled = false) (hst : 0 ≤ env.status_err)
    (hnum : u8 env.num_regions ≠ 0) :
    (pds_vfio_dirty_enable cfg env s ranges nnodes page_size).err = - EEXIST ∧
    (pds_vfio_dirty_enable cfg env s ranges nnodes page_size).trace = [Event.dirty_status_cmd] ∧
    (pds_vfio_dirty_enable cfg env s ranges nnodes page_size).dev = s := by
  have hst2 : ¬ env.status_err < 0 := by omega
  unfold pds_vfio_dirty_enable
  simp [pds_vfio_dirty_is_enabled, hdis, hst2, hnum]

/-- Witness for C19: the device reports 2 active regions. -/
theorem C19_enable_device_already_tracking_witness :
    (pds_vfio_dirty_enable cfg4k (enableDeviceBusy 2) devOff
      [{ start := 0x100000, last := 0x13FFFF }] 1 4096).err = - EEXIST ∧
    (pds_vfio_dirty_enable cfg4k (enableDeviceBusy 2) devOff
      [{ start := 0x100000, last := 0x13FFFF }] 1 4096).trace = [Event.dirty_status_cmd] ∧
    (pds_vfio_dirty_enable cfg4k (enableDeviceBusy 2) devOff
      [{ start := 0x100000, last := 0x13FFFF }] 1 4096).dev = devOff :=
  C19_enable_device_already_tracking cfg4k (enableDeviceBusy 2) devOff
    [{ start := 0x100000, last := 0x13FFFF }] 1 4096 rfl (by decide) (by decide)

/-- C20: from a disabled host state, when the dirty-status command does not
fail and reports no active region and max_regions = 0, pds_vfio_dirty_enable
returns -EOPNOTSUPP, submits only the status command (no enable command) and
leaves the host state unchanged. -/
theorem C20_enable_unsupported_device (cfg : Cfg) (env : EnableEnv)
    (s : pds_vfio_pci_device) (ranges : List interval_tree_node) (nnodes page_size : Nat)
    (hdis : s.dirty.is_enabled = false) (hst : 0 ≤ env.status_err)
    (hnum : u8 env.num_regions = 0) (hmax : u8 env.max_regions = 0) :
    (pds_vfio_dirty_enable cfg env s ranges nnodes page_size).err = - EOPNOTSUPP ∧
    (pds_vfio_dirty_enable cfg env s ranges nnodes page_size).trace = [Event.dirty_status_cmd] ∧
    (pds_vfio_dirty_enable cfg env s ranges nnodes page_size).dev = s := by
  have hst2 : ¬ env.status_err < 0 := by omega
  unfold pds_vfio_dirty_enable
  simp [pds_vfio_dirty_is_enabled, hdis, hst2, hnum, hmax]

/-- Witness for C20: the device reports max_regions = 0. -/
theorem C20_enable_unsupported_device_witness :
    (pds_vfio_dirty_enable cfg4k enableUnsupported devOff
      [{ start := 0x100000, last := 0x13FFFF }] 1 4096).err = - EOPNOTSUPP ∧
    (pds_vfio_dirty_enable cfg4k enableUnsupported devOff
      [{ start := 0x100000, last := 0x13FFFF }] 1 4096).trace = [Event.dirty_status_cmd] ∧
    (pds_vfio_dirty_enable cfg4k enableUnsupported devOff
      [{ start := 0x100000, last := 0x13FFFF }] 1 4096).dev = devOff :=
  C20_enable_unsupported_device cfg4k enableUnsupported devOff
    [{ start := 0x100000, last := 0x13FFFF }] 1 4096 rfl (by decide) (by decide) (by decide)

/-! ## Disable and the reachable states -/

theorem disable_of_enabled (s : pds_vfio_pci_device) (send_cmd : Bool)
    (hen : s.dirty.is_enabled = true) (hsgl : s.dirty.region.sgl.isSome = true) :
    (pds_vfio_dirty_disable s send_cmd).err = 0 ∧
    (pds_vfio_dirty_disable s send_cmd).dev.dirty.is_enabled = false ∧
    (pds_vfio_dirty_disable s send_cmd).dev.dirty.region.host_seq = none ∧
    (pds_vfio_dirty_disable s send_cmd).dev.dirty.region.host_ack = none ∧
    (pds_vfio_dirty_disable s send_cmd).dev.dirty.region.bmp_bytes = 0 ∧
    (pds_vfio_dirty_disable s send_cmd).dev.dirty.region.sgl = none ∧
    (pds_vfio_dirty_disable s send_cmd).dev.dirty.region.num_sge = 0 := by
  simp [pds_vfio_dirty_disable, pds_vfio_dirty_is_enabled, hen, pds_vfio_dirty_set_disabled,
    pds_vfio_dirty_free_sgl, hsgl, pds_vfio_dirty_free_bitmaps, __pds_vfio_dirty_free_sgl]

theorem disable_of_disabled (s : pds_vfio_pci_device) (send_cmd : Bool)
    (hdis : s.dirty.is_enabled = false) :
    (pds_vfio_dirty_disable s send_cmd).dev = s := by
  simp [pds_vfio_dirty_disable, pds_vfio_dirty_is_enabled, hdis]

theorem track_inv_init : TrackInv devOff :=
  ⟨fun h => Bool.noConfusion h, fun _ => ⟨rfl, rfl, rfl, rfl, rfl⟩⟩

theorem track_inv_enable (cfg : Cfg) (env : EnableEnv) (s : pds_vfio_pci_device)
    (ranges : List interval_tree_node) (nnodes page_size : Nat) (h : TrackInv s) :
    TrackInv (pds_vfio_dirty_enable cfg env s ranges nnodes page_size).dev := by
  rcases enable_cases cfg env s ranges nnodes page_size with c | c | c
  · rw [c.2]
    exact h
  · obtain ⟨hdis, _, hdev⟩ := c
    obtain ⟨hs, ha, hb, _, _⟩ := h.2 hdis
    rw [hdev, free_bitmaps_of_none s hs ha hb]
    exact h
  · obtain ⟨_, _, node, _, hdev, _⟩ := c
    rw [hdev]
    exact ⟨fun _ => ⟨rfl, rfl, rfl⟩, fun hd => Bool.noConfusion hd⟩

theorem track_inv_sync (cfg : Cfg) (env : SyncEnv) (s : pds_vfio_pci_device)
    (iova length : Nat) (h : TrackInv s) :
    TrackInv (pds_vfio_dirty_sync cfg env s iova length).dev := by
  cases hen : s.dirty.is_enabled with
  | false =>
    rw [sync_disabled cfg env s iova length hen]
    exact h
  | true =>
    have hf := sync_frame cfg env s iova length
    have hk := sync_keeps_alloc cfg env s iova length
    obtain ⟨h1, h2, h3⟩ := h.1 hen
    refine ⟨fun _ => ?_, fun hd => ?_⟩
    · rw [hk.1, hk.2.1, hk.2.2]
      exact ⟨h1, h2, h3⟩
    · rw [hf.1, hen] at hd
      exact Bool.noConfusion hd

theorem track_inv_disable (s : pds_vfio_pci_device) (send_cmd : Bool) (h : TrackInv s) :
    TrackInv (pds_vfio_dirty_disable s send_cmd).dev := by
  cases hen : s.dirty.is_enabled with
  | false =>
    rw [disable_of_disabled s send_cmd hen]
    exact h
  | true =>
    obtain ⟨_, h1, h2, h3, h4, h5, h6⟩ := disable_of_enabled s send_cmd hen (h.1 hen).2.2
    refine ⟨fun he => ?_, fun _ => ⟨h2, h3, h4, h5, h6⟩⟩
    rw [h1] at he
    exact Bool.noConfusion he

theorem reachable_track_inv (cfg : Cfg) (s : pds_vfio_pci_device) (h : Reachable cfg s) :
    TrackInv s := by
  induction h with
  | init => exact track_inv_init
  | enable s env ranges nnodes page_size _ ih =>
    exact track_inv_enable cfg env s ranges nnodes page_size ih
  | sync s env iova length _ ih => exact track_inv_sync cfg env s iova length ih
  | disable s send_cmd _ ih => exact track_inv_disable s send_cmd ih

/-- C18: from every enabled state of the driver (a state reached from the
zeroed state by Enable, Sync and Disable calls), for either value of send_cmd,
pds_vfio_dirty_disable ends with is_enabled = false, host_seq = host_ack =
NULL, bmp_bytes = 0, sgl = NULL and num_sge = 0. The C code does not look at
the results of the commands it issues, so the final host state is a function
of the state before alone, and pds_vfio_dma_logging_stop returns 0 with the
same final state. -/
theorem C18_disable_postcondition (cfg : Cfg) (s : pds_vfio_pci_device) (send_cmd : Bool)
    (hr : Reachable cfg s) (hen : s.dirty.is_enabled = true) :
    (pds_vfio_dirty_disable s send_cmd).dev.dirty.is_enabled = false ∧
    (pds_vfio_dirty_disable s send_cmd).dev.dirty.region.host_seq = none ∧
    (pds_vfio_dirty_disable s send_cmd).dev.dirty.region.host_ack = none ∧
    (pds_vfio_dirty_disable s send_cmd).dev.dirty.region.bmp_bytes = 0 ∧
    (pds_vfio_dirty_disable s send_cmd).dev.dirty.region.sgl = none ∧
    (pds_vfio_dirty_disable s send_cmd).dev.dirty.region.num_sge = 0 ∧
    (pds_vfio_dma_logging_stop s).err = 0 ∧
    (pds_vfio_dma_logging_stop s).dev = (pds_vfio_dirty_disable s true).dev ∧
    (pds_vfio_dirty_disable s true).dev = (pds_vfio_dirty_disable s false).dev := by
  have hinv := reachable_track_inv cfg s hr
  obtain ⟨_, h1, h2, h3, h4, h5, h6⟩ := disable_of_enabled s send_cmd hen (hinv.1 hen).2.2
  refine ⟨h1, h2, h3, h4, h5, h6, rfl, rfl, ?_⟩
  simp [pds_vfio_dirty_disable, pds_vfio_dirty_is_enabled, hen]

/-- Witness for C18: disable from the state devEnabled64 reached by Enable. -/
theorem C18_disable_postcondition_witness :
    (pds_vfio_dirty_disable devEnabled64 true).dev.dirty.is_enabled = false ∧
    (pds_vfio_dirty_disable devEnabled64 true).dev.dirty.region.host_seq = none :=
  ⟨(C18_disable_postcondition cfg4k devEnabled64 true
      (Reachable.enable devOff (enableOk 64) [{ start := 0x100000, last := 0x13FFFF }] 1 4096
        Reachable.init) rfl).1,
   (C18_disable_postcondition cfg4k devEnabled64 true
      (Reachable.enable devOff (enableOk 64) [{ start := 0x100000, last := 0x13FFFF }] 1 4096
        Reachable.init) rfl).2.1⟩

/-! ## Enable: command failures, empty ranges, coalescing -/

theorem enable_status_fails (cfg : Cfg) (env : EnableEnv) (s : pds_vfio_pci_device)
    (ranges : List interval_tree_node) (nnodes page_size : Nat)
    (hdis : s.dirty.is_enabled = false) (hst : env.status_err < 0) :
    pds_vfio_dirty_enable cfg env s ranges nnodes page_size =
      ⟨env.status_err, s, [Event.dirty_status_cmd]⟩ := by
  unfold pds_vfio_dirty_enable
  simp [pds_vfio_dirty_is_enabled, hdis, hst]

theorem enable_cmd_fails (cfg : Cfg) (env : EnableEnv) (s : pds_vfio_pci_device)
    (ranges : List interval_tree_node) (nnodes page_size : Nat) (node : interval_tree_node)
    (hdis : s.dirty.is_enabled = false)
    (hst : 0 ≤ env.status_err) (hnum : u8 env.num_regions = 0) (hmax : u8 env.max_regions ≠ 0)
    (hnode : interval_tree_iter_first (tracked_ranges env ranges nnodes) = some node)
    (halloc : env.region_info_ok = true) (hdma : env.regions_dma_ok = true)
    (hcmd : env.enable_err ≠ 0) :
    (pds_vfio_dirty_enable cfg env s ranges nnodes page_size).err = env.enable_err ∧
    (pds_vfio_dirty_enable cfg env s ranges nnodes page_size).dev = s := by
  have hst2 : ¬ env.status_err < 0 := by omega
  unfold pds_vfio_dirty_enable
  simp only [pds_vfio_dirty_is_enabled, hdis, hst2, hnum, hmax, halloc, hdma,
    tracked_ranges_eq, hnode]
  simp [hcmd]

/-- C21: from a disabled state, when the dirty-status command fails with the
(negative) status e, pds_vfio_dirty_enable returns exactly e; and when the
dirty-enable command, once submitted, fails with a nonzero status e,
pds_vfio_dirty_enable returns exactly e. In both cases the host state is
unchanged. -/
theorem C21_enable_propagates_command_errors (cfg : Cfg) (env : EnableEnv)
    (s : pds_vfio_pci_device) (ranges : List interval_tree_node) (nnodes page_size : Nat)
    (hdis : s.dirty.is_enabled = false) :
    (env.status_err < 0 →
      (pds_vfio_dirty_enable cfg env s ranges nnodes page_size).err = env.status_err ∧
      (pds_vfio_dirty_enable cfg env s ranges nnodes page_size).dev = s) ∧
    (0 ≤ env.status_err → u8 env.num_regions = 0 → u8 env.max_regions ≠ 0 →
      (interval_tree_iter_first (tracked_ranges env ranges nnodes)).isSome = true →
      env.region_info_ok = true → env.regions_dma_ok = true → env.enable_err ≠ 0 →
      (pds_vfio_dirty_enable cfg env s ranges nnodes page_size).err = env.enable_err ∧
      (pds_vfio_dirty_enable cfg env s ranges nnodes page_size).dev = s) := by
  constructor
  · intro hst
    rw [enable_status_fails cfg env s ranges nnodes page_size hdis hst]
    exact ⟨rfl, rfl⟩
  · intro hst hnum hmax hsome halloc hdma hcmd
    cases hn : interval_tree_iter_first (tracked_ranges env ranges nnodes) with
    | none =>
      rw [hn] at hsome
      exact Bool.noConfusion hsome
    | some node =>
      exact enable_cmd_fails cfg env s ranges nnodes page_size node hdis hst hnum hmax hn
        halloc hdma hcmd

/-- Witness for C21: the status command fails with -5, and the enable command
fails with -22. -/
theorem C21_enable_propagates_command_errors_witness :
    (pds_vfio_dirty_enable cfg4k (enableStatusFails (-5)) devOff
      [{ start := 0x100000, last := 0x13FFFF }] 1 4096).err = -5 ∧
    (pds_vfio_dirty_enable cfg4k (enableCmdFails (-22)) devOff
      [{ start := 0x100000, last := 0x13FFFF }] 1 4096).err = -22 :=
  ⟨((C21_enable_propagates_command_errors cfg4k (enableStatusFails (-5)) devOff
      [{ start := 0x100000, last := 0x13FFFF }] 1 4096 rfl).1 (by decide)).1,
   ((C21_enable_propagates_command_errors cfg4k (enableCmdFails (-22)) devOff
      [{ start := 0x100000, last := 0x13FFFF }] 1 4096 rfl).2 (by decide) (by decide)
      (by decide) rfl rfl rfl (by decide)).1⟩

theorem enable_empty_ranges (cfg : Cfg) (env : EnableEnv) (s : pds_vfio_pci_device)
    (ranges : List interval_tree_node) (nnodes page_size : Nat)
    (hdis : s.dirty.is_enabled = false)
    (hst : 0 ≤ env.status_err) (hnum : u8 env.num_regions = 0) (hmax : u8 env.max_regions ≠ 0)
    (hempty : tracked_ranges env ranges nnodes = []) :
    (pds_vfio_dirty_enable cfg env s ranges nnodes page_size).err = - EINVAL ∧
    (pds_vfio_dirty_enable cfg env s ranges nnodes page_size).dev = s ∧
    (pds_vfio_dirty_enable cfg env s ranges nnodes page_size).trace =
      [Event.dirty_status_cmd] ++
      (if u32 nnodes > 1 then [Event.combine_iova_ranges nnodes 1] else []) := by
  have hst2 : ¬ env.status_err < 0 := by omega
  have hnode : interval_tree_iter_first (tracked_ranges env ranges nnodes) = none := by
    rw [hempty]
    rfl
  unfold pds_vfio_dirty_enable
  simp only [pds_vfio_dirty_is_enabled, hdis, hst2, hnum, hmax, tracked_ranges_eq, hnode]
  by_cases hc : u32 nnodes > 1
  · simp [hc]
  · simp [hc]

/-- C22: from a disabled state with an idle device that supports tracking,
when the range set (coalesced when more than one range is given) contains no
interval, pds_vfio_dirty_enable returns -EINVAL; the only device command it
submitted is the status command, so the enable command is not sent, and the
state is unchanged, so no bitmap is allocated. -/
theorem C22_enable_empty_range_set (cfg : Cfg) (env : EnableEnv) (s : pds_vfio_pci_device)
    (ranges : List interval_tree_node) (nnodes page_size : Nat)
    (hdis : s.dirty.is_enabled = false)
    (hst : 0 ≤ env.status_err) (hnum : u8 env.num_regions = 0) (hmax : u8 env.max_regions ≠ 0)
    (hempty : tracked_ranges env ranges nnodes = []) :
    (pds_vfio_dirty_enable cfg env s ranges nnodes page_size).err = - EINVAL ∧
    (pds_vfio_dirty_enable cfg env s ranges nnodes page_size).dev = s ∧
    (∀ info m, Event.dirty_enable_cmd info m ∉
      (pds_vfio_dirty_enable cfg env s ranges nnodes page_size).trace) := by
  obtain ⟨h1, h2, h3⟩ := enable_empty_ranges cfg env s ranges nnodes page_size hdis hst hnum
    hmax hempty
  refine ⟨h1, h2, fun info m hmem => ?_⟩
  rw [h3] at hmem
  by_cases hc : u32 nnodes > 1
  · simp [hc] at hmem
  · simp [hc] at hmem

/-- Witness for C22: enable with an empty range tree. -/
theorem C22_enable_empty_range_set_witness :
    (pds_vfio_dirty_enable cfg4k (enableOk 64) devOff [] 0 4096).err = - EINVAL ∧
    (pds_vfio_dirty_enable cfg4k (enableOk 64) devOff [] 0 4096).dev = devOff ∧
    (∀ info m, Event.dirty_enable_cmd info m ∉
      (pds_vfio_dirty_enable cfg4k (enableOk 64) devOff [] 0 4096).trace) :=
  C22_enable_empty_range_set cfg4k (enableOk 64) devOff [] 0 4096 rfl (by decide) (by decide)
    (by decide) rfl

theorem enable_trace_combine (cfg : Cfg) (env : EnableEnv) (s : pds_vfio_pci_device)
    (ranges : List interval_tree_node) (nnodes page_size : Nat)
    (hdis : s.dirty.is_enabled = false)
    (hst : 0 ≤ env.status_err) (hnum : u8 env.num_regions = 0) (hmax : u8 env.max_regions ≠ 0) :
    (u32 nnodes > 1 → Event.combine_iova_ranges nnodes 1 ∈
      (pds_vfio_dirty_enable cfg env s ranges nnodes page_size).trace) ∧
    (¬ u32 nnodes > 1 → ∀ a b, Event.combine_iova_ranges a b ∉
      (pds_vfio_dirty_enable cfg env s ranges nnodes page_size).trace) := by
  have hst2 : ¬ env.status_err < 0 := by omega
  have hE1 : ENOMEM ≠ 0 := by decide
  have hE2 : EIO ≠ 0 := by decide
  unfold pds_vfio_dirty_enable
  simp only [pds_vfio_dirty_is_enabled, hdis, hst2, hnum, hmax, tracked_ranges_eq]
  cases hn : interval_tree_iter_first (tracked_ranges env ranges nnodes) with
  | none => by_cases hc : u32 nnodes > 1 <;> simp [hc]
  | some node =>
    cases h5 : env.region_info_ok
    · by_cases hc : u32 nnodes > 1 <;> simp [hc]
    · cases h6 : env.regions_dma_ok
      · by_cases hc : u32 nnodes > 1 <;> simp [hc]
      · by_cases he : env.enable_err = 0
        · unfold pds_vfio_dirty_alloc_bitmaps pds_vfio_dirty_alloc_sgl
            pds_vfio_print_guest_region_info
          cases h1 : env.seq_alloc_ok
          · by_cases hc : u32 nnodes > 1 <;> simp [hc, he, hE1]
          · cases h2 : env.ack_alloc_ok
            · by_cases hc : u32 nnodes > 1 <;> simp [hc, he, hE1]
            · cases h3 : env.sgl_alloc_ok
              · by_cases hc : u32 nnodes > 1 <;> simp [hc, he, hE1]
              · cases h4 : env.sgl_dma_ok
                · by_cases hc : u32 nnodes > 1 <;> simp [hc, he, hE2]
                · cases h7 : env.print_alloc_ok
                  · by_cases hc : u32 nnodes > 1 <;> simp [hc, he]
                  · cases h8 : env.print_dma_ok
                    · by_cases hc : u32 nnodes > 1 <;> simp [hc, he]
                    · by_cases hc : u32 nnodes > 1 <;> simp [hc, he]
        · by_cases hc : u32 nnodes > 1 <;> simp [hc, he]

theorem enable_ok_region (cfg : Cfg) (env : EnableEnv) (s : pds_vfio_pci_device)
    (ranges : List interval_tree_node) (nnodes page_size : Nat)
    (herr : (pds_vfio_dirty_enable cfg env s ranges nnodes page_size).err = 0) :
    ∃ node, interval_tree_iter_first (tracked_ranges env ranges nnodes) = some node ∧
      (pds_vfio_dirty_enable cfg env s ranges nnodes page_size).dev.dirty.region.start =
        node.start ∧
      (pds_vfio_dirty_enable cfg env s ranges nnodes page_size).dev.dirty.region.size =
        u64 (sub64 node.last node.start + 1) := by
  rcases enable_cases cfg env s ranges nnodes page_size with c | c | c
  · exact absurd herr c.1
  · exact absurd herr c.2.1
  · obtain ⟨_, _, node, hnode, hdev, _⟩ := c
    refine ⟨node, hnode, ?_, ?_⟩
    · rw [hdev]
      rfl
    · rw [hdev]
      rfl

/-- C24: when pds_vfio_dirty_enable gets past the status checks with a count of
more than one range, it calls the coalescing collaborator with target count 1
and, on success, tracks the first interval of the result; with a count of at
most one range the collaborator is not called and the first given range is
tracked as it is. With the collaborator a bounding merge, the two ranges
[0, 4096) and [8192, 12288), enabled with pages of 512 bytes and the device
confirming the 24 pages (bitmaps of 3 bytes), give one region with start = 0
and size = 12288. -/
theorem C24_enable_coalesces_ranges (cfg : Cfg) (env : EnableEnv) (s : pds_vfio_pci_device)
    (ranges : List interval_tree_node) (nnodes page_size : Nat)
    (hdis : s.dirty.is_enabled = false)
    (hst : 0 ≤ env.status_err) (hnum : u8 env.num_regions = 0) (hmax : u8 env.max_regions ≠ 0) :
    (u32 nnodes > 1 →
      Event.combine_iova_ranges nnodes 1 ∈
        (pds_vfio_dirty_enable cfg env s ranges nnodes page_size).trace ∧
      ((pds_vfio_dirty_enable cfg env s ranges nnodes page_size).err = 0 →
        ∃ node, interval_tree_iter_first (env.combine ranges nnodes 1) = some node ∧
          (pds_vfio_dirty_enable cfg env s ranges nnodes page_size).dev.dirty.region.start =
            node.start ∧
          (pds_vfio_dirty_enable cfg env s ranges nnodes page_size).dev.dirty.region.size =
            u64 (sub64 node.last node.start + 1))) ∧
    (¬ u32 nnodes > 1 →
      (∀ a b, Event.combine_iova_ranges a b ∉
        (pds_vfio_dirty_enable cfg env s ranges nnodes page_size).trace) ∧
      ((pds_vfio_dirty_enable cfg env s ranges nnodes page_size).err = 0 →
        ∃ node, interval_tree_iter_first ranges = some node ∧
          (pds_vfio_dirty_enable cfg env s ranges nnodes page_size).dev.dirty.region.start =
            node.start ∧
          (pds_vfio_dirty_enable cfg env s ranges nnodes page_size).dev.dirty.region.size =
            u64 (sub64 node.last node.start + 1))) ∧
    ((pds_vfio_dirty_enable cfg4k (enableOkMerge 24) devOff
        [{ start := 0, last := 4095 }, { start := 8192, last := 12287 }] 2 512).err = 0 ∧
     (pds_vfio_dirty_enable cfg4k (enableOkMerge 24) devOff
        [{ start := 0, last := 4095 }, { start := 8192, last := 12287 }] 2
        512).dev.dirty.region.start = 0 ∧
     (pds_vfio_dirty_enable cfg4k (enableOkMerge 24) devOff
        [{ start := 0, last := 4095 }, { start := 8192, last := 12287 }] 2
        512).dev.dirty.region.size = 12288 ∧
     (pds_vfio_dirty_enable cfg4k (enableOkMerge 24) devOff
        [{ start := 0, last := 4095 }, { start := 8192, last := 12287 }] 2
        512).dev.dirty.region.bmp_bytes = 3) := by
  obtain ⟨hc1, hc2⟩ := enable_trace_combine cfg env s ranges nnodes page_size hdis hst hnum hmax
  refine ⟨fun hc => ⟨hc1 hc, fun herr => ?_⟩, fun hc => ⟨hc2 hc, fun herr => ?_⟩, by decide⟩
  · obtain ⟨node, hnode, h1, h2⟩ := enable_ok_region cfg env s ranges nnodes page_size herr
    unfold tracked_ranges at hnode
    rw [if_pos hc] at hnode
    exact ⟨node, hnode, h1, h2⟩
  · obtain ⟨node, hnode, h1, h2⟩ := enable_ok_region cfg env s ranges nnodes page_size herr
    unfold tracked_ranges at hnode
    rw [if_neg hc] at hnode
    exact ⟨node, hnode, h1, h2⟩

/-- Witness for C24: the two ranges [0, 4096) and [8192, 12288) with the
bounding merge as collaborator and pages of 512 bytes. -/
theorem C24_enable_coalesces_ranges_witness :
    Event.combine_iova_ranges 2 1 ∈
      (pds_vfio_dirty_enable cfg4k (enableOkMerge 24) devOff
        [{ start := 0, last := 4095 }, { start := 8192, last := 12287 }] 2 512).trace :=
  ((C24_enable_coalesces_ranges cfg4k (enableOkMerge 24) devOff
    [{ start := 0, last := 4095 }, { start := 8192, last := 12287 }] 2 512
    rfl (by decide) (by decide) (by decide)).1 (by decide)).1

/-! ## Sync: failure of a device round trip -/

theorem seq_ack_err_of_issued (cfg : Cfg) (env : SeqAckEnv) (offset len : Nat)
    (h : seq_ack_issued cfg env offset len = true) :
    seq_ack_err cfg env offset len = env.cmd_err := by
  have h1 := seq_ack_fst cfg env devOff.dirty.region none offset len true
  rw [seq_ack_of_issued cfg env devOff.dirty.region none offset len true h] at h1
  exact h1.symm

theorem seq_ack_err_of_not_issued (cfg : Cfg) (env : SeqAckEnv) (offset len : Nat)
    (h : seq_ack_issued cfg env offset len = false) :
    seq_ack_err cfg env offset len ≠ 0 := by
  obtain ⟨e, he, heq⟩ := seq_ack_of_not_issued cfg env devOff.dirty.region none offset len true h
  have h1 := seq_ack_fst cfg env devOff.dirty.region none offset len true
  rw [heq] at h1
  rw [← h1]
  exact he

theorem seq_ack_ok (cfg : Cfg) (env : SeqAckEnv) (offset len : Nat)
    (h : seq_ack_err cfg env offset len = 0) :
    seq_ack_issued cfg env offset len = true ∧ env.cmd_err = 0 := by
  cases hi : seq_ack_issued cfg env offset len with
  | false => exact absurd h (seq_ack_err_of_not_issued cfg env offset len hi)
  | true =>
    rw [seq_ack_err_of_issued cfg env offset len hi] at h
    exact ⟨rfl, h⟩

theorem sync_read_fails (cfg : Cfg) (env : SyncEnv) (s : pds_vfio_pci_device)
    (iova length off len : Nat) (hen : s.dirty.is_enabled = true)
    (hw : pds_vfio_dirty_sync_window s.dirty.region iova length = Except.ok (off, len))
    (hf : seq_ack_err cfg env.read (u32 off) (u32 len) ≠ 0) :
    (pds_vfio_dirty_sync cfg env s iova length).err =
      seq_ack_err cfg env.read (u32 off) (u32 len) ∧
    (∀ addr l, Event.iova_bitmap_set addr l ∉ (pds_vfio_dirty_sync cfg env s iova length).trace) ∧
    (∀ n o b, Event.dirty_seq_ack_cmd n o b false ∉
      (pds_vfio_dirty_sync cfg env s iova length).trace) ∧
    (pds_vfio_dirty_sync cfg env s iova length).dev.dirty.region.host_ack =
      s.dirty.region.host_ack := by
  refine ⟨?_, ?_⟩
  · rw [sync_err_eq cfg env s iova length off len hen hw, if_pos hf]
  · cases hi : seq_ack_issued cfg env.read (u32 off) (u32 len) with
    | false =>
      obtain ⟨e, _, heq⟩ := sync_read_not_issued cfg env s iova length off len hen hw hi
      rw [heq]
      exact ⟨fun addr l h => by simp at h, fun n o b h => by simp at h, rfl⟩
    | true =>
      have hc : env.read.cmd_err ≠ 0 := by
        rw [← seq_ack_err_of_issued cfg env.read (u32 off) (u32 len) hi]
        exact hf
      rw [sync_read_failed cfg env s iova length off len hen hw hi hc]
      exact ⟨fun addr l h => by simp at h, fun n o b h => by simp at h, rfl⟩

/-- C25 (as amended): for every enabled region and accepted window, when the
read-sequence round trip of pds_vfio_dirty_sync fails, the function returns
that error at once: the merge step does not run, so no page is reported to
the output sink, the acknowledge bitmap is left as it was, and no
write-acknowledge command is sent. -/
theorem C25_sync_read_failure_returns_early (cfg : Cfg) (env : SyncEnv)
    (s : pds_vfio_pci_device) (iova length off len : Nat)
    (hen : s.dirty.is_enabled = true)
    (hw : pds_vfio_dirty_sync_window s.dirty.region iova length = Except.ok (off, len))
    (hf : seq_ack_err cfg env.read (u32 off) (u32 len) ≠ 0) :
    (pds_vfio_dirty_sync cfg env s iova length).err =
      seq_ack_err cfg env.read (u32 off) (u32 len) ∧
    (∀ addr l, Event.iova_bitmap_set addr l ∉ (pds_vfio_dirty_sync cfg env s iova length).trace) ∧
    (∀ n o b, Event.dirty_seq_ack_cmd n o b false ∉
      (pds_vfio_dirty_sync cfg env s iova length).trace) ∧
    (pds_vfio_dirty_sync cfg env s iova length).dev.dirty.region.host_ack =
      s.dirty.region.host_ack :=
  sync_read_fails cfg env s iova length off len hen hw hf

/-- Witness for C25 (as amended): the full region of devEnabled64 with a read
command that the device refuses. -/
theorem C25_sync_read_failure_returns_early_witness :
    (pds_vfio_dirty_sync cfg4k syncReadFails devEnabled64 0x100000 (64 * 4096)).err =
      seq_ack_err cfg4k syncReadFails.read (u32 0) (u32 8) ∧
    (∀ addr l, Event.iova_bitmap_set addr l ∉
      (pds_vfio_dirty_sync cfg4k syncReadFails devEnabled64 0x100000 (64 * 4096)).trace) :=
  ⟨(C25_sync_read_failure_returns_early cfg4k syncReadFails devEnabled64 0x100000 (64 * 4096)
      0 8 rfl rfl (by decide)).1,
   (C25_sync_read_failure_returns_early cfg4k syncReadFails devEnabled64 0x100000 (64 * 4096)
      0 8 rfl rfl (by decide)).2.1⟩

/-- Counterexample to C25 as stated: in the state devEnabled64 a sync of the
full region whose read command the device refuses with -5, after writing the
bits of pages 0 and 9 to the sequence bitmap, returns -5 with the read command
as its only event: page 0, whose sequence bit now differs from its
acknowledge bit, is not reported, and the acknowledge bit is not updated. -/
theorem C25_sync_read_failure_counterexample :
    devEnabled64.dirty.is_enabled = true ∧
    pds_vfio_dirty_sync_window devEnabled64.dirty.region 0x100000 (64 * 4096) =
      Except.ok (0, 8) ∧
    (pds_vfio_dirty_sync cfg4k syncReadFails devEnabled64 0x100000 (64 * 4096)).err = -5 ∧
    (pds_vfio_dirty_sync cfg4k syncReadFails devEnabled64 0x100000 (64 * 4096)).trace =
      [Event.dirty_seq_ack_cmd 1 0 8 true] ∧
    (pds_vfio_dirty_sync cfg4k syncReadFails devEnabled64 0x100000
      (64 * 4096)).dev.dirty.region.host_seq.map (fun m => page_bit m 0) = some true ∧
    (pds_vfio_dirty_sync cfg4k syncReadFails devEnabled64 0x100000
      (64 * 4096)).dev.dirty.region.host_ack.map (fun m => page_bit m 0) = some false := by
  refine ⟨rfl, rfl, by decide, by decide, by decide, by decide⟩

theorem sync_no_set_of_synced (cfg : Cfg) (env : SyncEnv) (s : pds_vfio_pci_device)
    (iova length off len : Nat) (q k : Mem)
    (hen : s.dirty.is_enabled = true)
    (hw : pds_vfio_dirty_sync_window s.dirty.region iova length = Except.ok (off, len))
    (hq : s.dirty.region.host_seq = some q) (hk : s.dirty.region.host_ack = some k)
    (hsame : ∀ a, u32 off ≤ a → a < u32 off + 8 * (u32 len / 8) → k a = q a)
    (hdev : ∀ a, u32 off ≤ a → a < u32 off + u32 len → env.read.dev_seq a = q a) :
    ∀ addr l, Event.iova_bitmap_set addr l ∉ (pds_vfio_dirty_sync cfg env s iova length).trace := by
  have hl : u32 len < 2 ^ 32 := Nat.mod_lt _ (by norm_num)
  have hfill : dma_fill env.read (u32 off) (u32 len) q = q := by
    funext a
    unfold dma_fill
    by_cases hin : u32 off ≤ a ∧ a < u32 off + u32 len
    · simp only [hin, and_self, if_true]
      exact hdev a hin.1 hin.2
    · simp only [hin, if_false]
  have hs2 : (region_after_read env.read s.dirty.region (u32 off) (u32 len)).host_seq =
      some q := by
    simp [region_after_read, hq, hfill]
  have ha2 : (region_after_read env.read s.dirty.region (u32 off) (u32 len)).host_ack =
      some k := by
    simp [region_after_read, hk]
  have hproc : (pds_vfio_dirty_process_bitmaps
      (region_after_read env.read s.dirty.region (u32 off) (u32 len))
      (u32 off) (u32 len)).2.2 = [] := by
    rw [process_bitmaps_eq _ q k (u32 off) (u32 len) hs2 ha2 hl]
    apply merger_calls_nil
    intro i hi
    apply le64_to_cpu_at_congr
    intro a h1 h2
    exact (hsame a (by omega) (by omega)).symm
  cases hr : seq_ack_issued cfg env.read (u32 off) (u32 len) with
  | false =>
    obtain ⟨e, _, heq⟩ := sync_read_not_issued cfg env s iova length off len hen hw hr
    rw [heq]
    exact fun addr l h => by simp at h
  | true =>
    by_cases hc : env.read.cmd_err = 0
    · cases hwi : seq_ack_issued cfg env.write (u32 off) (u32 len) with
      | false =>
        obtain ⟨e, _, heq⟩ :=
          sync_write_not_issued cfg env s iova length off len hen hw hr hc hwi
        rw [heq, hproc]
        exact fun addr l h => by simp at h
      | true =>
        rw [sync_write_issued cfg env s iova length off len hen hw hr hc hwi, hproc]
        exact fun addr l h => by simp at h
    · rw [sync_read_failed cfg env s iova length off len hen hw hr hc]
      exact fun addr l h => by simp at h

theorem sync_read_ok (cfg : Cfg) (env : SyncEnv) (s : pds_vfio_pci_device)
    (iova length off len : Nat) (seq ack : Mem)
    (hen : s.dirty.is_enabled = true)
    (hw : pds_vfio_dirty_sync_window s.dirty.region iova length = Except.ok (off, len))
    (hseq : s.dirty.region.host_seq = some seq) (hack : s.dirty.region.host_ack = some ack)
    (hread : seq_ack_err cfg env.read (u32 off) (u32 len) = 0) :
    (pds_vfio_dirty_sync cfg env s iova length).err =
      seq_ack_err cfg env.write (u32 off) (u32 len) ∧
    (pds_vfio_dirty_sync cfg env s iova length).trace =
      [Event.dirty_seq_ack_cmd (u16 (u32 env.read.sg.length)) (u32 off) (u32 len) true] ++
      merger_calls (code_addr s.dirty.region (u32 off)) s.dirty.region.page_size
        (dma_fill env.read (u32 off) (u32 len) seq) ack (u32 off) (u32 len / 8) ++
      (if seq_ack_issued cfg env.write (u32 off) (u32 len) = true then
        [Event.dirty_seq_ack_cmd (u16 (u32 env.write.sg.length)) (u32 off) (u32 len) false]
       else []) ∧
    (pds_vfio_dirty_sync cfg env s iova length).dev.dirty.region.host_seq =
      some (dma_fill env.read (u32 off) (u32 len) seq) ∧
    (pds_vfio_dirty_sync cfg env s iova length).dev.dirty.region.host_ack =
      some (fun a => if u32 off ≤ a ∧ a < u32 off + 8 * (u32 len / 8)
        then dma_fill env.read (u32 off) (u32 len) seq a else ack a) := by
  have hl : u32 len < 2 ^ 32 := Nat.mod_lt _ (by norm_num)
  obtain ⟨hr, hc⟩ := seq_ack_ok cfg env.read (u32 off) (u32 len) hread
  have hs1 : (region_after_read env.read s.dirty.region (u32 off) (u32 len)).host_seq =
      some (dma_fill env.read (u32 off) (u32 len) seq) := by
    simp [region_after_read, hseq]
  have ha1 : (region_after_read env.read s.dirty.region (u32 off) (u32 len)).host_ack =
      some ack := by
    simp [region_after_read, hack]
  have hp := process_bitmaps_eq _ _ _ (u32 off) (u32 len) hs1 ha1 hl
  refine ⟨?_, ?_⟩
  · rw [sync_err_eq cfg env s iova length off len hen hw]
    simp [hread]
  · cases hwi : seq_ack_issued cfg env.write (u32 off) (u32 len) with
    | false =>
      obtain ⟨e, _, heq⟩ :=
        sync_write_not_issued cfg env s iova length off len hen hw hr hc hwi
      rw [heq, hp]
      refine ⟨?_, hs1, rfl⟩
      simp only [Bool.false_eq_true, if_false, List.append_nil]
      rfl
    | true =>
      rw [sync_write_issued cfg env s iova length off len hen hw hr hc hwi, hp]
      refine ⟨?_, hs1, rfl⟩
      simp only [if_true]
      rfl

/-- C27: for every enabled region with allocated bitmaps and every accepted
window, if the read-sequence round trip succeeds and the write-acknowledge
round trip fails, pds_vfio_dirty_sync returns the write-acknowledge error
after it has reported the changed pages of the window to the output sink and
overwritten the acknowledge bitmap with the sequence bitmap on the window; a
subsequent pds_vfio_dirty_sync over the same window, with the device reporting
the same sequence bytes, makes no call of the output sink. -/
theorem C27_sync_write_ack_failure (cfg : Cfg) (env env2 : SyncEnv) (s : pds_vfio_pci_device)
    (iova length off len : Nat) (seq ack : Mem)
    (hen : s.dirty.is_enabled = true)
    (hw : pds_vfio_dirty_sync_window s.dirty.region iova length = Except.ok (off, len))
    (hseq : s.dirty.region.host_seq = some seq) (hack : s.dirty.region.host_ack = some ack)
    (hread : seq_ack_err cfg env.read (u32 off) (u32 len) = 0)
    (hwrite : seq_ack_err cfg env.write (u32 off) (u32 len) ≠ 0)
    (hdev : ∀ a, u32 off ≤ a → a < u32 off + u32 len →
      env2.read.dev_seq a = env.read.dev_seq a) :
    (pds_vfio_dirty_sync cfg env s iova length).err =
      seq_ack_err cfg env.write (u32 off) (u32 len) ∧
    (pds_vfio_dirty_sync cfg env s iova length).err ≠ 0 ∧
    (pds_vfio_dirty_sync cfg env s iova length).trace =
      [Event.dirty_seq_ack_cmd (u16 (u32 env.read.sg.length)) (u32 off) (u32 len) true] ++
      merger_calls (code_addr s.dirty.region (u32 off)) s.dirty.region.page_size
        (dma_fill env.read (u32 off) (u32 len) seq) ack (u32 off) (u32 len / 8) ++
      (if seq_ack_issued cfg env.write (u32 off) (u32 len) = true then
        [Event.dirty_seq_ack_cmd (u16 (u32 env.write.sg.length)) (u32 off) (u32 len) false]
       else []) ∧
    (pds_vfio_dirty_sync cfg env s iova length).dev.dirty.region.host_ack =
      some (fun a => if u32 off ≤ a ∧ a < u32 off + 8 * (u32 len / 8)
        then dma_fill env.read (u32 off) (u32 len) seq a else ack a) ∧
    (∀ addr l, Event.iova_bitmap_set addr l ∉
      (pds_vfio_dirty_sync cfg env2 (pds_vfio_dirty_sync cfg env s iova length).dev
        iova length).trace) := by
  obtain ⟨h1, h2, h3, h4⟩ :=
    sync_read_ok cfg env s iova length off len seq ack hen hw hseq hack hread
  refine ⟨h1, by rw [h1]; exact hwrite, h2, h4, ?_⟩
  have hfr := sync_frame cfg env s iova length
  have hen2 : (pds_vfio_dirty_sync cfg env s iova length).dev.dirty.is_enabled = true := by
    rw [hfr.1]
    exact hen
  have hw2 : pds_vfio_dirty_sync_window (pds_vfio_dirty_sync cfg env s iova length).dev.dirty.region
      iova length = Except.ok (off, len) := by
    rw [← hw]
    exact sync_window_congr _ _ iova length hfr.2.2.2.1 hfr.2.1 hfr.2.2.1 hfr.2.2.2.2.1
  apply sync_no_set_of_synced cfg env2 _ iova length off len _ _ hen2 hw2 h3 h4
  · intro a ha1 ha2
    simp only [ha1, ha2, and_self, if_true]
  · intro a ha1 ha2
    rw [hdev a ha1 ha2]
    unfold dma_fill
    simp only [ha1, ha2, and_self, if_true]

/-- Witness for C27: the full region of devEnabled64 with a write command that
the device refuses, followed by a sync with the same device answers. -/
theorem C27_sync_write_ack_failure_witness :
    (pds_vfio_dirty_sync cfg4k syncWriteFails devEnabled64 0x100000 (64 * 4096)).err ≠ 0 ∧
    (∀ addr l, Event.iova_bitmap_set addr l ∉
      (pds_vfio_dirty_sync cfg4k okSync
        (pds_vfio_dirty_sync cfg4k syncWriteFails devEnabled64 0x100000 (64 * 4096)).dev
        0x100000 (64 * 4096)).trace) :=
  ⟨(C27_sync_write_ack_failure cfg4k syncWriteFails okSync devEnabled64 0x100000 (64 * 4096)
      0 8 zeroed zeroed rfl rfl rfl rfl (by decide) (by decide) (fun _ _ _ => rfl)).2.1,
   (C27_sync_write_ack_failure cfg4k syncWriteFails okSync devEnabled64 0x100000 (64 * 4096)
      0 8 zeroed zeroed rfl rfl rfl rfl (by decide) (by decide) (fun _ _ _ => rfl)).2.2.2.2⟩

/-! ## Exact form of the size check of pds_vfio_dirty_sync -/

theorem sync_sizes_exact (ps length : Nat) (hps : 0 < ps) (hlen : 0 < length)
    (hov1 : length + ps - 1 < 2 ^ 64) (hov2 : 2 ≤ ps ∨ length + 64 ≤ 2 ^ 64) :
    (sync_bmp_bytes ps length ≠ sync_bitmap_size ps length ↔
      (length % ps ≠ 0 ∧ (length / ps) % 64 = 0)) ∧
    (¬ (length % ps ≠ 0 ∧ (length / ps) % 64 = 0) →
      sync_bitmap_size ps length = 8 * (((length + ps - 1) / ps + 63) / 64) ∧
      sync_bmp_bytes ps length = 8 * (((length + ps - 1) / ps + 63) / 64)) := by
  have hdm := Nat.div_add_mod length ps
  have hr := Nat.mod_lt length hps
  have hqle : length / ps ≤ length := Nat.div_le_self _ _
  have hq64 : length / ps + 64 ≤ 2 ^ 64 := by
    rcases hov2 with h2 | h2
    · have : length / ps * 2 ≤ length := by
        have h3 : length / ps * 2 ≤ length / ps * ps := Nat.mul_le_mul_left _ h2
        have h4 : length / ps * ps = ps * (length / ps) := Nat.mul_comm _ _
        omega
      omega
    · omega
  have hcpos : 0 < (length + ps - 1) / ps := Nat.div_pos (by omega) hps
  have hcc := ceil_div_cases length ps hps
  have hc64 : (length + ps - 1) / ps + 64 ≤ 2 ^ 64 := by
    rcases hov2 with h2 | h2
    · have h5 : (length + ps - 1) / ps * 2 ≤ length + ps - 1 := by
        have h3 : (length + ps - 1) / ps * 2 ≤ (length + ps - 1) / ps * ps :=
          Nat.mul_le_mul_left _ h2
        have h4 := Nat.div_mul_le_self (length + ps - 1) ps
        omega
      omega
    · rcases Nat.eq_zero_or_pos (length % ps) with h0 | h0
      · rw [hcc.1 h0]
        omega
      · rw [hcc.2 (by omega)]
        have : length / ps < length := by
          have h3 : ps * (length / ps) ≥ length / ps := Nat.le_mul_of_pos_left _ hps
          omega
        omega
  have hA : sync_bitmap_size ps length = (((length + ps - 1) / ps - 1) / 64 + 1) * 8 := by
    unfold sync_bitmap_size
    simp only [BITS_PER_BYTE]
    rw [DIV_ROUND_UP_eq (by omega) hov1]
    have e : (8 : Nat) * 8 = 64 := rfl
    rw [e, round_up_64_eq hcpos hc64]
    omega
  have hB : sync_bmp_bytes ps length = ((length / ps + 7) / 8 + 7) / 8 * 8 := by
    unfold sync_bmp_bytes
    generalize length / ps = q at hq64 ⊢
    rw [DIV_ROUND_UP_eq (by omega) (by omega), ALIGN_8_eq (by omega)]
    have e : q + 8 - 1 = q + 7 := by omega
    rw [e]
  have hqpos : 0 < length / ps ∨ length % ps ≠ 0 := by
    rcases Nat.eq_zero_or_pos (length / ps) with h0 | h0
    · right
      intro hm
      rw [h0, hm] at hdm
      omega
    · exact Or.inl h0
  rw [hA, hB]
  rcases Nat.eq_zero_or_pos (length % ps) with h0 | h0
  · rw [hcc.1 h0]
    generalize length / ps = q at hqpos ⊢
    generalize length % ps = r at hqpos h0 ⊢
    constructor
    · constructor
      · intro h
        omega
      · intro h
        omega
    · intro _
      omega
  · rw [hcc.2 (by omega)]
    generalize length / ps = q at hqpos ⊢
    generalize length % ps = r at hqpos h0 ⊢
    constructor
    · constructor
      · intro h
        refine ⟨by omega, ?_⟩
        by_contra h64
        omega
      · intro h
        omega
    · intro h
      have : q % 64 ≠ 0 := fun h6 => h ⟨by omega, h6⟩
      omega

theorem sync_window_exact (region : pds_vfio_region) (iova length : Nat)
    (hps : 0 < region.page_size)
    (hov1 : length + region.page_size - 1 < 2 ^ 64)
    (hov2 : 2 ≤ region.page_size ∨ length + 64 ≤ 2 ^ 64) :
    pds_vfio_dirty_sync_window region iova length =
      if length = 0 ∨ u64 (sub64 iova region.start + length) > region.size then
        Except.error (- EINVAL)
      else if length % region.page_size ≠ 0 ∧ (length / region.page_size) % 64 = 0 then
        Except.error (- EINVAL)
      else if 8 * (((length + region.page_size - 1) / region.page_size + 63) / 64) >
          region.bmp_bytes then
        Except.error (- EINVAL)
      else
        Except.ok (DIV_ROUND_UP (sub64 iova region.start / region.page_size) 8,
          8 * (((length + region.page_size - 1) / region.page_size + 63) / 64)) := by
  unfold pds_vfio_dirty_sync_window
  simp only
  by_cases h1 : length = 0 ∨ u64 (sub64 iova region.start + length) > region.size
  · rw [if_pos h1, if_pos h1]
  · rw [if_neg h1, if_neg h1]
    have hlen : 0 < length := by
      rcases Nat.eq_zero_or_pos length with h | h
      · exact absurd (Or.inl h) h1
      · exact h
    obtain ⟨hiff, hval⟩ := sync_sizes_exact region.page_size length hps hlen hov1 hov2
    by_cases hc : length % region.page_size ≠ 0 ∧ (length / region.page_size) % 64 = 0
    · rw [if_pos (hiff.mpr hc), if_pos hc]
    · have hne : ¬ (sync_bmp_bytes region.page_size length ≠
          sync_bitmap_size region.page_size length) := fun h => hc (hiff.mp h)
      rw [if_neg hne, if_neg hc, (hval hc).2]

/-- C28 (as amended): for every page_size > 0 and every length > 0 with no
64-bit overflow in length + page_size - 1 and, when page_size = 1, none in
rounding the page count up to a multiple of 64 (length + 64 <= 2^64), the two
window-size formulas of pds_vfio_dirty_sync differ if and only if length is
not a multiple of page_size and floor(length / page_size) is a multiple of 64
(including 0); otherwise both equal 8 * ceil(ceil(length / page_size) / 64).
On a region with that page size the validation is then: -EINVAL from the
bounds check, else -EINVAL from the mismatch check exactly in the case above,
else -EINVAL when the common size exceeds region.bmp_bytes, else the window
is accepted with that size; an enabled pds_vfio_dirty_sync that passes the
bounds check and meets the case above returns -EINVAL with no event and the
state unchanged. -/
theorem C28_sync_size_check_exact (page_size length : Nat) (hps : 0 < page_size)
    (hlen : 0 < length) (hov1 : length + page_size - 1 < 2 ^ 64)
    (hov2 : 2 ≤ page_size ∨ length + 64 ≤ 2 ^ 64) :
    (sync_bmp_bytes page_size length ≠ sync_bitmap_size page_size length ↔
      (length % page_size ≠ 0 ∧ (length / page_size) % 64 = 0)) ∧
    (¬ (length % page_size ≠ 0 ∧ (length / page_size) % 64 = 0) →
      sync_bitmap_size page_size length = 8 * (((length + page_size - 1) / page_size + 63) / 64) ∧
      sync_bmp_bytes page_size length = 8 * (((length + page_size - 1) / page_size + 63) / 64)) ∧
    (∀ (region : pds_vfio_region) (iova : Nat), region.page_size = page_size →
      pds_vfio_dirty_sync_window region iova length =
        if u64 (sub64 iova region.start + length) > region.size then Except.error (- EINVAL)
        else if length % page_size ≠ 0 ∧ (length / page_size) % 64 = 0 then
          Except.error (- EINVAL)
        else if 8 * (((length + page_size - 1) / page_size + 63) / 64) > region.bmp_bytes then
          Except.error (- EINVAL)
        else
          Except.ok (DIV_ROUND_UP (sub64 iova region.start / page_size) 8,
            8 * (((length + page_size - 1) / page_size + 63) / 64))) ∧
    (∀ (cfg : Cfg) (env : SyncEnv) (s : pds_vfio_pci_device) (iova : Nat),
      s.dirty.is_enabled = true → s.dirty.region.page_size = page_size →
      ¬ u64 (sub64 iova s.dirty.region.start + length) > s.dirty.region.size →
      (length % page_size ≠ 0 ∧ (length / page_size) % 64 = 0) →
      pds_vfio_dirty_sync cfg env s iova length = ⟨- EINVAL, s, []⟩) := by
  have hl0 : length ≠ 0 := by omega
  obtain ⟨h1, h2⟩ := sync_sizes_exact page_size length hps hlen hov1 hov2
  have h3 : ∀ (region : pds_vfio_region) (iova : Nat), region.page_size = page_size →
      pds_vfio_dirty_sync_window region iova length =
        if u64 (sub64 iova region.start + length) > region.size then Except.error (- EINVAL)
        else if length % page_size ≠ 0 ∧ (length / page_size) % 64 = 0 then
          Except.error (- EINVAL)
        else if 8 * (((length + page_size - 1) / page_size + 63) / 64) > region.bmp_bytes then
          Except.error (- EINVAL)
        else
          Except.ok (DIV_ROUND_UP (sub64 iova region.start / page_size) 8,
            8 * (((length + page_size - 1) / page_size + 63) / 64)) := by
    intro region iova hp
    subst hp
    rw [sync_window_exact region iova length hps hov1 hov2]
    simp only [hl0, false_or]
  refine ⟨h1, h2, h3, ?_⟩
  intro cfg env s iova hen hp hb hc
  apply sync_window_error cfg env s iova length (- EINVAL) hen
  rw [h3 s.dirty.region iova hp, if_neg hb, if_pos hc]

/-- Witness for C28 (as amended): pages of 4096 bytes and a window of one
page and a half. -/
theorem C28_sync_size_check_exact_witness :
    (sync_bmp_bytes 4096 6144 ≠ sync_bitmap_size 4096 6144 ↔
      (6144 % 4096 ≠ 0 ∧ (6144 / 4096) % 64 = 0)) :=
  (C28_sync_size_check_exact 4096 6144 (by decide) (by decide) (by decide)
    (Or.inl (by decide))).1

/-- Counterexample to C28 as stated: with page_size = 1 and
length = 2^64 - 8 there is no overflow in length + page_size - 1 and length is
a multiple of page_size, but rounding the page count up to a multiple of 64
wraps to 0, so the first formula gives 0 bytes and the second 2^61: the
formulas differ although the stated condition does not hold. -/
theorem C28_sync_size_check_counterexample :
    (2 ^ 64 - 8) + 1 - 1 < 2 ^ 64 ∧ (2 ^ 64 - 8) % 1 = 0 ∧
    sync_bitmap_size 1 (2 ^ 64 - 8) = 0 ∧ sync_bmp_bytes 1 (2 ^ 64 - 8) = 2 ^ 61 ∧
    sync_bmp_bytes 1 (2 ^ 64 - 8) ≠ sync_bitmap_size 1 (2 ^ 64 - 8) := by
  decide

/-! ## Sync: the scatter list and the reported pages -/

theorem merger_calls_mem (f : Nat → Nat → Nat) (ps : Nat) (seq ack : Mem) (off : Nat) :
    ∀ n ev, ev ∈ merger_calls f ps seq ack off n →
      ∃ i b, i < n ∧ b < 64 ∧ ev = Event.iova_bitmap_set (f i b) ps
  | 0, ev, h => by simp [merger_calls] at h
  | n + 1, ev, h => by
    simp only [merger_calls, List.mem_append] at h
    rcases h with h | h
    · obtain ⟨i, b, hi, hb, he⟩ := merger_calls_mem f ps seq ack off n ev h
      exact ⟨i, b, by omega, hb, he⟩
    · unfold merger_word_calls at h
      rw [List.mem_filterMap] at h
      obtain ⟨b, hb, he⟩ := h
      refine ⟨n, b, by omega, List.mem_range.mp hb, ?_⟩
      by_cases hx : (le64_to_cpu_at seq (off + 8 * n) ^^^
          le64_to_cpu_at ack (off + 8 * n)).testBit b = true
      · rw [if_pos hx] at he
        exact (Option.some.inj he).symm
      · rw [if_neg hx] at he
        exact Option.noConfusion he

theorem process_bitmaps_mem (region : pds_vfio_region) (o l : Nat) (hl : l < 2 ^ 32)
    (ev : Event) (h : ev ∈ (pds_vfio_dirty_process_bitmaps region o l).2.2) :
    ∃ i b, i < l / 8 ∧ b < 64 ∧
      ev = Event.iova_bitmap_set (code_addr region o i b) region.page_size := by
  cases hs : region.host_seq with
  | none =>
    rw [process_bitmaps_of_null region o l (Or.inl hs)] at h
    simp at h
  | some seq =>
    cases ha : region.host_ack with
    | none =>
      rw [process_bitmaps_of_null region o l (Or.inr ha)] at h
      simp at h
    | some ack =>
      rw [process_bitmaps_eq region seq ack o l hs ha hl] at h
      exact merger_calls_mem _ _ _ _ _ _ ev h

theorem sync_set_mem_process (cfg : Cfg) (env : SyncEnv) (s : pds_vfio_pci_device)
    (iova length off len : Nat) (hen : s.dirty.is_enabled = true)
    (hw : pds_vfio_dirty_sync_window s.dirty.region iova length = Except.ok (off, len))
    (addr l : Nat)
    (h : Event.iova_bitmap_set addr l ∈ (pds_vfio_dirty_sync cfg env s iova length).trace) :
    Event.iova_bitmap_set addr l ∈ (pds_vfio_dirty_process_bitmaps
      (region_after_read env.read s.dirty.region (u32 off) (u32 len)) (u32 off) (u32 len)).2.2 := by
  cases hr : seq_ack_issued cfg env.read (u32 off) (u32 len) with
  | false =>
    obtain ⟨e, _, heq⟩ := sync_read_not_issued cfg env s iova length off len hen hw hr
    rw [heq] at h
    simp at h
  | true =>
    by_cases hc : env.read.cmd_err = 0
    · cases hwi : seq_ack_issued cfg env.write (u32 off) (u32 len) with
      | false =>
        obtain ⟨e, _, heq⟩ :=
          sync_write_not_issued cfg env s iova length off len hen hw hr hc hwi
        rw [heq] at h
        simpa using h
      | true =>
        rw [sync_write_issued cfg env s iova length off len hen hw hr hc hwi] at h
        simpa using h
    · rw [sync_read_failed cfg env s iova length off len hen hw hr hc] at h
      simp at h

theorem sync_set_form (cfg : Cfg) (env : SyncEnv) (s : pds_vfio_pci_device)
    (iova length off len : Nat) (hen : s.dirty.is_enabled = true)
    (hw : pds_vfio_dirty_sync_window s.dirty.region iova length = Except.ok (off, len))
    (addr l : Nat)
    (h : Event.iova_bitmap_set addr l ∈ (pds_vfio_dirty_sync cfg env s iova length).trace) :
    l = s.dirty.region.page_size ∧
    ∃ i b, i < u32 len / 8 ∧ b < 64 ∧ addr = code_addr s.dirty.region (u32 off) i b := by
  have hl : u32 len < 2 ^ 32 := Nat.mod_lt _ (by norm_num)
  obtain ⟨i, b, hi, hb, he⟩ := process_bitmaps_mem _ _ _ hl _
    (sync_set_mem_process cfg env s iova length off len hen hw addr l h)
  have he2 := Event.iova_bitmap_set.inj he
  exact ⟨he2.2, i, b, hi, hb, he2.1⟩

theorem window_offset_ge (region : pds_vfio_region) (iova length off len : Nat)
    (hw : pds_vfio_dirty_sync_window region iova length = Except.ok (off, len))
    (hstart : region.start ≤ iova) (hiova : iova + 8 ≤ 2 ^ 64) :
    off = ((iova - region.start) / region.page_size + 7) / 8 := by
  obtain ⟨_, _, _, _, _, ho⟩ := sync_window_ok region iova length off len hw
  rw [ho, sub64_of_le hstart (by omega)]
  have hle : (iova - region.start) / region.page_size ≤ iova - region.start :=
    Nat.div_le_self _ _
  generalize (iova - region.start) / region.page_size = idx at hle ⊢
  rw [DIV_ROUND_UP_eq (by omega) (by omega)]
  have e : idx + 8 - 1 = idx + 7 := by omega
  rw [e]

/-- C29 (as amended): for every enabled region and accepted window with byte
window (bmp_offset, bmp_bytes), every call of the output sink made by
pds_vfio_dirty_sync is set(addr, page_size) with addr the address of bit b of
the 64-bit word i of the byte window, i < bmp_bytes / 8 and b < 64; when
nothing wraps (region.start <= iova, bmp_offset * 8 < 2^32, bmp_bytes < 2^32
and the pages of the byte window lie below 2^64) that address is at least
region.start + floor((iova - region.start) / page_size) * page_size, which is
iova when iova is page-aligned relative to region.start, and
addr + page_size <= region.start + (8 * bmp_offset + 8 * bmp_bytes) *
page_size: the reported pages are those of whole 64-bit words of the bitmap
from byte bmp_offset on, which may lie past iova + length. -/
theorem C29_sync_reports_pages_of_word_window (cfg : Cfg) (env : SyncEnv)
    (s : pds_vfio_pci_device) (iova length off len addr l : Nat)
    (hen : s.dirty.is_enabled = true)
    (hw : pds_vfio_dirty_sync_window s.dirty.region iova length = Except.ok (off, len))
    (hmem : Event.iova_bitmap_set addr l ∈ (pds_vfio_dirty_sync cfg env s iova length).trace) :
    l = s.dirty.region.page_size ∧
    (∃ i b, i < u32 len / 8 ∧ b < 64 ∧ addr = code_addr s.dirty.region (u32 off) i b) ∧
    (0 < s.dirty.region.page_size → s.dirty.region.start ≤ iova → iova + 8 ≤ 2 ^ 64 →
      off * 8 < 2 ^ 32 → len < 2 ^ 32 →
      s.dirty.region.start + (8 * off + 8 * len) * s.dirty.region.page_size ≤ 2 ^ 64 →
      s.dirty.region.start ≤ addr ∧
      s.dirty.region.start +
        (iova - s.dirty.region.start) / s.dirty.region.page_size * s.dirty.region.page_size ≤
        addr ∧
      ((iova - s.dirty.region.start) % s.dirty.region.page_size = 0 → iova ≤ addr) ∧
      addr + s.dirty.region.page_size ≤
        s.dirty.region.start + (8 * off + 8 * len) * s.dirty.region.page_size) := by
  obtain ⟨h1, i, b, hi, hb, ha⟩ := sync_set_form cfg env s iova length off len hen hw addr l hmem
  refine ⟨h1, ⟨i, b, hi, hb, ha⟩, ?_⟩
  intro hps hstart hiova hoff hlen hfit
  have ho32 : u32 off = off := u32_of_lt (by omega)
  have hl32 : u32 len = len := u32_of_lt hlen
  rw [ho32] at ha
  rw [hl32] at hi
  have hoffeq := window_offset_ge s.dirty.region iova length off len hw hstart hiova
  have hbit : off * 8 + i * 64 + b < 8 * off + 8 * len := by omega
  have hmul := Nat.mul_lt_mul_of_pos_right hbit hps
  have hadd : (8 * off + 8 * len) * s.dirty.region.page_size =
      (off * 8 + i * 64 + b + (8 * off + 8 * len - (off * 8 + i * 64 + b))) *
        s.dirty.region.page_size := by
    congr 1
    omega
  have hsucc : (off * 8 + i * 64 + b + 1) * s.dirty.region.page_size ≤
      (8 * off + 8 * len) * s.dirty.region.page_size :=
    Nat.mul_le_mul_right _ (by omega)
  rw [Nat.add_mul, Nat.one_mul] at hsucc
  have haddr : addr = s.dirty.region.start +
      (off * 8 + i * 64 + b) * s.dirty.region.page_size := by
    rw [ha]
    unfold code_addr
    rw [Nat.mod_eq_of_lt hoff]
    apply Nat.mod_eq_of_lt
    omega
  have hidx : (iova - s.dirty.region.start) / s.dirty.region.page_size ≤
      off * 8 + i * 64 + b := by
    rw [hoffeq]
    omega
  have hlow := Nat.mul_le_mul_right s.dirty.region.page_size hidx
  refine ⟨by omega, by omega, ?_, by omega⟩
  intro hal
  have hdm := Nat.div_add_mod (iova - s.dirty.region.start) s.dirty.region.page_size
  rw [hal, Nat.add_zero, Nat.mul_comm] at hdm
  omega

/-- Witness for C29 (as amended): the one-page window at the start of the
region of devEnabled128 and the call for page 9. -/
theorem C29_sync_reports_pages_of_word_window_witness :
    4096 = devEnabled128.dirty.region.page_size ∧
    devEnabled128.dirty.region.start ≤ 9 * 4096 ∧
    9 * 4096 + devEnabled128.dirty.region.page_size ≤
      devEnabled128.dirty.region.start +
        (8 * 0 + 8 * 8) * devEnabled128.dirty.region.page_size :=
  ⟨(C29_sync_reports_pages_of_word_window cfg4k okSync devEnabled128 0 4096 0 8 (9 * 4096) 4096
      rfl rfl (by decide)).1,
   ((C29_sync_reports_pages_of_word_window cfg4k okSync devEnabled128 0 4096 0 8 (9 * 4096) 4096
      rfl rfl (by decide)).2.2 (by decide) (by decide) (by decide) (by decide) (by decide)
      (by decide)).1,
   ((C29_sync_reports_pages_of_word_window cfg4k okSync devEnabled128 0 4096 0 8 (9 * 4096) 4096
      rfl rfl (by decide)).2.2 (by decide) (by decide) (by decide) (by decide) (by decide)
      (by decide)).2.2.2⟩

/-- Counterexample to C29 as stated: in the state devEnabled128 (128 pages from
address 0) the window iova = 0, length = 4096 is the first page only; the
sync is accepted, diffs the whole first 64-bit word and reports page 9, at
address 9 * 4096, which lies past iova + length. -/
theorem C29_sync_reports_outside_window_counterexample :
    devEnabled128.dirty.is_enabled = true ∧
    pds_vfio_dirty_sync_window devEnabled128.dirty.region 0 4096 = Except.ok (0, 8) ∧
    (pds_vfio_dirty_sync cfg4k okSync devEnabled128 0 4096).err = 0 ∧
    (pds_vfio_dirty_sync cfg4k okSync devEnabled128 0 4096).trace =
      [Event.dirty_seq_ack_cmd 1 0 8 true,
       Event.iova_bitmap_set 0 4096, Event.iova_bitmap_set (9 * 4096) 4096,
       Event.dirty_seq_ack_cmd 1 0 8 false] ∧
    ¬ (9 * 4096 + 4096 ≤ 0 + 4096) := by
  refine ⟨rfl, rfl, by decide, by decide, by decide⟩

/-! ## Sync: completeness of the report -/

theorem le64_testBit (m : Mem) (o b : Nat) (hb : b < 64) :
    (le64_to_cpu_at m o).testBit b = (m (o + b / 8) % 256).testBit (b % 8) := by
  have hx : ∀ k, m (o + k) % 256 < 2 ^ 8 := fun k => Nat.mod_lt _ (by norm_num)
  have hx0 : m o % 256 < 2 ^ 8 := Nat.mod_lt _ (by norm_num)
  have e : le64_to_cpu_at m o =
      2 ^ 8 * (2 ^ 8 * (2 ^ 8 * (2 ^ 8 * (2 ^ 8 * (2 ^ 8 * (2 ^ 8 * (m (o + 7) % 256) +
        m (o + 6) % 256) + m (o + 5) % 256) + m (o + 4) % 256) + m (o + 3) % 256) +
        m (o + 2) % 256) + m (o + 1) % 256) + m o % 256 := by
    unfold le64_to_cpu_at
    ring
  rw [e, Nat.testBit_mul_pow_two_add _ hx0, Nat.testBit_mul_pow_two_add _ (hx 1),
    Nat.testBit_mul_pow_two_add _ (hx 2), Nat.testBit_mul_pow_two_add _ (hx 3),
    Nat.testBit_mul_pow_two_add _ (hx 4), Nat.testBit_mul_pow_two_add _ (hx 5),
    Nat.testBit_mul_pow_two_add _ (hx 6)]
  split_ifs with h1 h2 h3 h4 h5 h6 h7
  · have e1 : b / 8 = 0 := by omega
    rw [e1, Nat.add_zero]
    congr 1
    omega
  · have e1 : b / 8 = 1 := by omega
    rw [e1]
    congr 1
    omega
  · have e1 : b / 8 = 2 := by omega
    rw [e1]
    congr 1
    omega
  · have e1 : b / 8 = 3 := by omega
    rw [e1]
    congr 1
    omega
  · have e1 : b / 8 = 4 := by omega
    rw [e1]
    congr 1
    omega
  · have e1 : b / 8 = 5 := by omega
    rw [e1]
    congr 1
    omega
  · have e1 : b / 8 = 6 := by omega
    rw [e1]
    congr 1
    omega
  · have e1 : b / 8 = 7 := by omega
    rw [e1]
    congr 1
    omega

theorem page_bit_eq (m : Mem) (p : Nat) :
    page_bit m p = (m (p / 8) % 256).testBit (p % 8) := by
  unfold page_bit
  rw [le64_testBit m _ _ (Nat.mod_lt _ (by norm_num))]
  have e1 : 8 * (p / 64) + p % 64 / 8 = p / 8 := by omega
  have e2 : p % 64 % 8 = p % 8 := by omega
  rw [e1, e2]

theorem le64_testBit_page (m : Mem) (o b : Nat) (hb : b < 64) :
    (le64_to_cpu_at m o).testBit b = page_bit m (8 * o + b) := by
  rw [le64_testBit m o b hb, page_bit_eq]
  have e1 : (8 * o + b) / 8 = o + b / 8 := by omega
  have e2 : (8 * o + b) % 8 = b % 8 := by omega
  rw [e1, e2]

theorem merger_calls_mem_of_bit (f : Nat → Nat → Nat) (ps : Nat) (seq ack : Mem) (off : Nat) :
    ∀ n i b, i < n → b < 64 →
      (le64_to_cpu_at seq (off + 8 * i) ^^^ le64_to_cpu_at ack (off + 8 * i)).testBit b = true →
      Event.iova_bitmap_set (f i b) ps ∈ merger_calls f ps seq ack off n
  | 0, i, b, hi, _, _ => absurd hi (Nat.not_lt_zero i)
  | n + 1, i, b, hi, hb, hx => by
    simp only [merger_calls, List.mem_append]
    by_cases hin : i < n
    · exact Or.inl (merger_calls_mem_of_bit f ps seq ack off n i b hin hb hx)
    · have hi2 : i = n := by omega
      subst hi2
      right
      unfold merger_word_calls
      rw [List.mem_filterMap]
      exact ⟨b, List.mem_range.mpr hb, by rw [if_pos hx]⟩

theorem sync_ok_round_trips (cfg : Cfg) (env : SyncEnv) (s : pds_vfio_pci_device)
    (iova length off len : Nat) (hen : s.dirty.is_enabled = true)
    (hw : pds_vfio_dirty_sync_window s.dirty.region iova length = Except.ok (off, len))
    (hok : (pds_vfio_dirty_sync cfg env s iova length).err = 0) :
    seq_ack_err cfg env.read (u32 off) (u32 len) = 0 ∧
    seq_ack_err cfg env.write (u32 off) (u32 len) = 0 := by
  rw [sync_err_eq cfg env s iova length off len hen hw] at hok
  by_cases h1 : seq_ack_err cfg env.read (u32 off) (u32 len) = 0
  · rw [if_neg (not_not.mpr h1)] at hok
    exact ⟨h1, hok⟩
  · rw [if_pos h1] at hok
    exact absurd hok h1

theorem sync_reports_changed_page (cfg : Cfg) (env : SyncEnv) (s : pds_vfio_pci_device)
    (iova length off len p : Nat) (seq ack : Mem)
    (hen : s.dirty.is_enabled = true)
    (hw : pds_vfio_dirty_sync_window s.dirty.region iova length = Except.ok (off, len))
    (hseq : s.dirty.region.host_seq = some seq) (hack : s.dirty.region.host_ack = some ack)
    (hps : 0 < s.dirty.region.page_size) (hstart : s.dirty.region.start ≤ iova)
    (hov : iova + length + s.dirty.region.page_size + 64 ≤ 2 ^ 64)
    (hal : ((iova - s.dirty.region.start) / s.dirty.region.page_size) % 8 = 0)
    (hoff : off * 8 < 2 ^ 32) (hlen : len < 2 ^ 32)
    (hp1 : (iova - s.dirty.region.start) / s.dirty.region.page_size ≤ p)
    (hp2 : p < (iova - s.dirty.region.start + length) / s.dirty.region.page_size)
    (hdiff : page_bit (dma_fill env.read (u32 off) (u32 len) seq) p ≠ page_bit ack p)
    (hread : seq_ack_err cfg env.read (u32 off) (u32 len) = 0) :
    Event.iova_bitmap_set (s.dirty.region.start + p * s.dirty.region.page_size)
      s.dirty.region.page_size ∈ (pds_vfio_dirty_sync cfg env s iova length).trace := by
  obtain ⟨_, htr, _, _⟩ :=
    sync_read_ok cfg env s iova length off len seq ack hen hw hseq hack hread
  have ho32 : u32 off = off := u32_of_lt (by omega)
  have hl32 : u32 len = len := u32_of_lt hlen
  rw [ho32, hl32] at htr hdiff
  obtain ⟨hl0, _, hag, hlb, _, _⟩ := sync_window_ok s.dirty.region iova length off len hw
  have hlenpos : 0 < length := Nat.pos_of_ne_zero hl0
  have hoffeq := window_offset_ge s.dirty.region iova length off len hw hstart (by omega)
  have hleneq : len = (((length + s.dirty.region.page_size - 1) / s.dirty.region.page_size - 1) /
      64 + 1) * 8 := by
    rw [hlb, hag]
    exact sync_bitmap_size_eq hps hlenpos (by omega)
  -- the pages of the request lie below idx + c
  have hcc := ceil_div_cases length s.dirty.region.page_size hps
  have hdmA := Nat.div_add_mod (iova - s.dirty.region.start) s.dirty.region.page_size
  have hmA := Nat.mod_lt (iova - s.dirty.region.start) hps
  have hdmL := Nat.div_add_mod length s.dirty.region.page_size
  have hmL := Nat.mod_lt length hps
  have hLc : length ≤ s.dirty.region.page_size *
      ((length + s.dirty.region.page_size - 1) / s.dirty.region.page_size) := by
    rcases Nat.eq_zero_or_pos (length % s.dirty.region.page_size) with h0 | h0
    · rw [hcc.1 h0]
      omega
    · rw [hcc.2 (by omega), Nat.mul_add, Nat.mul_one]
      omega
  have hpc : p < (iova - s.dirty.region.start) / s.dirty.region.page_size +
      (length + s.dirty.region.page_size - 1) / s.dirty.region.page_size := by
    have hlt : (iova - s.dirty.region.start + length) / s.dirty.region.page_size <
        (iova - s.dirty.region.start) / s.dirty.region.page_size +
        (length + s.dirty.region.page_size - 1) / s.dirty.region.page_size + 1 := by
      apply Nat.div_lt_of_lt_mul
      rw [Nat.mul_add, Nat.mul_add, Nat.mul_one]
      omega
    omega
  -- the address of the page does not wrap
  have hpaddr : s.dirty.region.start + p * s.dirty.region.page_size < 2 ^ 64 := by
    have h1 : (p + 1) * s.dirty.region.page_size ≤
        (iova - s.dirty.region.start + length) / s.dirty.region.page_size *
          s.dirty.region.page_size := Nat.mul_le_mul_right _ (by omega)
    have h2 := Nat.div_mul_le_self (iova - s.dirty.region.start + length)
      s.dirty.region.page_size
    rw [Nat.add_mul, Nat.one_mul] at h1
    omega
  generalize hidx : (iova - s.dirty.region.start) / s.dirty.region.page_size = idx at *
  generalize hc : (length + s.dirty.region.page_size - 1) / s.dirty.region.page_size = c at *
  have h8off : 8 * off = idx := by omega
  have hd : p - idx < c := by omega
  have hi : (p - idx) / 64 < len / 8 := by omega
  have hb : (p - idx) % 64 < 64 := Nat.mod_lt _ (by norm_num)
  have hpage : 8 * (off + 8 * ((p - idx) / 64)) + (p - idx) % 64 = p := by omega
  have hx : (le64_to_cpu_at (dma_fill env.read off len seq) (off + 8 * ((p - idx) / 64)) ^^^
      le64_to_cpu_at ack (off + 8 * ((p - idx) / 64))).testBit ((p - idx) % 64) = true := by
    rw [Nat.testBit_xor, le64_testBit_page _ _ _ hb, le64_testBit_page _ _ _ hb, hpage,
      bool_xor_iff_ne]
    exact hdiff
  have hmem := merger_calls_mem_of_bit (code_addr s.dirty.region off) s.dirty.region.page_size
    (dma_fill env.read off len seq) ack off (len / 8) ((p - idx) / 64) ((p - idx) % 64) hi hb hx
  have haddr : code_addr s.dirty.region off ((p - idx) / 64) ((p - idx) % 64) =
      s.dirty.region.start + p * s.dirty.region.page_size := by
    unfold code_addr
    have e : off * 8 % 2 ^ 32 + (p - idx) / 64 * 64 + (p - idx) % 64 = p := by
      rw [Nat.mod_eq_of_lt hoff]
      omega
    rw [e]
    exact Nat.mod_eq_of_lt hpaddr
  rw [haddr] at hmem
  rw [htr]
  simp only [List.mem_append]
  exact Or.inl (Or.inr hmem)

/-- C30 (as amended): for every enabled region with allocated bitmaps and every
accepted (iova, length) with region.start <= iova, nothing wrapping, and the
page index (iova - region.start) / page_size of the window start a multiple
of 8, every page index p with (iova - region.start) / page_size <= p <
(iova - region.start + length) / page_size whose bit in the sequence bitmap
after the read-sequence step differs from its acknowledge bit is reported: a
pds_vfio_dirty_sync that returns 0 calls
set(region.start + p * page_size, page_size). -/
theorem C30_sync_reports_changed_pages (cfg : Cfg) (env : SyncEnv) (s : pds_vfio_pci_device)
    (iova length off len p : Nat) (seq ack : Mem)
    (hen : s.dirty.is_enabled = true)
    (hw : pds_vfio_dirty_sync_window s.dirty.region iova length = Except.ok (off, len))
    (hseq : s.dirty.region.host_seq = some seq) (hack : s.dirty.region.host_ack = some ack)
    (hps : 0 < s.dirty.region.page_size) (hstart : s.dirty.region.start ≤ iova)
    (hov : iova + length + s.dirty.region.page_size + 64 ≤ 2 ^ 64)
    (hal : ((iova - s.dirty.region.start) / s.dirty.region.page_size) % 8 = 0)
    (hoff : off * 8 < 2 ^ 32) (hlen : len < 2 ^ 32)
    (hp1 : (iova - s.dirty.region.start) / s.dirty.region.page_size ≤ p)
    (hp2 : p < (iova - s.dirty.region.start + length) / s.dirty.region.page_size)
    (hdiff : page_bit (dma_fill env.read (u32 off) (u32 len) seq) p ≠ page_bit ack p)
    (hok : (pds_vfio_dirty_sync cfg env s iova length).err = 0) :
    Event.iova_bitmap_set (s.dirty.region.start + p * s.dirty.region.page_size)
      s.dirty.region.page_size ∈ (pds_vfio_dirty_sync cfg env s iova length).trace :=
  sync_reports_changed_page cfg env s iova length off len p seq ack hen hw hseq hack hps hstart
    hov hal hoff hlen hp1 hp2 hdiff
    (sync_ok_round_trips cfg env s iova length off len hen hw hok).1

/-- Witness for C30 (as amended): the window of the pages 8 .. 71 of
devEnabled128, whose byte window starts at byte 1; the device reports page 9
as written. -/
theorem C30_sync_reports_changed_pages_witness :
    Event.iova_bitmap_set (devEnabled128.dirty.region.start +
        9 * devEnabled128.dirty.region.page_size) devEnabled128.dirty.region.page_size ∈
      (pds_vfio_dirty_sync cfg4k okSync devEnabled128 (8 * 4096) (64 * 4096)).trace :=
  C30_sync_reports_changed_pages cfg4k okSync devEnabled128 (8 * 4096) (64 * 4096) 1 8 9
    zeroed zeroed rfl rfl rfl rfl (by decide) (by decide) (by decide) (by decide) (by decide)
    (by decide) (by decide) (by decide) (by decide) (by decide)

/-- Counterexample to C30 as stated: in devEnabled128 a first sync of the pages
0 .. 63, whose read command the device refuses after it transferred its
bitmap with page 1 set, leaves the sequence bit of page 1 set and the
acknowledge bit clear. A following sync of the window iova = 4096,
length = 64 pages (iova page-aligned, page index 1) is accepted with
bmp_offset = 1, so its bit 0 is the bit of page 8: it returns 0 with no call
of the output sink, page 1 is not reported although it lies in the window and
its sequence bit differs from its acknowledge bit after the read step (the
acknowledge bit is clear before and after the sync). -/
theorem C30_sync_skips_first_pages_counterexample :
    (pds_vfio_dirty_sync cfg4k syncPage1ReadFails devEnabled128 0
      (64 * 4096)).dev.dirty.is_enabled = true ∧
    4096 % 4096 = 0 ∧
    pds_vfio_dirty_sync_window
      (pds_vfio_dirty_sync cfg4k syncPage1ReadFails devEnabled128 0 (64 * 4096)).dev.dirty.region
      4096 (64 * 4096) = Except.ok (1, 8) ∧
    ((4096 - 0) / 4096 ≤ 1 ∧ 1 < (4096 - 0 + 64 * 4096) / 4096) ∧
    (pds_vfio_dirty_sync cfg4k syncPage1
      (pds_vfio_dirty_sync cfg4k syncPage1ReadFails devEnabled128 0 (64 * 4096)).dev
      4096 (64 * 4096)).err = 0 ∧
    (pds_vfio_dirty_sync cfg4k syncPage1
      (pds_vfio_dirty_sync cfg4k syncPage1ReadFails devEnabled128 0 (64 * 4096)).dev
      4096 (64 * 4096)).trace =
      [Event.dirty_seq_ack_cmd 1 1 8 true, Event.dirty_seq_ack_cmd 1 1 8 false] ∧
    (pds_vfio_dirty_sync cfg4k syncPage1
      (pds_vfio_dirty_sync cfg4k syncPage1ReadFails devEnabled128 0 (64 * 4096)).dev
      4096 (64 * 4096)).dev.dirty.region.host_seq.map (fun m => page_bit m 1) = some true ∧
    (pds_vfio_dirty_sync cfg4k syncPage1
      (pds_vfio_dirty_sync cfg4k syncPage1ReadFails devEnabled128 0 (64 * 4096)).dev
      4096 (64 * 4096)).dev.dirty.region.host_ack.map (fun m => page_bit m 1) = some false ∧
    (pds_vfio_dirty_sync cfg4k syncPage1ReadFails devEnabled128 0
      (64 * 4096)).dev.dirty.region.host_ack.map (fun m => page_bit m 1) = some false := by
  refine ⟨by decide, by decide, rfl, by decide, by decide, by decide, by decide, by decide,
    by decide⟩

/-! ## The blocks of the two bitmaps -/

theorem alloc_bitmaps_sized_eq (env : EnableEnv) (dirty : pds_vfio_dirty)
    (blocks : bitmap_blocks) (bytes : Nat) :
    pds_vfio_dirty_alloc_bitmaps_sized env dirty blocks bytes =
      ((pds_vfio_dirty_alloc_bitmaps env dirty bytes).1,
       (pds_vfio_dirty_alloc_bitmaps env dirty bytes).2,
       if env.seq_alloc_ok = true ∧ env.ack_alloc_ok = true then
         { seq_size := some bytes, ack_size := some bytes }
       else blocks) := by
  unfold pds_vfio_dirty_alloc_bitmaps_sized pds_vfio_dirty_alloc_bitmaps vzalloc
  cases h1 : env.seq_alloc_ok
  · simp
  · cases h2 : env.ack_alloc_ok
    · simp
    · simp

theorem free_bitmaps_sized_eq (dirty : pds_vfio_dirty) (blocks : bitmap_blocks) :
    pds_vfio_dirty_free_bitmaps_sized dirty blocks =
      (pds_vfio_dirty_free_bitmaps dirty, { seq_size := none, ack_size := none }) := rfl

theorem enable_sized_fst (cfg : Cfg) (env : EnableEnv) (s : pds_vfio_pci_device)
    (blocks : bitmap_blocks) (ranges : List interval_tree_node) (nnodes page_size : Nat) :
    (pds_vfio_dirty_enable_sized cfg env s blocks ranges nnodes page_size).1 =
      pds_vfio_dirty_enable cfg env s ranges nnodes page_size := by
  have hE1 : ENOMEM ≠ 0 := by decide
  have hE2 : EIO ≠ 0 := by decide
  unfold pds_vfio_dirty_enable_sized pds_vfio_dirty_enable
  simp only [alloc_bitmaps_sized_eq, free_bitmaps_sized_eq, tracked_ranges_eq]
  by_cases h0 : pds_vfio_dirty_is_enabled s = true
  · simp [h0]
  · by_cases h1 : env.status_err < 0
    · simp [h0, h1]
    · by_cases h2 : u8 env.num_regions = 0
      · by_cases h3 : u8 env.max_regions = 0
        · simp [h0, h1, h2, h3]
        · cases h4 : interval_tree_iter_first (tracked_ranges env ranges nnodes) with
          | none => simp [h0, h1, h2, h3]
          | some node =>
            cases h5 : env.region_info_ok
            · simp [h0, h1, h2, h3]
            · cases h6 : env.regions_dma_ok
              · simp [h0, h1, h2, h3]
              · by_cases h7 : env.enable_err = 0
                · unfold pds_vfio_dirty_alloc_bitmaps pds_vfio_dirty_alloc_sgl
                  cases h8 : env.seq_alloc_ok
                  · simp [h0, h1, h2, h3, h7, hE1]
                  · cases h9 : env.ack_alloc_ok
                    · simp [h0, h1, h2, h3, h7, hE1]
                    · cases h10 : env.sgl_alloc_ok
                      · simp [h0, h1, h2, h3, h7, hE1]
                      · cases h11 : env.sgl_dma_ok
                        · simp [h0, h1, h2, h3, h7, hE2]
                        · simp [h0, h1, h2, h3, h7]
                · simp [h0, h1, h2, h3, h7]
      · simp [h0, h1, h2]

theorem enable_sized_blocks (cfg : Cfg) (env : EnableEnv) (s : pds_vfio_pci_device)
    (blocks : bitmap_blocks) (ranges : List interval_tree_node) (nnodes page_size : Nat) :
    ((pds_vfio_dirty_enable_sized cfg env s blocks ranges nnodes page_size).1.dev = s ∧
      (pds_vfio_dirty_enable_sized cfg env s blocks ranges nnodes page_size).2 = blocks) ∨
    ((pds_vfio_dirty_enable_sized cfg env s blocks ranges nnodes page_size).1.dev =
        { dirty := pds_vfio_dirty_free_bitmaps s.dirty } ∧
      (pds_vfio_dirty_enable_sized cfg env s blocks ranges nnodes page_size).2 =
        { seq_size := none, ack_size := none }) ∨
    ((pds_vfio_dirty_enable_sized cfg env s blocks ranges nnodes page_size).1.dev.dirty.region.host_seq
        = some zeroed ∧
      (pds_vfio_dirty_enable_sized cfg env s blocks ranges nnodes page_size).1.dev.dirty.region.host_ack
        = some zeroed ∧
      (pds_vfio_dirty_enable_sized cfg env s blocks ranges nnodes page_size).1.dev.dirty.region.bmp_bytes
        = u32 env.dev_page_count / BITS_PER_BYTE ∧
      (pds_vfio_dirty_enable_sized cfg env s blocks ranges nnodes page_size).2 =
        { seq_size := some (u32 env.dev_page_count / BITS_PER_BYTE),
          ack_size := some (u32 env.dev_page_count / BITS_PER_BYTE) }) := by
  have hE1 : ENOMEM ≠ 0 := by decide
  have hE2 : EIO ≠ 0 := by decide
  unfold pds_vfio_dirty_enable_sized
  simp only [tracked_ranges_eq]
  by_cases h0 : pds_vfio_dirty_is_enabled s = true
  · simp [h0]
  · by_cases h1 : env.status_err < 0
    · simp [h0, h1]
    · by_cases h2 : u8 env.num_regions = 0
      · by_cases h3 : u8 env.max_regions = 0
        · simp [h0, h1, h2, h3]
        · cases h4 : interval_tree_iter_first (tracked_ranges env ranges nnodes) with
          | none => simp [h0, h1, h2, h3]
          | some node =>
            cases h5 : env.region_info_ok
            · simp [h0, h1, h2, h3]
            · cases h6 : env.regions_dma_ok
              · simp [h0, h1, h2, h3]
              · by_cases h7 : env.enable_err = 0
                · unfold pds_vfio_dirty_alloc_bitmaps_sized vzalloc pds_vfio_dirty_alloc_sgl
                    pds_vfio_dirty_free_bitmaps_sized
                  cases h8 : env.seq_alloc_ok
                  · simp [h0, h1, h2, h3, h7, hE1]
                  · cases h9 : env.ack_alloc_ok
                    · simp [h0, h1, h2, h3, h7, hE1]
                    · cases h10 : env.sgl_alloc_ok
                      · right
                        left
                        simp [h0, h1, h2, h3, h7, hE1, pds_vfio_dirty_free_bitmaps]
                      · cases h11 : env.sgl_dma_ok
                        · right
                          left
                          simp [h0, h1, h2, h3, h7, hE2, pds_vfio_dirty_free_bitmaps]
                        · right
                          right
                          simp [h0, h1, h2, h3, h7, pds_vfio_dirty_set_enabled]
                · simp [h0, h1, h2, h3, h7]
      · simp [h0, h1, h2]

theorem disable_sized_fst (s : pds_vfio_pci_device) (blocks : bitmap_blocks) (send_cmd : Bool) :
    (pds_vfio_dirty_disable_sized s blocks send_cmd).1 = pds_vfio_dirty_disable s send_cmd := by
  unfold pds_vfio_dirty_disable_sized pds_vfio_dirty_disable
  simp only [free_bitmaps_sized_eq]
  by_cases h0 : pds_vfio_dirty_is_enabled s = true
  · simp [h0]
  · simp [h0]

theorem disable_sized_blocks (s : pds_vfio_pci_device) (blocks : bitmap_blocks)
    (send_cmd : Bool) :
    (s.dirty.is_enabled = false ∧
      (pds_vfio_dirty_disable_sized s blocks send_cmd).1.dev = s ∧
      (pds_vfio_dirty_disable_sized s blocks send_cmd).2 = blocks) ∨
    ((pds_vfio_dirty_disable_sized s blocks send_cmd).1.dev.dirty.region.host_seq = none ∧
      (pds_vfio_dirty_disable_sized s blocks send_cmd).1.dev.dirty.region.host_ack = none ∧
      (pds_vfio_dirty_disable_sized s blocks send_cmd).1.dev.dirty.region.bmp_bytes = 0 ∧
      (pds_vfio_dirty_disable_sized s blocks send_cmd).2 =
        { seq_size := none, ack_size := none }) := by
  unfold pds_vfio_dirty_disable_sized
  simp only [free_bitmaps_sized_eq]
  cases h0 : s.dirty.is_enabled
  · left
    simp [pds_vfio_dirty_is_enabled, h0]
  · right
    simp [pds_vfio_dirty_is_enabled, h0, pds_vfio_dirty_free_bitmaps]

theorem blocks_inv_init : BlocksInv devOff { seq_size := none, ack_size := none } :=
  Or.inr ⟨rfl, rfl, rfl, rfl, rfl⟩

theorem blocks_inv_enable (cfg : Cfg) (env : EnableEnv) (s : pds_vfio_pci_device)
    (blocks : bitmap_blocks) (ranges : List interval_tree_node) (nnodes page_size : Nat)
    (h : BlocksInv s blocks) :
    BlocksInv (pds_vfio_dirty_enable_sized cfg env s blocks ranges nnodes page_size).1.dev
      (pds_vfio_dirty_enable_sized cfg env s blocks ranges nnodes page_size).2 := by
  rcases enable_sized_blocks cfg env s blocks ranges nnodes page_size with c | c | c
  · rw [c.1, c.2]
    exact h
  · rw [c.1, c.2]
    exact Or.inr ⟨rfl, rfl, rfl, rfl, rfl⟩
  · obtain ⟨c1, c2, c3, c4⟩ := c
    left
    rw [c1, c2, c3, c4]
    exact ⟨rfl, rfl, rfl, rfl⟩

theorem blocks_inv_sync (cfg : Cfg) (env : SyncEnv) (s : pds_vfio_pci_device)
    (blocks : bitmap_blocks) (iova length : Nat) (h : BlocksInv s blocks) :
    BlocksInv (pds_vfio_dirty_sync cfg env s iova length).dev blocks := by
  have hf := sync_frame cfg env s iova length
  have hk := sync_keeps_alloc cfg env s iova length
  rcases h with ⟨h1, h2, h3, h4⟩ | ⟨h1, h2, h3, h4, h5⟩
  · left
    rw [hk.1, hk.2.1, hf.2.2.2.2.1]
    exact ⟨h1, h2, h3, h4⟩
  · right
    have e1 : (pds_vfio_dirty_sync cfg env s iova length).dev.dirty.region.host_seq = none := by
      have := hk.1
      rw [h1] at this
      cases hh : (pds_vfio_dirty_sync cfg env s iova length).dev.dirty.region.host_seq with
      | none => rfl
      | some x =>
        rw [hh] at this
        exact Bool.noConfusion this
    have e2 : (pds_vfio_dirty_sync cfg env s iova length).dev.dirty.region.host_ack = none := by
      have := hk.2.1
      rw [h2] at this
      cases hh : (pds_vfio_dirty_sync cfg env s iova length).dev.dirty.region.host_ack with
      | none => rfl
      | some x =>
        rw [hh] at this
        exact Bool.noConfusion this
    rw [hf.2.2.2.2.1]
    exact ⟨e1, e2, h3, h4, h5⟩

theorem blocks_inv_disable (s : pds_vfio_pci_device) (blocks : bitmap_blocks) (send_cmd : Bool)
    (h : BlocksInv s blocks) :
    BlocksInv (pds_vfio_dirty_disable_sized s blocks send_cmd).1.dev
      (pds_vfio_dirty_disable_sized s blocks send_cmd).2 := by
  rcases disable_sized_blocks s blocks send_cmd with c | c
  · rw [c.2.1, c.2.2]
    exact h
  · obtain ⟨c1, c2, c3, c4⟩ := c
    right
    rw [c4]
    exact ⟨c1, c2, c3, rfl, rfl⟩

theorem reachable_sized_inv (cfg : Cfg) (s : pds_vfio_pci_device) (blocks : bitmap_blocks)
    (h : ReachableSized cfg s blocks) : BlocksInv s blocks := by
  induction h with
  | init => exact blocks_inv_init
  | enable s blocks env ranges nnodes page_size _ ih =>
    exact blocks_inv_enable cfg env s blocks ranges nnodes page_size ih
  | sync s blocks env iova length _ ih => exact blocks_inv_sync cfg env s blocks iova length ih
  | disable s blocks send_cmd _ ih => exact blocks_inv_disable s blocks send_cmd ih

theorem reachable_has_blocks (cfg : Cfg) (s : pds_vfio_pci_device) (h : Reachable cfg s) :
    ∃ blocks, ReachableSized cfg s blocks := by
  induction h with
  | init => exact ⟨_, ReachableSized.init⟩
  | enable s env ranges nnodes page_size _ ih =>
    obtain ⟨b, hb⟩ := ih
    have h2 := ReachableSized.enable s b env ranges nnodes page_size hb
    rw [enable_sized_fst] at h2
    exact ⟨_, h2⟩
  | sync s env iova length _ ih =>
    obtain ⟨b, hb⟩ := ih
    exact ⟨b, ReachableSized.sync s b env iova length hb⟩
  | disable s send_cmd _ ih =>
    obtain ⟨b, hb⟩ := ih
    have h2 := ReachableSized.disable s b send_cmd hb
    rw [disable_sized_fst] at h2
    exact ⟨_, h2⟩

theorem reachable_of_sized (cfg : Cfg) (s : pds_vfio_pci_device) (blocks : bitmap_blocks)
    (h : ReachableSized cfg s blocks) : Reachable cfg s := by
  induction h with
  | init => exact Reachable.init
  | enable s blocks env ranges nnodes page_size _ ih =>
    rw [enable_sized_fst]
    exact Reachable.enable s env ranges nnodes page_size ih
  | sync s blocks env iova length _ ih => exact Reachable.sync s env iova length ih
  | disable s blocks send_cmd _ ih =>
    rw [disable_sized_fst]
    exact Reachable.disable s send_cmd ih

theorem reachable_sized_devEnabled64 :
    ReachableSized cfg4k devEnabled64 { seq_size := some 8, ack_size := some 8 } :=
  ReachableSized.enable devOff { seq_size := none, ack_size := none } (enableOk 64)
    [{ start := 0x100000, last := 0x13FFFF }] 1 4096 ReachableSized.init

/-- C23: in every state reached from the zeroed, disabled state by Enable, Sync
and Disable calls with any arguments and any answers of the device, the
allocator and the DMA layer, either host_seq and host_ack are both allocated
and each points to a vzalloc block of exactly region.bmp_bytes bytes, or both
are NULL, own no block, and bmp_bytes = 0; and each of them, and the scatter
list, is allocated if and only if is_enabled is true. The sizes of the blocks
are followed through the calls by the functions with suffix sized, which
return the same results and states as the functions they follow, so every
reachable state comes with the sizes of its blocks. -/
theorem C23_bitmap_pair_invariant (cfg : Cfg) (s : pds_vfio_pci_device)
    (hr : Reachable cfg s) :
    (∃ blocks, ReachableSized cfg s blocks) ∧
    (∀ blocks, ReachableSized cfg s blocks →
      (s.dirty.region.host_seq.isSome = true ∧ s.dirty.region.host_ack.isSome = true ∧
        blocks.seq_size = some s.dirty.region.bmp_bytes ∧
        blocks.ack_size = some s.dirty.region.bmp_bytes) ∨
      (s.dirty.region.host_seq = none ∧ s.dirty.region.host_ack = none ∧
        s.dirty.region.bmp_bytes = 0 ∧ blocks.seq_size = none ∧ blocks.ack_size = none)) ∧
    (s.dirty.region.host_seq.isSome = true ↔ s.dirty.is_enabled = true) ∧
    (s.dirty.region.host_ack.isSome = true ↔ s.dirty.is_enabled = true) ∧
    (s.dirty.region.sgl.isSome = true ↔ s.dirty.is_enabled = true) := by
  refine ⟨reachable_has_blocks cfg s hr,
    fun blocks hb => reachable_sized_inv cfg s blocks hb, ?_⟩
  have hinv := reachable_track_inv cfg s hr
  cases hen : s.dirty.is_enabled with
  | true =>
    obtain ⟨h1, h2, h3⟩ := hinv.1 hen
    exact ⟨⟨fun _ => rfl, fun _ => h1⟩, ⟨fun _ => rfl, fun _ => h2⟩,
      ⟨fun _ => rfl, fun _ => h3⟩⟩
  | false =>
    obtain ⟨h1, h2, _, h4, _⟩ := hinv.2 hen
    refine ⟨?_, ?_, ?_⟩
    · rw [h1]
      simp
    · rw [h2]
      simp
    · rw [h4]
      simp

/-- Witness for C23: the state devEnabled64 reached by one Enable call, whose
bitmaps are two blocks of 8 bytes. -/
theorem C23_bitmap_pair_invariant_witness :
    (∃ blocks, ReachableSized cfg4k devEnabled64 blocks) ∧
    ((devEnabled64.dirty.region.host_seq.isSome = true ∧
        devEnabled64.dirty.region.host_ack.isSome = true ∧
        ({ seq_size := some 8, ack_size := some 8 } : bitmap_blocks).seq_size =
          some devEnabled64.dirty.region.bmp_bytes ∧
        ({ seq_size := some 8, ack_size := some 8 } : bitmap_blocks).ack_size =
          some devEnabled64.dirty.region.bmp_bytes) ∨
      (devEnabled64.dirty.region.host_seq = none ∧ devEnabled64.dirty.region.host_ack = none ∧
        devEnabled64.dirty.region.bmp_bytes = 0 ∧
        ({ seq_size := some 8, ack_size := some 8 } : bitmap_blocks).seq_size = none ∧
        ({ seq_size := some 8, ack_size := some 8 } : bitmap_blocks).ack_size = none)) :=
  ⟨(C23_bitmap_pair_invariant cfg4k devEnabled64
      (Reachable.enable devOff (enableOk 64) [{ start := 0x100000, last := 0x13FFFF }] 1 4096
        Reachable.init)).1,
   (C23_bitmap_pair_invariant cfg4k devEnabled64
      (Reachable.enable devOff (enableOk 64) [{ start := 0x100000, last := 0x13FFFF }] 1 4096
        Reachable.init)).2.1 _ reachable_sized_devEnabled64⟩

/-! ## Windows inside the bitmap fit the scatter list -/

theorem seq_ack_npages_le (cfg : Cfg) (P off len : Nat) (hps : 0 < cfg.PAGE_SIZE)
    (h64 : P + 8 * cfg.PAGE_SIZE ≤ 2 ^ 64) (hlen : off + len < 2 ^ 32)
    (hin : off + len ≤ P / 8) :
    seq_ack_npages cfg off len ≤ (P + cfg.PAGE_SIZE * 8 - 1) / (cfg.PAGE_SIZE * 8) := by
  have hm : off % cfg.PAGE_SIZE ≤ off := Nat.mod_le _ _
  unfold seq_ack_npages
  have e1 : u32 (off % cfg.PAGE_SIZE) = off % cfg.PAGE_SIZE := u32_of_lt (by omega)
  rw [e1]
  have e2 : u32 (len + off % cfg.PAGE_SIZE) = len + off % cfg.PAGE_SIZE :=
    u32_of_lt (by omega)
  rw [e2, DIV_ROUND_UP_eq (by omega) (by omega)]
  have h1 : (len + off % cfg.PAGE_SIZE + cfg.PAGE_SIZE - 1) / cfg.PAGE_SIZE =
      (8 * (len + off % cfg.PAGE_SIZE + cfg.PAGE_SIZE - 1)) / (8 * cfg.PAGE_SIZE) :=
    (Nat.mul_div_mul_left _ _ (by norm_num)).symm
  rw [h1, Nat.mul_comm cfg.PAGE_SIZE 8]
  apply Nat.div_le_div_right
  omega

end PdsDirty
